import Mathlib

/-!
# NMEA decoding and fix tracking of `src-linux/gps.c`

A shallow embedding of the sentence checksum, the field parsers, the GGA
decoder, the fix-state tracker and the device session (`gps_read`,
`gps_reopen`, `gps_close`, the reconnect timer and the enable/disable calls)
of `gps.c`, in the build without `CFG_nogps` and without `CFG_usegpsd`, and
theorems about them.

Conventions of the embedding:

* a C buffer is a `List Nat` of byte values and a pointer into it is an index;
  a read or write outside the list is a fault, and every function that
  touches memory returns `none` when it faults;
* `u1_t`, `int`, `sL_t`, `uL_t` values are `Nat`/`Int`, with an explicit
  reduction modulo `2^32` or `2^64` wherever the C type can wrap;
* `double` and `float` values are exact rationals (`ℚ`): rounding is outside
  the model, and a result that is no finite number is a `none`;
* a C function returning an `int` truth value returns the `Int` 0 or 1;
* what the surroundings do (the clock, the event sink, the answers of the
  operating system to `open`, `read`, `tcsetattr`, ...) is an argument of
  the function that meets it, and a call that may end the process returns a
  `Run`.
-/

namespace Gps

/-! ## Bytes and helpers declared outside `gps.c` -/

/-- Byte values of an ASCII text, in the order they sit in a buffer. -/
def bytes (s : String) : List Nat := s.data.map Char.toNat

/-- Characters `0`-`9`, `a`-`f`, `A`-`F`. -/
def isHexDigit (c : Nat) : Prop :=
  (48 ≤ c ∧ c ≤ 57) ∨ (97 ≤ c ∧ c ≤ 102) ∨ (65 ≤ c ∧ c ≤ 70)

instance (c : Nat) : Decidable (isHexDigit c) := by
  unfold isHexDigit; infer_instance

/-- Modelled from the spec: `rt_hexDigit` is declared in rt.h and defined in
rt.c, neither of which is among the sources. The spec speaks of "the two hex
digits following `*`": the function gives the value 0..15 of a hexadecimal
digit character, and -1 for every other character (the theorems below use
it on hexadecimal digits only, or hold whatever it returns). -/
def rt_hexDigit (c : Nat) : Int :=
  if 48 ≤ c ∧ c ≤ 57 then (c : Int) - 48
  else if 97 ≤ c ∧ c ≤ 102 then (c : Int) - 87
  else if 65 ≤ c ∧ c ≤ 70 then (c : Int) - 55
  else -1

/-! ## `nmea_cksum` -/

/-- The `for` loop of `nmea_cksum`, entered at index `i` with the running
value `v`; `fuel` is `len - i`, the number of iterations left before
`i < len` fails. A found `*` ends the loop with the comparison result and
the buffer in which the two checksum characters are zeroed. -/
def nmea_cksum_loop (data : List Nat) : Nat → Nat → Nat → Option (Int × List Nat)
  | 0, _, _ => some (0, data)
  | fuel + 1, i, v =>
    match data[i]? with
    | none => none
    | some b =>
      if b = 42 then
        match data[i + 1]?, data[i + 2]? with
        | some h1, some h2 =>
          let s : Int := Int.lor (rt_hexDigit h1 <<< (4 : Int)) (rt_hexDigit h2)
          some (if s = (v : Int) then 1 else 0, (data.set (i + 1) 0).set (i + 2) 0)
        | _, _ => none
      else nmea_cksum_loop data fuel (i + 1) (v ^^^ b)

/-- Embedding of `nmea_cksum(data, len)`: the returned `int` and the buffer
after the call. -/
def nmea_cksum (data : List Nat) (len : Nat) : Option (Int × List Nat) :=
  match data[0]? with
  | none => none
  | some b0 =>
    if b0 ≠ 36 then some (0, data)
    else nmea_cksum_loop data (len - 1) 1 0

/-- XOR of the bytes `data[i]`, ..., `data[k-1]`, starting from `v`. -/
def xorRange (data : List Nat) (i k : Nat) (v : Nat) : Nat :=
  ((data.take k).drop i).foldl (fun a b => a ^^^ b) v

/-- What `nmea_cksum` does once its loop stands at the first `*`, at index
`k`, with the running value `v`. -/
def cksumAtStar (data : List Nat) (k v : Nat) : Option (Int × List Nat) :=
  match data[k + 1]?, data[k + 2]? with
  | some h1, some h2 =>
    some (if Int.lor (rt_hexDigit h1 <<< (4 : Int)) (rt_hexDigit h2) = (v : Int) then 1 else 0,
      (data.set (k + 1) 0).set (k + 2) 0)
  | _, _ => none

/-! ## Field parsers -/

/-- The special value marking an absent NMEA field. -/
def NILFIELD : Int := 0x423a0a60

/-- Two to the 64, the number of `uL_t` and `sL_t` values. -/
def W64 : Nat := 2 ^ 64

/-- Conversion of a 64-bit pattern to `sL_t`. -/
def toS64 (x : Nat) : Int :=
  if x % W64 < 2 ^ 63 then ((x % W64 : Nat) : Int) else ((x % W64 : Nat) : Int) - (W64 : Int)

/-- Conversion of an `sL_t` value to `int` (32 bits, two's complement). -/
def wrap32 (x : Int) : Int := (x + 2 ^ 31) % 2 ^ 32 - 2 ^ 31

/-- The value `(sign ? -1 : 1) * v` computed in `uL_t`: the `int` operand is
converted to `uL_t` and the product is taken modulo `2^64`. -/
def signMul (sign : Nat) (v : Nat) : Nat :=
  (((if sign ≠ 0 then (-1 : Int) else 1) * (v : Int)) % (W64 : Int)).toNat

/-- Modelled from the spec: the digit loop of `rt_readDec` (see below; rt.c
is not among the sources) over the bytes from the pointer on, with the value
`v` and the count `n` of digits read so far; the value wraps at 64 bits.
Reaching the end of the buffer is a fault. -/
def rt_readDec_loop : List Nat → Nat → Nat → Option (Nat × Nat)
  | [], _, _ => none
  | c :: rest, v, n =>
    if 48 ≤ c ∧ c ≤ 57 then rt_readDec_loop rest ((v * 10 + (c - 48)) % W64) (n + 1)
    else some (v, n)

/-- Modelled from the spec: `rt_readDec` is declared in rt.h and defined in
rt.c, neither of which is among the sources. The spec describes the numeric
fields as "digits": the function reads the run of decimal digits at the
pointer, leaves the pointer behind the last digit and returns their value;
the callers in `gps.c` store it in a `uL_t`, so the value is given modulo
`2^64`. A run of no digits leaves the pointer where it was (the callers test
for exactly that) and returns -1, which is `2^64 - 1` in a `uL_t`; in
`gps.c` that value is used only for a field with a `.` and no digit after
it. The result is the value and the pointer after the call. -/
def rt_readDec (buf : List Nat) (p : Nat) : Option (Nat × Nat) :=
  match rt_readDec_loop (buf.drop p) 0 0 with
  | none => none
  | some (v, n) => some (if n = 0 then W64 - 1 else v, p + n)

/-- Outcome of `nmea_decimal` or `nmea_float` when no fault occurs: `fail` is
`return 0`, where neither `*pp` nor `*pv` is written; `ok pp pv` is
`return 1` with the values `*pp` and `*pv` have after the call. -/
inductive Parsed (α : Type) where
  | fail : Parsed α
  | ok (pp : Nat) (pv : α) : Parsed α
  deriving DecidableEq

/-- Embedding of `nmea_decimal(pp, pv)` on the buffer `buf` with `*pp = pp`. -/
def nmea_decimal (buf : List Nat) (pp : Nat) : Option (Parsed Int) :=
  match buf[pp]? with
  | none => none
  | some c0 =>
    if c0 = 0 then some Parsed.fail
    else if c0 = 42 ∨ c0 = 44 then some (Parsed.ok pp NILFIELD)
    else
      let sign : Nat := if c0 = 45 then 1 else 0
      match rt_readDec buf (pp + sign) with
      | none => none
      | some (v, p) =>
        if pp + sign = p then some Parsed.fail
        else
          match buf[p]? with
          | none => none
          | some c =>
            if c ≠ 44 ∧ c ≠ 42 then some Parsed.fail
            else some (Parsed.ok (p + 1) (toS64 (signMul sign v)))

/-- The loop `while( p < f ) { p++; p10 *= 10; }` of `nmea_float`, run `n`
times on the `uL_t` variable `p10`. -/
def p10_loop : Nat → Nat → Nat
  | 0, p10 => p10
  | n + 1, p10 => p10_loop n (p10 * 10 % W64)

/-- Embedding of `nmea_float(pp, pv)` on the buffer `buf` with `*pp = pp`.
The sum of the two `double` terms is taken exactly (the code rounds the
conversions, the quotient and the sum to binary64; theorems that depend on
the exact fraction say so); a division by a `p10` that wrapped to zero has
no finite result and is a `none`. -/
def nmea_float (buf : List Nat) (pp : Nat) : Option (Parsed ℚ) :=
  match buf[pp]? with
  | none => none
  | some c0 =>
    if c0 = 0 then some Parsed.fail
    else if c0 = 42 ∨ c0 = 44 then some (Parsed.ok pp (NILFIELD : ℚ))
    else
      let sign : Nat := if c0 = 45 then 1 else 0
      match rt_readDec buf (pp + sign) with
      | none => none
      | some (v, p) =>
        if pp + sign = p then some Parsed.fail
        else
          match buf[p]? with
          | none => none
          | some c1 =>
            -- `(w, p10, p)` after the optional fraction
            let frac : Option (Nat × Nat × Nat) :=
              if c1 = 46 then
                match rt_readDec buf (p + 1) with
                | none => none
                | some (w, f) => some (w, p10_loop (f - (p + 1)) 1, f)
              else some (0, 1, p)
            match frac with
            | none => none
            | some (w, p10, p2) =>
              match buf[p2]? with
              | none => none
              | some c =>
                if c ≠ 44 ∧ c ≠ 42 then some Parsed.fail
                else if p10 = 0 then none
                else some (Parsed.ok (p2 + 1) (((signMul sign v : Nat) : ℚ) + (w : ℚ) / (p10 : ℚ)))

/-- The inner loop of `nmea_str`: the index of the first `,` or `*` at or
after `p`, over the bytes from `p` on. There is no test for the end of the
text, so leaving the buffer is a fault. -/
def nmea_str_scan : List Nat → Nat → Option Nat
  | [], _ => none
  | c :: rest, p => if c ≠ 44 ∧ c ≠ 42 then nmea_str_scan rest (p + 1) else some p

/-- Outcome of `nmea_str` when no fault occurs: the returned `int`, the
buffer (terminators are overwritten with 0), `*pp` and the field starts
stored in `args` so far. -/
structure StrResult where
  ret : Int
  buf : List Nat
  pp : Nat
  args : List Nat
  deriving DecidableEq

/-- The outer loop of `nmea_str` with `left = cnt - i` fields still to read,
the local pointer `p`, and `pp0` the caller's `*pp`, which is written only
on success. -/
def nmea_str_loop : Nat → List Nat → Nat → Nat → List Nat → Option StrResult
  | 0, buf, _, p, args => some ⟨1, buf, p, args⟩
  | left + 1, buf, pp0, p, args =>
    match buf[p]? with
    | none => none
    | some c0 =>
      if c0 = 0 then some ⟨0, buf, pp0, args⟩
      else
        match nmea_str_scan (buf.drop p) p with
        | none => none
        | some q => nmea_str_loop left (buf.set q 0) pp0 (q + 1) (args ++ [p])

/-- Embedding of `nmea_str(pp, cnt, args)`. -/
def nmea_str (buf : List Nat) (pp : Nat) (cnt : Nat) : Option StrResult :=
  nmea_str_loop cnt buf pp pp []

/-! ## Degrees-minutes conversion and tolerance -/

/-- A value that an `int`/`s4_t` can hold. -/
def fitsS32 (x : Int) : Prop := -(2 ^ 31) ≤ x ∧ x < 2 ^ 31

instance (x : Int) : Decidable (fitsS32 x) := by
  unfold fitsS32; infer_instance

/-- Conversion of a floating-point value to an integer type: the fraction is
discarded (truncation toward zero). -/
def truncQ (q : ℚ) : Int := Int.tdiv q.num (q.den : Int)

/-- Embedding of `nmea_p2dec(lat, d)`. The conversion `(s4_t)(lat/100)` and
the `int` product `dd * 100` are undefined when the value does not fit 32
bits; these cases are a `none`. -/
def nmea_p2dec (lat : ℚ) (d : Nat) : Option ℚ :=
  let dd : Int := truncQ (lat / 100)
  if fitsS32 dd ∧ fitsS32 (dd * 100) then
    let ss : ℚ := lat - ((dd * 100 : Int) : ℚ)
    let dec : ℚ := ss / 60 + (dd : ℚ)
    some (if d = 83 ∨ d = 87 then -1 * dec else dec)
  else none

/-- Embedding of `check_tolerance(a, b, thres)`. -/
def check_tolerance (a b thres : ℚ) : Int :=
  let d := a - b
  if d ≤ -thres ∨ thres ≤ d then 1 else 0

/-! ## The event sink -/

/-- The three event types `GPSEV_MOVE`, `GPSEV_FIX`, `GPSEV_NOFIX`. -/
inductive GpsEv where
  | MOVE | FIX | NOFIX
  deriving DecidableEq

/-- What is handed to the sink's `sendText`: the JSON event built by
`send_gpsev_fix` or `send_gpsev_nofix`, or the alarm text built by
`send_alarm`, each with the values it is formatted from. -/
inductive Msg where
  | gpsev (evtype : GpsEv) (lat lon alt dilution : ℚ) (satellites quality : Int)
  | nofix (since : Int)
  | alarmFix (lat lon alt dilution : ℚ) (satellites quality : Int)
  | alarmMove (from_lat from_lon lat lon alt dilution : ℚ) (satellites quality : Int)
  | alarmNofix (since : Int)
  deriving DecidableEq

/-- The transport connection `TC` as `gps.c` sees it during one call of
`nmea_gga`: whether `TC` is non-null, the outcomes of the coming
`getSendbuf` requests (`true`: a buffer is returned) and of the coming
`vxprintf` calls (`true`: the text fits), and the messages handed to
`sendText` so far. A request beyond the listed outcomes is refused. -/
structure Sink where
  tc : Bool
  grants : List Bool
  encodes : List Bool
  sent : List Msg
  deriving DecidableEq

/-- One `getSendbuf` request: whether a buffer was returned, and the sink
afterwards. -/
def getSendbuf (s : Sink) : Bool × Sink :=
  match s.grants with
  | [] => (false, s)
  | g :: gs => (g, { s with grants := gs })

/-- One `vxprintf` call into a send buffer. -/
def vxprintf (s : Sink) : Bool × Sink :=
  match s.encodes with
  | [] => (false, s)
  | e :: es => (e, { s with encodes := es })

/-- The call `sendText`. -/
def sendText (s : Sink) (m : Msg) : Sink := { s with sent := s.sent ++ [m] }

/-- Embedding of `send_alarm(fmt, ...)`; `text` stands for the formatted
alarm. -/
def send_alarm (s : Sink) (text : Msg) : Int × Sink :=
  if s.tc = false then (0, s)
  else
    let (got, s1) := getSendbuf s
    if got = false then (0, s1)
    else
      let (ok, s2) := vxprintf s1
      if ok = false then (0, s2)
      else (1, sendText s2 text)

/-- Embedding of `send_gpsev_fix`. `TC` is dereferenced without a test, so a
null `TC` is a fault. -/
def send_gpsev_fix (s : Sink) (gpsev : GpsEv) (lat lon alt dilution : ℚ)
    (satellites quality : Int) (from_lat from_lon : ℚ) : Option (Int × Sink) :=
  if s.tc = false then none
  else
    let (got, s1) := getSendbuf s
    if got = false then some (0, s1)
    else
      let s2 := sendText s1 (Msg.gpsev gpsev lat lon alt dilution satellites quality)
      if gpsev = GpsEv.FIX then
        some (send_alarm s2 (Msg.alarmFix lat lon alt dilution satellites quality))
      else
        some (send_alarm s2
          (Msg.alarmMove from_lat from_lon lat lon alt dilution satellites quality))

/-- Embedding of `send_gpsev_nofix(since)`. -/
def send_gpsev_nofix (s : Sink) (since : Int) : Option (Int × Sink) :=
  if s.tc = false then none
  else
    let (got, s1) := getSendbuf s
    if got = false then some (0, s1)
    else
      let s2 := sendText s1 (Msg.nofix since)
      some (send_alarm s2 (Msg.alarmNofix since))

/-! ## `nmea_gga` -/

/-- The file-scope variables of `gps.c` that `nmea_gga` reads and writes,
and `lastpos`, the position last written to `~temp/station.lastpos`. -/
structure FixState where
  last_lat : ℚ
  last_lon : ℚ
  last_alt : ℚ
  last_dilution : ℚ
  orig_lat : ℚ
  orig_lon : ℚ
  from_lat : ℚ
  from_lon : ℚ
  last_satellites : Int
  last_quality : Int
  report_move : Int
  last_reported_fix : Int
  nofix_backoff : Int
  time_fixchange : Int
  lastpos : Option (ℚ × ℚ)
  deriving DecidableEq

/-- The state at program start: static storage is zero, no file written. -/
def FixState.init : FixState :=
  { last_lat := 0, last_lon := 0, last_alt := 0, last_dilution := 0,
    orig_lat := 0, orig_lon := 0, from_lat := 0, from_lon := 0,
    last_satellites := 0, last_quality := 0, report_move := 0,
    last_reported_fix := 0, nofix_backoff := 0, time_fixchange := 0,
    lastpos := none }

/-- What the surroundings answer during one call of `nmea_gga`: the clock
reading `rt_getTime()` gives for `time_fixchange` (if that call is made) and
the one it gives for `now`, and the sink's behaviour. -/
structure Env where
  t_change : Int
  now : Int
  tc : Bool
  grants : List Bool
  encodes : List Bool
  deriving DecidableEq

/-- The values of one decoded sentence as the fix-state logic receives them:
`lat` and `lon` after `nmea_p2dec`. -/
structure Fix where
  lat : ℚ
  lon : ℚ
  alt : ℚ
  dilution : ℚ
  satellites : Int
  quality : Int
  deriving DecidableEq

/-- The `int` value `1 << n`, undefined unless `0 ≤ n < 31`. -/
def shl1 (n : Int) : Option Int :=
  if 0 ≤ n ∧ n < 31 then some (2 ^ n.toNat) else none

/-- The value of the local `fix`: `quality == 0 ? -1 : 1`. -/
def fix_sign (quality : Int) : Int := if quality = 0 then -1 else 1

/-- First statement of the fix-state logic of `nmea_gga`:
`if( (quality == 0) ^ (last_quality == 0) ) time_fixchange = rt_getTime();` -/
def track_fixchange (st : FixState) (env : Env) (x : Fix) : FixState :=
  if xor (decide (x.quality = 0)) (decide (st.last_quality = 0)) then
    { st with time_fixchange := env.t_change }
  else st

/-- The fix report of `nmea_gga`: the `if` that calls
`send_gpsev_fix(GPSEV_FIX, ...)`. `delay` is `GPS_REPORT_DELAY`. -/
def track_fix_report (delay : Int) (st : FixState) (env : Env) (s : Sink) (x : Fix) :
    Option (FixState × Sink) :=
  if st.last_reported_fix ≤ 0 ∧ fix_sign x.quality > 0 ∧
      env.now > st.time_fixchange + delay then
    match send_gpsev_fix s GpsEv.FIX x.lat x.lon x.alt x.dilution
        (wrap32 x.satellites) (wrap32 x.quality) 0 0 with
    | none => none
    | some (r, s1) =>
      some (if r ≠ 0 then
          { st with last_reported_fix := fix_sign x.quality, nofix_backoff := 0 }
        else st, s1)
  else some (st, s)

/-- The no-fix report of `nmea_gga`: the block `if( fix < 0 ) { ... }`. -/
def track_nofix_report (delay : Int) (st : FixState) (env : Env) (s : Sink) (x : Fix) :
    Option (FixState × Sink) :=
  if fix_sign x.quality < 0 then
    match shl1 st.nofix_backoff with
    | none => none
    | some sh =>
      let thres : Int := st.time_fixchange + sh * delay
      if env.now > thres then
        match send_gpsev_nofix s (env.now - st.time_fixchange) with
        | none => none
        | some (r, s1) =>
          some (if r ≠ 0 then
              { st with last_reported_fix := fix_sign x.quality,
                        nofix_backoff := max (st.nofix_backoff + 1) 16 }
            else st, s1)
      else some (st, s)
  else some (st, s)

/-- The position update of `nmea_gga`: the block `if( quality > 0 ) { ... }`
and the assignment `last_quality = quality` after it. The tolerance is the
constant 0.001 of the source, taken as one thousandth; the literal is the
binary64 number next above it, and a binary64 difference compares alike
with both. -/
def track_position (st : FixState) (x : Fix) : FixState :=
  let st4 : FixState :=
    if x.quality > 0 then
      let a : FixState :=
        if check_tolerance st.orig_lat x.lat (1 / 1000) ≠ 0 ∨
            check_tolerance st.orig_lon x.lon (1 / 1000) ≠ 0 then
          let w : FixState := { st with lastpos := some (x.lat, x.lon) }
          let f : FixState :=
            if w.report_move = 0 then
              { w with from_lat := w.orig_lat, from_lon := w.orig_lon }
            else w
          { f with orig_lat := x.lat, last_lat := x.lat,
                   orig_lon := x.lon, last_lon := x.lon, report_move := 1 }
        else st
      { a with last_alt := x.alt, last_dilution := x.dilution,
               last_quality := wrap32 x.quality,
               last_satellites := wrap32 x.satellites }
    else st
  { st4 with last_quality := wrap32 x.quality }

/-- The move report of `nmea_gga`: the last `if`, which calls
`send_gpsev_fix(GPSEV_MOVE, ...)`. -/
def track_move_report (st : FixState) (s : Sink) (x : Fix) : Option (FixState × Sink) :=
  if st.report_move ≠ 0 then
    match send_gpsev_fix s GpsEv.MOVE x.lat x.lon x.alt x.dilution
        (wrap32 x.satellites) (wrap32 x.quality) st.from_lat st.from_lon with
    | none => none
    | some (r, s1) => some (if r ≠ 0 then { st with report_move := 0 } else st, s1)
  else some (st, s)

/-- The fix-state logic of `nmea_gga` (from the test of the quality sign to
the end of the function), the five parts above in the order of the source:
the state afterwards and the messages handed to `sendText`, in order.
`delay` is `GPS_REPORT_DELAY`, a configuration value declared outside
`gps.c`. -/
def nmea_gga_track (delay : Int) (st : FixState) (env : Env) (x : Fix) :
    Option (FixState × List Msg) :=
  let s0 : Sink := ⟨env.tc, env.grants, env.encodes, []⟩
  match track_fix_report delay (track_fixchange st env x) env s0 x with
  | none => none
  | some (st2, s2) =>
    match track_nofix_report delay st2 env s2 x with
    | none => none
    | some (st3, s3) =>
      match track_move_report (track_position st3 x) s3 x with
      | none => none
      | some (st5, s5) => some (st5, s5.sent)

/-- The nine fields of a GGA sentence as the parsers return them; `latD` and
`lonD` point to the hemisphere fields. -/
structure GgaFields where
  time_of_fix : ℚ
  lat : ℚ
  latD : Nat
  lon : ℚ
  lonD : Nat
  quality : Int
  satellites : Int
  dilution : ℚ
  alt : ℚ
  deriving DecidableEq

/-- The condition of the first `if` of `nmea_gga`: the nine parser calls in
order, each at the pointer the previous one left, stopping at the first that
returns 0. The result is the buffer after the calls and the fields, or no
fields when a parser returned 0. -/
def nmea_gga_fields (buf : List Nat) (p : Nat) : Option (List Nat × Option GgaFields) :=
  match nmea_float buf p with
  | none => none
  | some Parsed.fail => some (buf, none)
  | some (Parsed.ok p1 time_of_fix) =>
  match nmea_float buf p1 with
  | none => none
  | some Parsed.fail => some (buf, none)
  | some (Parsed.ok p2 lat) =>
  match nmea_str buf p2 1 with
  | none => none
  | some r3 =>
  if r3.ret = 0 then some (r3.buf, none) else
  match nmea_float r3.buf r3.pp with
  | none => none
  | some Parsed.fail => some (r3.buf, none)
  | some (Parsed.ok p4 lon) =>
  match nmea_str r3.buf p4 1 with
  | none => none
  | some r5 =>
  if r5.ret = 0 then some (r5.buf, none) else
  match nmea_decimal r5.buf r5.pp with
  | none => none
  | some Parsed.fail => some (r5.buf, none)
  | some (Parsed.ok p6 quality) =>
  match nmea_decimal r5.buf p6 with
  | none => none
  | some Parsed.fail => some (r5.buf, none)
  | some (Parsed.ok p7 satellites) =>
  match nmea_float r5.buf p7 with
  | none => none
  | some Parsed.fail => some (r5.buf, none)
  | some (Parsed.ok p8 dilution) =>
  match nmea_float r5.buf p8 with
  | none => none
  | some Parsed.fail => some (r5.buf, none)
  | some (Parsed.ok _ alt) =>
    some (r5.buf,
      some ⟨time_of_fix, lat, r3.args.headD 0, lon, r5.args.headD 0, quality, satellites,
        dilution, alt⟩)

/-- The scan `while (pp[len]>31 && pp[len]<128 && ++len)` that measures the
text for the log line, over the bytes from `pp` on. -/
def printable_len : List Nat → Nat → Option Nat
  | [], _ => none
  | c :: rest, len => if c > 31 ∧ c < 128 then printable_len rest (len + 1) else some len

/-- The part of `nmea_gga` before the fix-state logic: the parser calls, the
log scan when one of them fails, the test for absent coordinates and the two
calls of `nmea_p2dec`. The result is the buffer afterwards and the decoded
values, or no values when the function returns early. -/
def nmea_gga_decode (buf : List Nat) (p : Nat) : Option (List Nat × Option Fix) :=
  match nmea_gga_fields buf p with
  | none => none
  | some (buf1, none) =>
    match printable_len (buf1.drop p) 0 with
    | none => none
    | some _ => some (buf1, none)
  | some (buf1, some f) =>
    if f.lat = (NILFIELD : ℚ) ∨ f.lon = (NILFIELD : ℚ) then some (buf1, none)
    else
      match buf1[f.latD]? with
      | none => none
      | some dlat =>
      match nmea_p2dec f.lat dlat with
      | none => none
      | some lat =>
      match buf1[f.lonD]? with
      | none => none
      | some dlon =>
      match nmea_p2dec f.lon dlon with
      | none => none
      | some lon => some (buf1, some ⟨lat, lon, f.alt, f.dilution, f.satellites, f.quality⟩)

/-- Embedding of `nmea_gga(p)` on the buffer `buf`: the state after the
call, the messages handed to `sendText` and the buffer after the call. -/
def nmea_gga (delay : Int) (st : FixState) (env : Env) (buf : List Nat) (p : Nat) :
    Option (FixState × List Msg × List Nat) :=
  match nmea_gga_decode buf p with
  | none => none
  | some (buf1, none) => some (st, [], buf1)
  | some (buf1, some x) =>
    match nmea_gga_track delay st env x with
    | none => none
    | some (st1, msgs) => some (st1, msgs, buf1)

/-- Embedding of `sys_getLatLon(lat, lon)`: the returned `int` and the
values stored through the two pointers. -/
def sys_getLatLon (st : FixState) : Int × ℚ × ℚ := (1, st.orig_lat, st.orig_lon)

/-! ## The device session -/

/-- Line settings of a serial device (a `struct termios`), as far as
`gps.c` tells them apart: the zero value of static storage, the settings
`tcgetattr` found on the device (numbered by the surroundings), and found
settings after the changes `gps_reopen` makes to them (the speed chosen from
`baud`, 8 data bits, no parity, canonical input). -/
inductive Tio where
  | zero
  | found (id : Nat)
  | configured (id : Nat) (speed : Int)
  deriving DecidableEq

/-- The calls on the device that `gps.c` makes and that change something
outside the program, with the descriptor they are made on. `tcsetattr` and
`write` carry whether they succeeded. -/
inductive OsCall where
  | opened (fd : Nat)
  | close (fd : Nat)
  | tcsetattr (fd : Nat) (tio : Tio) (ok : Bool)
  | tcflush (fd : Nat)
  | write (fd : Nat) (ok : Bool)
  | aio_open (fd : Nat)
  | aio_close (fd : Nat)
  | atexit
  deriving DecidableEq

/-- Values declared outside `gps.c`: the configuration values
`GPS_REPORT_DELAY`, `GPS_REOPEN_TTY_INTV` and `GPS_REOPEN_FIFO_INTV`, and
whether the build defines `CFG_ubx`. -/
structure Conf where
  delay : Int
  tty_intv : Int
  fifo_intv : Int
  cfg_ubx : Bool
  deriving DecidableEq

/-- The file-scope variables of `gps.c`: those of the fix-state logic
(`fix`), those of the session, and two records of what the program did to
its surroundings: the calls made on the device (`calls`) and the messages
handed to `sendText` (`sent`), both in order. `aio` is the descriptor of the
open handle, `none` for `NULL`; `gpsline` has the 1024 bytes of the array;
`reopen_tmr` is the interval the timer is armed with, `none` when it is not
armed. -/
structure Session where
  fix : FixState
  garbageCnt : Nat
  aio : Option Nat
  gpsfill : Nat
  gpsline : List Nat
  reopen_tmr : Option Int
  gps_lns_override : Int
  gps_was_running : Nat
  isTTY : Nat
  ubx : Int
  baud : Int
  saved_tio : Tio
  calls : List OsCall
  sent : List Msg
  deriving DecidableEq

/-- The session at program start: static storage is zero, except
`gps_lns_override`, which is initialised to -1. -/
def Session.init : Session :=
  { fix := FixState.init, garbageCnt := 0, aio := none, gpsfill := 0,
    gpsline := List.replicate 1024 0, reopen_tmr := none,
    gps_lns_override := -1, gps_was_running := 0, isTTY := 0, ubx := 0, baud := 0,
    saved_tio := Tio.zero, calls := [], sent := [] }

/-- How a call ends: it returns, or the process ends in `rt_fatal`, or the C
code does something undefined (a null pointer is dereferenced, memory
outside an array is touched, a shift is out of range). -/
inductive Run (α : Type) where
  | ret (a : α)
  | fatal
  | fault
  deriving DecidableEq

/-- Modelled from the spec: `rt_setTimer`, `rt_micros_ahead` and the timer
queue are defined in rt.c, which is not among the sources. The spec speaks
of a "single outstanding timer", "re-armed with a transport-dependent fixed
interval": setting the timer arms it to fire `intv` microseconds after the
call, replacing an earlier deadline. -/
def rt_setTimer (st : Session) (intv : Int) : Session := { st with reopen_tmr := some intv }

/-- Modelled from the spec: `rt_clrTimer` is defined in rt.c, which is not
among the sources. The spec speaks of "cancelling" the "pending reconnect
timer": afterwards the timer is not armed. -/
def rt_clrTimer (st : Session) : Session := { st with reopen_tmr := none }

/-- The statement
`rt_setTimer(&reopen_tmr, rt_micros_ahead(isTTY ? GPS_REOPEN_TTY_INTV : GPS_REOPEN_FIFO_INTV))`
of `reopen_timeout`. It is all that the call `reopen_timeout(NULL)` executes:
with a null argument the condition `tmr == NULL || !gps_reopen()` holds
without `gps_reopen` being called. -/
def reopen_arm (c : Conf) (st : Session) : Session :=
  rt_setTimer st (if st.isTTY ≠ 0 then c.tty_intv else c.fifo_intv)

/-! ### `gps_read` -/

/-- What one call of `read(aio->fd, gpsline+gpsfill, sizeof(gpsline)-gpsfill)`
answers: bytes (the call returns their number; of a list longer than the
count asked for, only that many bytes are delivered), 0 for end of stream, -1
with `EAGAIN`, or -1 with another error. -/
inductive ReadAns where
  | data (bs : List Nat)
  | eof
  | eagain
  | error
  deriving DecidableEq

/-- One turn of the `while(1)` loop of `gps_read` as the surroundings
determine it: the answer of its `read` and, should the turn call `nmea_gga`,
what the clock and the sink answer during that call. -/
structure ReadStep where
  ans : ReadAns
  env : Env
  deriving DecidableEq

/-- The loop of `fletcher8`, with `u1_t` sums. -/
def fletcher8_loop : List Nat → Nat → Nat → Nat × Nat
  | [], a, b => (a, b)
  | d :: ds, a, b => fletcher8_loop ds ((a + d) % 256) ((b + (a + d) % 256) % 256)

/-- Embedding of `fletcher8(data + off, len)`. -/
def fletcher8 (data : List Nat) (off len : Nat) : Option Nat :=
  if off + len ≤ data.length then
    some ((fletcher8_loop ((data.drop off).take len) 0 0).1 |||
      ((fletcher8_loop ((data.drop off).take len) 0 0).2 <<< 8))
  else none

/-- Modelled from the spec: `rt_rlsbf2` is defined in rt.c, which is not
among the sources. The spec speaks of a "little-endian" 16-bit field: the
value of the two bytes at `off`, low byte first. -/
def rt_rlsbf2 (data : List Nat) (off : Nat) : Option Nat :=
  match data[off]?, data[off + 1]? with
  | some lo, some hi => some (lo + 256 * hi)
  | _, _ => none

/-- The `for` loop of `gps_read` up to its first `break`: the first index,
from `i` on and below `n`, that holds a line feed or, in a build with
`CFG_ubx`, the first UBX sync byte followed below `n` by the second. At
every other index the loop body does nothing. `fuel` is `n - i`. -/
def scan_stop (ubxOn : Bool) (buf : List Nat) (n : Nat) : Nat → Nat → Option Nat
  | 0, _ => none
  | fuel + 1, i =>
    if buf[i]? = some 10 then some i
    else if ubxOn = true ∧ buf[i]? = some 0xB5 ∧ i + 1 < n ∧ buf[i + 1]? = some 0x62 then
      some i
    else scan_stop ubxOn buf n fuel (i + 1)

/-- The body of the `for` loop of `gps_read` at the index `i` where the loop
stops, with `n` bytes in the buffer and `done == 0`: the value of `done`
afterwards and the state. For a line feed: `nmea_cksum(gpsline, i)`, then
`nmea_gga(gpsline+7)` if the checksum holds and the buffer starts with
`$..GGA,`, or the count-down of `garbageCnt` if it does not hold. For a UBX
frame: the length and checksum tests (the fields of a NAV-TIMEGPS frame are
read for the log only). -/
def scan_body (c : Conf) (st : Session) (env : Env) (n i : Nat) : Run (Nat × Session) :=
  if st.gpsline[i]? = some 10 then
    match nmea_cksum st.gpsline i with
    | none => Run.fault
    | some (ok, line1) =>
      if ok ≠ 0 then
        if line1[0]? = some 36 ∧ line1[3]? = some 71 ∧ line1[4]? = some 71 ∧
            line1[5]? = some 65 ∧ line1[6]? = some 44 then
          match nmea_gga c.delay st.fix env line1 7 with
          | none => Run.fault
          | some (fx, msgs, line2) =>
            Run.ret (i + 1, { st with fix := fx, gpsline := line2, sent := st.sent ++ msgs })
        else Run.ret (i + 1, { st with gpsline := line1 })
      else
        Run.ret (i + 1, { st with gpsline := line1,
                                  garbageCnt := if st.garbageCnt = 0 then 0
                                                else st.garbageCnt - 1 })
  else if i + 6 > n then Run.ret (0, st)
  else
    match rt_rlsbf2 st.gpsline (i + 4) with
    | none => Run.fault
    | some ubxlen =>
      if i + ubxlen + 8 > n then Run.ret (0, st)
      else
        match rt_rlsbf2 st.gpsline (i + 6 + ubxlen), fletcher8 st.gpsline (i + 2) (ubxlen + 4) with
        | some cksum, some fltch =>
          if cksum ≠ fltch then Run.ret (i + 1, st) else Run.ret (i + 8 + ubxlen, st)
        | _, _ => Run.fault

/-- The bytes `got` stored into the buffer from index `at_` on. -/
def read_store (buf : List Nat) (at_ : Nat) (got : List Nat) : List Nat :=
  buf.take at_ ++ got ++ buf.drop (at_ + got.length)

/-- The statement `memmove(&gpsline[0], &gpsline[done], len)`. -/
def memmove (buf : List Nat) (done len : Nat) : List Nat :=
  (buf.drop done).take len ++ buf.drop len

/-- The end of a turn of the `while(1)` loop: `if( done ) { ... }`. -/
def consume (st : Session) (done : Nat) : Session :=
  if done ≠ 0 then
    { st with gpsline := if done < st.gpsfill then memmove st.gpsline done (st.gpsfill - done)
                         else st.gpsline,
              gpsfill := st.gpsfill - done }
  else st

/-- The branch `if( n == 0 )` of `gps_read`: `aio_close(aio); aio = NULL;
reopen_timeout(NULL); return;`. -/
def gps_read_eof (c : Conf) (st : Session) (fd : Nat) : Session :=
  reopen_arm c { st with aio := none, calls := st.calls ++ [OsCall.aio_close fd] }

/-- Embedding of `gps_read(aio)`, one turn of its `while(1)` loop for each
answer of `read`; when the listed answers are used up the next `read` finds
nothing (`EAGAIN`). A null `aio` is a fault (`aio->fd`). -/
def gps_read (c : Conf) : List ReadStep → Session → Run Session
  | [], st =>
    match st.aio with
    | none => Run.fault
    | some _ => Run.ret st
  | step :: rest, st =>
    match st.aio with
    | none => Run.fault
    | some fd =>
      match step.ans with
      | ReadAns.eagain => Run.ret st
      | ReadAns.error => Run.fatal
      | ReadAns.eof => Run.ret (gps_read_eof c st fd)
      | ReadAns.data bs =>
        if bs.take (1024 - st.gpsfill) = [] then Run.ret (gps_read_eof c st fd)
        else
          let n := st.gpsfill + (bs.take (1024 - st.gpsfill)).length
          let st1 : Session :=
            { st with gpsline := read_store st.gpsline st.gpsfill (bs.take (1024 - st.gpsfill)),
                      gpsfill := n }
          match scan_stop c.cfg_ubx st1.gpsline n n 0 with
          | none => gps_read c rest st1
          | some i =>
            match scan_body c st1 step.env n i with
            | Run.ret (done, st2) => gps_read c rest (consume st2 done)
            | Run.fatal => Run.fatal
            | Run.fault => Run.fault

/-! ### Opening and closing -/

/-- Embedding of `gps_close()`; `restore_ok` is whether the `tcsetattr` that
restores the saved settings succeeds. -/
def gps_close (st : Session) (restore_ok : Bool) : Session :=
  match st.aio with
  | none => st
  | some fd =>
    if st.isTTY ≠ 0 then
      if restore_ok = false then
        { st with calls := st.calls ++ [OsCall.tcsetattr fd st.saved_tio false] }
      else
        { st with isTTY := 0, aio := none,
                  calls := st.calls ++ [OsCall.tcsetattr fd st.saved_tio true,
                    OsCall.tcflush fd, OsCall.aio_close fd] }
    else
      { st with isTTY := 0, aio := none, calls := st.calls ++ [OsCall.aio_close fd] }

/-- What the surroundings answer during one call of `gps_reopen`: whether
`stat` shows the device to be a FIFO, the number `sys_findPids` returns, the
descriptor `open` returns (`none` for -1), the settings `tcgetattr` finds
(`none` for -1), whether `tcsetattr` and the `write` of the UBX command
succeed, and the turns of the first `gps_read`. -/
structure OpenEnv where
  is_fifo : Bool
  pids : Int
  fd : Option Nat
  tcget : Option Nat
  tcset_ok : Bool
  write_ok : Bool
  reads : List ReadStep
  deriving DecidableEq

/-- The `switch( baud )` of `gps_reopen`; a speed constant `B9600`, ... is
written as its rate. -/
def gps_speed (baud : Int) : Int :=
  if baud = 9600 ∨ baud = 19200 ∨ baud = 38400 ∨ baud = 57600 ∨ baud = 115200 ∨
      baud = 230400 then baud
  else 9600

/-- The end of `gps_reopen`: `aio = aio_open(&device, fd, gps_read, NULL);
atexit(gps_close); gpsfill = 0; gps_read(aio); return 1;`. -/
def gps_reopen_start (c : Conf) (st : Session) (fd : Nat) (reads : List ReadStep) :
    Run (Int × Session) :=
  match gps_read c reads
      { st with aio := some fd, gpsfill := 0,
                calls := st.calls ++ [OsCall.aio_open fd, OsCall.atexit] } with
  | Run.ret s => Run.ret (1, s)
  | Run.fatal => Run.fatal
  | Run.fault => Run.fault

/-- Embedding of `gps_reopen()`: the returned `int` and the state. -/
def gps_reopen (c : Conf) (st : Session) (oe : OpenEnv) : Run (Int × Session) :=
  let st1 : Session :=
    match st.aio with
    | some old => { st with aio := none, calls := st.calls ++ [OsCall.aio_close old] }
    | none => st
  if oe.is_fifo = true then
    match oe.fd with
    | none => Run.ret (0, st1)
    | some fd =>
      gps_reopen_start c
        { st1 with isTTY := 0, garbageCnt := 0, calls := st1.calls ++ [OsCall.opened fd] }
        fd oe.reads
  else if oe.pids > 0 then Run.fatal
  else
    match oe.fd with
    | none => Run.ret (0, st1)
    | some fd =>
      match oe.tcget with
      | none =>
        Run.ret (0, { st1 with calls := st1.calls ++ [OsCall.opened fd, OsCall.close fd] })
      | some id =>
        if oe.tcset_ok = false then
          Run.ret (0, { st1 with
            saved_tio := Tio.found id,
            calls := st1.calls ++ [OsCall.opened fd,
              OsCall.tcsetattr fd (Tio.configured id (gps_speed st1.baud)) false,
              OsCall.close fd] })
        else
          gps_reopen_start c
            { st1 with
              saved_tio := Tio.found id, isTTY := 1, garbageCnt := 4,
              calls := st1.calls ++ [OsCall.opened fd,
                OsCall.tcsetattr fd (Tio.configured id (gps_speed st1.baud)) true,
                OsCall.tcflush fd] ++
                (if c.cfg_ubx = true ∧ st1.ubx ≠ 0 then [OsCall.write fd oe.write_ok] else []) }
            fd oe.reads

/-- Embedding of `reopen_timeout(tmr)`; `tmr_null` is whether the argument
is `NULL`. -/
def reopen_timeout (c : Conf) (st : Session) (tmr_null : Bool) (oe : OpenEnv) : Run Session :=
  if tmr_null = true then Run.ret (reopen_arm c st)
  else
    match gps_reopen c st oe with
    | Run.ret (r, st1) => if r = 0 then Run.ret (reopen_arm c st1) else Run.ret st1
    | Run.fatal => Run.fatal
    | Run.fault => Run.fault

/-- Modelled from the spec: the timer queue is in rt.c, which is not among
the sources. The spec says "Reconnect timer firing attempts reopen": when
the armed timer expires it is taken off the queue and its callback
`reopen_timeout` is called with the timer as argument; a timer that is not
armed does not fire. -/
def timer_fire (c : Conf) (st : Session) (oe : OpenEnv) : Run Session :=
  match st.reopen_tmr with
  | none => Run.ret st
  | some _ => reopen_timeout c { st with reopen_tmr := none } false oe

/-! ### The control surface -/

/-- Embedding of `sys_disableGPS()`; `restore_ok` is as in `gps_close`. -/
def sys_disableGPS (st : Session) (restore_ok : Bool) : Session :=
  match st.aio with
  | none => st
  | some _ => gps_close (rt_clrTimer { st with gps_was_running := 1 }) restore_ok

/-- Embedding of `sys_gpsEnabled()`. -/
def sys_gpsEnabled (st : Session) : Int :=
  if st.gps_lns_override ≥ 0 then st.gps_lns_override else 1

/-- Embedding of `sys_setGPSEnabled(enabled)`: the returned `int` and the
state. `gpsEnabled` is the variable of that name, declared outside `gps.c`
and set from station.conf. -/
def sys_setGPSEnabled (c : Conf) (gpsEnabled : Nat) (st : Session) (enabled : Int)
    (restore_ok : Bool) (oe : OpenEnv) : Run (Int × Session) :=
  let new_state : Int := if enabled ≠ 0 then 1 else 0
  let old_effective : Int := sys_gpsEnabled st
  if st.gps_lns_override = new_state then Run.ret (0, st)
  else
    let st1 : Session := { st with gps_lns_override := new_state }
    if old_effective = new_state then Run.ret (0, st1)
    else if new_state = 0 then
      let st2 : Session := if gpsEnabled ≠ 0 then { st1 with gps_was_running := 1 } else st1
      Run.ret (1, sys_disableGPS st2 restore_ok)
    else if st1.gps_was_running ≠ 0 ∨ gpsEnabled ≠ 0 then
      match gps_reopen c { st1 with gps_was_running := 0 } oe with
      | Run.ret (_, st3) => Run.ret (1, st3)
      | Run.fatal => Run.fatal
      | Run.fault => Run.fault
    else Run.ret (1, st1)

/-- The effective enabled state as the spec words it ("override if set, else
static configuration"), for comparison with `sys_gpsEnabled`: the override
when it is 0 or 1, otherwise the value of `gpsEnabled`. -/
def effective_enabled_spec (gps_lns_override : Int) (gpsEnabled : Nat) : Int :=
  if gps_lns_override ≥ 0 then gps_lns_override else (gpsEnabled : Int)

/-! ## Sequences of sentences -/

/-- One call of `nmea_gga` that reaches the fix-state logic: the decoded
values and what the surroundings answer during the call. -/
structure Pass where
  x : Fix
  env : Env
  deriving DecidableEq

/-- The fix-state logic run over a sequence of passes: the final state and,
for each pass, the messages it handed to `sendText`. -/
def run_passes (delay : Int) : FixState → List Pass → Option (FixState × List (List Msg))
  | st, [] => some (st, [])
  | st, p :: ps =>
    match nmea_gga_track delay st p.env p.x with
    | none => none
    | some (st1, msgs) =>
      match run_passes delay st1 ps with
      | none => none
      | some (st2, rest) => some (st2, msgs :: rest)

/-- The JSON event of type `fix`. -/
def isFixEvent : Msg → Bool
  | Msg.gpsev GpsEv.FIX _ _ _ _ _ _ => true
  | _ => false

/-- The time of the last change of the quality sign, as the spec words it:
`t0` before any pass, and after a pass whose quality is zero where the
previous one (`q0` before the first pass) was not, or the reverse, the clock
reading taken in that pass. -/
def lastFixChange : Int → Int → List Pass → Int
  | t0, _, [] => t0
  | t0, q0, p :: ps =>
    lastFixChange (if decide (p.x.quality = 0) ≠ decide (q0 = 0) then p.env.t_change else t0)
      p.x.quality ps

/-- The clock does not run backwards from one pass to a later one. -/
def clockMonotone (ps : List Pass) : Prop :=
  List.Pairwise (fun a b : Pass => a.env.t_change ≤ b.env.t_change) ps

/-- The number a string of decimal digits denotes. -/
def decValue (ds : List Nat) : Nat := ds.foldl (fun a c => a * 10 + (c - 48)) 0

/-- The values decoded from the example sentence
`$GPGGA,123519.00,4807.038,N,01131.000,E,1,08,0.9,545.4,M,46.9,M,,*`. -/
def exampleFix : Fix := ⟨48 + (7038 / 1000) / 60, 11 + 31 / 60, 5454 / 10, 9 / 10, 8, 1⟩

/-- A pass with the values `x` in which both clock readings are `t`, `TC` is
connected and the sink answers as listed. -/
def passAt (x : Fix) (t : Int) (grants encodes : List Bool) : Pass :=
  ⟨x, ⟨t, t, true, grants, encodes⟩⟩

/-- A configuration for the examples: a report delay of 120 s and reopen
intervals of 60 s (serial) and 1 s (FIFO), in microseconds, in a build with
`CFG_ubx`. -/
def exampleConf : Conf := ⟨120000000, 60000000, 1000000, true⟩

/-- The session after the assignments of `sys_enableGPS` (`baud = 9600`,
`ubx = 1`), before its call of `gps_reopen`. -/
def enabledStart : Session := { Session.init with baud := 9600, ubx := 1 }

/-- Surroundings of a `gps_reopen` in which the device is a serial device
that nobody else holds, `open` returns the descriptor `fd`, all calls
succeed, and the first `read` finds nothing. -/
def ttyOpens (fd : Nat) : OpenEnv := ⟨false, 0, some fd, some 0, true, true, []⟩

/-- Surroundings of a `gps_reopen` in which the device is a FIFO, `open`
returns the descriptor `fd` and the reads answer as listed. -/
def fifoOpens (fd : Nat) (reads : List ReadStep) : OpenEnv :=
  ⟨true, 0, some fd, none, true, true, reads⟩

/-- A turn of `gps_read` with the given answer of `read`, at a moment when
`TC` is connected and the sink accepts nothing. -/
def readTurn (ans : ReadAns) : ReadStep := ⟨ans, ⟨0, 0, true, [], []⟩⟩

/-- The open serial session: `gps_reopen` has opened descriptor 5 from
`enabledStart` and the first `read` found nothing. -/
def ttyOpen : Session :=
  { enabledStart with
    aio := some 5, isTTY := 1, garbageCnt := 4, saved_tio := Tio.found 0,
    calls := [OsCall.opened 5, OsCall.tcsetattr 5 (Tio.configured 0 9600) true,
      OsCall.tcflush 5, OsCall.write 5 true, OsCall.aio_open 5, OsCall.atexit] }

/-- The serial session after a `read` returned 0: closed, with the reconnect
timer pending. -/
def ttyClosedPending : Session :=
  { ttyOpen with
    aio := none, reopen_tmr := some 60000000,
    calls := ttyOpen.calls ++ [OsCall.aio_close 5] }

/-- An open FIFO session whose buffer is full of the letter `A`:
`gps_reopen` has opened descriptor 5 and the first `read` delivered 1024
bytes without a line feed. -/
def fifoFull : Session :=
  { enabledStart with
    aio := some 5, gpsfill := 1024, gpsline := List.replicate 1024 65,
    calls := [OsCall.opened 5, OsCall.aio_open 5, OsCall.atexit] }

/-- The array `UBX_EN_NAVTIMEGPS`: the two sync bytes, class and id, the
payload length, the payload and the checksum. -/
def UBX_EN_NAVTIMEGPS : List Nat :=
  [0xB5, 0x62, 0x06, 0x01, 0x03, 0x00, 0x01, 0x20, 0x01, 0x2C, 0x83]

/-- The open FIFO session: `gps_reopen` has opened descriptor 5 from
`enabledStart` and the first `read` found nothing. -/
def fifoOpen : Session :=
  { enabledStart with
    aio := some 5, calls := [OsCall.opened 5, OsCall.aio_open 5, OsCall.atexit] }

/-- The alarm text of a move report. -/
def isMoveAlarm : Msg → Bool
  | Msg.alarmMove _ _ _ _ _ _ _ _ => true
  | _ => false

/-! ## Predicates on the line buffer -/

/-- The buffer `b1` is the buffer `b` with some of its bytes overwritten
with 0. -/
def zeroed (b b1 : List Nat) : Prop :=
  b1.length = b.length ∧ ∀ j : Nat, b1[j]? = b[j]? ∨ b1[j]? = some 0

/-- Among the first `fill` bytes of the buffer there is no line feed and,
where the build has `CFG_ubx` (`ubxOn`), no UBX sync byte 0xB5. -/
def noLineIn (ubxOn : Bool) (buf : List Nat) (fill : Nat) : Prop :=
  ∀ j : Nat, j < fill → buf[j]? ≠ some 10 ∧ (ubxOn = true → buf[j]? ≠ some 0xB5)

/-! ## Values of type `double` -/

/-- The rational `q` is the value of a finite binary64 number (a C
`double`; every `float` value is one too): `m * 2^k` or `m / 2^k` with a
significand `|m| < 2^53` and the exponent in the range of the format. -/
def isBinary64 (q : ℚ) : Prop :=
  ∃ (m : ℤ) (k : ℕ), |m| < 2 ^ 53 ∧
    ((k ≤ 971 ∧ q = (m : ℚ) * 2 ^ k) ∨ (k ≤ 1074 ∧ q = (m : ℚ) / 2 ^ k))

/-! ## Theorems -/

theorem hex_pair_value : ∀ a b : Fin 16,
    Int.lor (((a : Nat) : Int) <<< (4 : Int)) ((b : Nat) : Int) = 16 * ((a : Nat) : Int) + ((b : Nat) : Int) := by
  decide

theorem rt_hexDigit_of_isHexDigit {c : Nat} (h : isHexDigit c) :
    ∃ a : Fin 16, rt_hexDigit c = ((a : Nat) : Int) := by
  unfold isHexDigit at h
  unfold rt_hexDigit
  rcases h with h | h | h
  · refine ⟨⟨c - 48, by omega⟩, ?_⟩
    simp only [h, and_self, if_true]
    have : 48 ≤ c := h.1
    omega
  · refine ⟨⟨c - 87, by omega⟩, ?_⟩
    have h1 : ¬ (48 ≤ c ∧ c ≤ 57) := by omega
    simp only [h1, h, and_self, if_true, if_false]
    omega
  · refine ⟨⟨c - 55, by omega⟩, ?_⟩
    have h1 : ¬ (48 ≤ c ∧ c ≤ 57) := by omega
    have h2 : ¬ (97 ≤ c ∧ c ≤ 102) := by omega
    simp only [h1, h2, h, and_self, if_true, if_false]
    omega

theorem hex_pair_of_isHexDigit {h1 h2 : Nat} (a : isHexDigit h1) (b : isHexDigit h2) :
    Int.lor (rt_hexDigit h1 <<< (4 : Int)) (rt_hexDigit h2) = 16 * rt_hexDigit h1 + rt_hexDigit h2 := by
  obtain ⟨x, hx⟩ := rt_hexDigit_of_isHexDigit a
  obtain ⟨y, hy⟩ := rt_hexDigit_of_isHexDigit b
  rw [hx, hy]
  exact hex_pair_value x y

theorem nmea_cksum_loop_star (data : List Nat) (k : Nat) (hk : data[k]? = some 42) :
    ∀ (fuel i v : Nat), i ≤ k → k < i + fuel →
      (∀ j, i ≤ j → j < k → data[j]? ≠ some 42) →
      nmea_cksum_loop data fuel i v = cksumAtStar data k (xorRange data i k v) := by
  intro fuel
  induction fuel with
  | zero => intro i v h1 h2; omega
  | succ n ih =>
    intro i v hik hkf hns
    have hklen : k < data.length := by
      rcases List.getElem?_eq_some.1 hk with ⟨h, _⟩; exact h
    rcases Nat.eq_or_lt_of_le hik with heq | hlt
    · subst heq
      have hx : xorRange data i i v = v := by
        unfold xorRange
        have : (data.take i).drop i = [] := by
          apply List.drop_eq_nil_of_le; simp
        rw [this]; rfl
      rw [nmea_cksum_loop, hk, hx]
      simp only [if_true]
      unfold cksumAtStar
      rfl
    · have hil : i < data.length := by omega
      have hb : data[i]? = some data[i] := List.getElem?_eq_getElem hil
      have hne : data[i] ≠ 42 := by
        intro h; exact hns i (le_refl _) hlt (by rw [hb, h])
      have hstep : xorRange data i k v = xorRange data (i + 1) k (v ^^^ data[i]) := by
        unfold xorRange
        have hlt2 : i < (data.take k).length := by simp; omega
        rw [List.drop_eq_getElem_cons hlt2]
        simp [List.getElem_take]
      rw [nmea_cksum_loop, hb]
      simp only [hne, if_false]
      rw [ih (i + 1) (v ^^^ data[i]) (by omega) (by omega) (fun j hj hjk => hns j (by omega) hjk), hstep]

theorem nmea_cksum_loop_nostar (data : List Nat) :
    ∀ (fuel i v : Nat), i + fuel ≤ data.length →
      (∀ j, i ≤ j → j < i + fuel → data[j]? ≠ some 42) →
      nmea_cksum_loop data fuel i v = some (0, data) := by
  intro fuel
  induction fuel with
  | zero => intro i v _ _; rfl
  | succ n ih =>
    intro i v hlen hns
    have hil : i < data.length := by omega
    have hb : data[i]? = some data[i] := List.getElem?_eq_getElem hil
    have hne : data[i] ≠ 42 := by
      intro h; exact hns i (le_refl _) (by omega) (by rw [hb, h])
    rw [nmea_cksum_loop, hb]
    simp only [hne, if_false]
    exact ih (i + 1) _ (by omega) (fun j hj hjk => hns j (by omega) (by omega))

/-- C1: `nmea_cksum` decides the XOR checksum. For a buffer whose byte 0 is
`$` and whose first `*` is at an index `k` with `1 ≤ k < len`, followed by
two hexadecimal digits, the call returns 0 or 1, and 1 exactly when the XOR
of the bytes `data[1..k-1]` equals `16 * hex(data[k+1]) + hex(data[k+2])`
(the two checksum characters are zeroed in the buffer). It returns 0, and
leaves the buffer as it is, when byte 0 is not `$`, and when no `*` occurs
at the indices `1..len-1`. -/
theorem nmea_cksum_decides (data : List Nat) (len b0 : Nat) (hb0 : data[0]? = some b0) :
    (∀ k h1 h2 : Nat, b0 = 36 → 1 ≤ k → k < len → data[k]? = some 42 →
        (∀ j, 1 ≤ j → j < k → data[j]? ≠ some 42) →
        data[k + 1]? = some h1 → data[k + 2]? = some h2 → isHexDigit h1 → isHexDigit h2 →
        ∃ r : Int, nmea_cksum data len = some (r, (data.set (k + 1) 0).set (k + 2) 0) ∧
          (r = 0 ∨ r = 1) ∧
          (r = 1 ↔ (xorRange data 1 k 0 : Int) = 16 * rt_hexDigit h1 + rt_hexDigit h2)) ∧
    (b0 ≠ 36 → nmea_cksum data len = some (0, data)) ∧
    (len ≤ data.length → (∀ j, 1 ≤ j → j < len → data[j]? ≠ some 42) →
        nmea_cksum data len = some (0, data)) := by
  refine ⟨?_, ?_, ?_⟩
  · intro k h1 h2 hb hk1 hkl hk hfirst hh1 hh2 x1 x2
    subst hb
    have hloop := nmea_cksum_loop_star data k hk (len - 1) 1 0 hk1 (by omega) hfirst
    simp only [cksumAtStar, hh1, hh2] at hloop
    rw [hex_pair_of_isHexDigit x1 x2] at hloop
    refine ⟨if 16 * rt_hexDigit h1 + rt_hexDigit h2 = (xorRange data 1 k 0 : Int) then 1 else 0,
      ?_, ?_, ?_⟩
    · simp only [nmea_cksum, hb0]
      exact hloop
    · by_cases h : 16 * rt_hexDigit h1 + rt_hexDigit h2 = (xorRange data 1 k 0 : Int) <;> simp [h]
    · by_cases h : 16 * rt_hexDigit h1 + rt_hexDigit h2 = (xorRange data 1 k 0 : Int)
      · simp [h]
      · simp only [h, if_false]
        constructor
        · intro h'; exact absurd h' (by decide)
        · intro h'; exact absurd h'.symm h
  · intro hb
    simp [nmea_cksum, hb0, hb]
  · intro hlen hns
    by_cases hb : b0 = 36
    · simp only [nmea_cksum, hb0, hb]
      have hpos : 0 < data.length := by
        rcases List.getElem?_eq_some.1 hb0 with ⟨h, _⟩; exact h
      exact nmea_cksum_loop_nostar data (len - 1) 1 0 (by omega) (fun j hj hjl => hns j hj (by omega))
    · simp [nmea_cksum, hb0, hb]

theorem nmea_cksum_decides_witness :
    (nmea_cksum (bytes ("$AX41*1C\n")) 8).map Prod.fst = some 1 ∧
    (nmea_cksum (bytes ("$AX41*1D\n")) 8).map Prod.fst = some 0 ∧
    nmea_cksum (bytes ("$AX41,1C\n")) 8 = some (0, bytes ("$AX41,1C\n")) := by
  have h := nmea_cksum_decides (bytes ("$AX41*1C\n")) 8 36 (by decide)
  have h2 := nmea_cksum_decides (bytes ("$AX41*1D\n")) 8 36 (by decide)
  have h3 := nmea_cksum_decides (bytes ("$AX41,1C\n")) 8 36 (by decide)
  refine ⟨?_, ?_, ?_⟩
  · obtain ⟨r, hr, -, hiff⟩ := h.1 5 49 67 rfl (by decide) (by decide) (by decide) (by decide)
      (by decide) (by decide) (by decide) (by decide)
    have : r = 1 := hiff.2 (by decide)
    rw [hr, this]; rfl
  · obtain ⟨r, hr, h01, hiff⟩ := h2.1 5 49 68 rfl (by decide) (by decide) (by decide) (by decide)
      (by decide) (by decide) (by decide) (by decide)
    have : r = 0 := by
      rcases h01 with h0 | h1
      · exact h0
      · exact absurd (hiff.1 h1) (by decide)
    rw [hr, this]; rfl
  · exact h3.2.2 (by decide) (by decide)

theorem foldl_xor_init_inj (l : List Nat) : ∀ u w : Nat,
    l.foldl (fun a b => a ^^^ b) u = l.foldl (fun a b => a ^^^ b) w → u = w := by
  induction l with
  | nil => intro u w h; exact h
  | cons a t ih =>
    intro u w h
    simp only [List.foldl_cons] at h
    exact Nat.xor_left_inj.1 (ih _ _ h)

theorem foldl_xor_set_ne (l : List Nat) : ∀ (j : Nat) (hj : j < l.length) (c v : Nat),
    c ≠ l[j] → (l.set j c).foldl (fun a b => a ^^^ b) v ≠ l.foldl (fun a b => a ^^^ b) v := by
  induction l with
  | nil => intro j hj; simp at hj
  | cons a t ih =>
    intro j hj c v hne
    cases j with
    | zero =>
      simp only [List.set_cons_zero, List.foldl_cons]
      intro h
      have := foldl_xor_init_inj t _ _ h
      exact hne (Nat.xor_right_inj.1 this)
    | succ n =>
      simp only [List.set_cons_succ, List.foldl_cons]
      exact ih n (by simpa using hj) c (v ^^^ a) (by simpa using hne)

theorem xorRange_set_ne (data : List Nat) (j k c : Nat) (hj1 : 1 ≤ j) (hjk : j < k)
    (hk : k < data.length) (hne : c ≠ data[j]) :
    xorRange (data.set j c) 1 k 0 ≠ xorRange data 1 k 0 := by
  unfold xorRange
  rw [List.set_take, List.drop_set, if_neg (by omega)]
  have hlen : j - 1 < ((data.take k).drop 1).length := by simp; omega
  apply foldl_xor_set_ne _ (j - 1) hlen
  have : ((data.take k).drop 1)[j - 1] = data[j] := by
    simp [List.getElem_drop, List.getElem_take]
    congr 1; omega
  rw [this]; exact hne

/-- C2, amended: corrupting one payload byte into anything but `*` causes
rejection. If `nmea_cksum` accepts a line whose first `*` is at `k`, then
replacing the byte at an index `j` strictly between the `$` and that `*` by
a different byte value `c` other than `*` gives a line on which
`nmea_cksum` returns 0. -/
theorem nmea_cksum_rejects_corrupted (data : List Nat) (len k j c : Nat) (d1 : List Nat)
    (hacc : nmea_cksum data len = some (1, d1))
    (hk1 : 1 ≤ k) (hkl : k < len) (hk : data[k]? = some 42)
    (hfirst : ∀ i, 1 ≤ i → i < k → data[i]? ≠ some 42)
    (hj1 : 1 ≤ j) (hjk : j < k) (hne : data[j]? ≠ some c) (hc : c ≠ 42) :
    nmea_cksum (data.set j c) len = some (0, ((data.set j c).set (k + 1) 0).set (k + 2) 0) := by
  have hklen : k < data.length := by
    rcases List.getElem?_eq_some.1 hk with ⟨h, _⟩; exact h
  have h0 : data[0]? = some 36 := by
    unfold nmea_cksum at hacc
    cases hd : data[0]? with
    | none => simp [hd] at hacc
    | some b0 =>
      by_cases hb : b0 = 36
      · rw [hb]
      · simp [hd, hb] at hacc
  have hloop : nmea_cksum_loop data (len - 1) 1 0 = some (1, d1) := by
    simpa [nmea_cksum, h0] using hacc
  rw [nmea_cksum_loop_star data k hk (len - 1) 1 0 hk1 (by omega) hfirst] at hloop
  have hjlen : j < data.length := by omega
  have hcne : c ≠ data[j] := by
    intro h; apply hne; rw [List.getElem?_eq_getElem hjlen, h]
  have hk' : (data.set j c)[k]? = some 42 := by
    rw [List.getElem?_set_ne (by omega)]; exact hk
  have hfirst' : ∀ i, 1 ≤ i → i < k → (data.set j c)[i]? ≠ some 42 := by
    intro i hi hik
    by_cases hij : j = i
    · subst hij
      rw [List.getElem?_set_self hjlen]
      intro h; exact hc (Option.some.inj h)
    · rw [List.getElem?_set_ne hij]; exact hfirst i hi hik
  have h0' : (data.set j c)[0]? = some 36 := by
    rw [List.getElem?_set_ne (by omega)]; exact h0
  have hloop' := nmea_cksum_loop_star (data.set j c) k hk' (len - 1) 1 0 hk1 (by omega) hfirst'
  have hx := xorRange_set_ne data j k c hj1 hjk hklen hcne
  simp only [nmea_cksum, h0']
  rw [if_neg (by simp), hloop']
  unfold cksumAtStar at hloop ⊢
  rw [List.getElem?_set_ne (by omega), List.getElem?_set_ne (by omega)]
  cases hh1 : data[k + 1]? with
  | none => simp [hh1] at hloop
  | some h1 =>
    cases hh2 : data[k + 2]? with
    | none => simp [hh1, hh2] at hloop
    | some h2 =>
      simp only [hh1, hh2, Option.some.injEq, Prod.mk.injEq] at hloop ⊢
      refine ⟨?_, trivial⟩
      by_cases hs : Int.lor (rt_hexDigit h1 <<< (4 : Int)) (rt_hexDigit h2) = (xorRange data 1 k 0 : Int)
      · rw [if_neg]
        rw [hs]
        intro h
        exact hx (Int.ofNat_inj.1 h).symm
      · rw [if_neg hs] at hloop
        exact absurd hloop.1 (by decide)

theorem nmea_cksum_rejects_corrupted_witness :
    (nmea_cksum ((bytes ("$AX41*1C\n")).set 2 89) 8).map Prod.fst = some 0 := by
  rw [nmea_cksum_rejects_corrupted (bytes ("$AX41*1C\n")) 8 5 2 89
    ((bytes ("$AX41*1C\n")).set 6 0 |>.set 7 0)
    (by decide) (by decide) (by decide) (by decide) (by decide) (by decide) (by decide)
    (by decide) (by decide)]
  rfl

/-- C2, counterexample: the line `$AX41*1C` is accepted (its first `*` is at
index 5 and the XOR of `AX41` is 0x1C); replacing the payload byte `X` at
index 2 by the different byte `*` gives `$A*41*1C`, which is accepted too,
since the XOR of `A` is 0x41. -/
theorem corrupted_line_accepted :
    (nmea_cksum (bytes ("$AX41*1C\n")) 8).map Prod.fst = some 1 ∧
    (bytes ("$AX41*1C\n"))[2]? = some 88 ∧ (88 : Nat) ≠ 42 ∧
    (bytes ("$AX41*1C\n"))[5]? = some 42 ∧
    (nmea_cksum ((bytes ("$AX41*1C\n")).set 2 42) 8).map Prod.fst = some 1 := by
  refine ⟨?_, ?_, ?_, ?_, ?_⟩ <;> decide

theorem truncQ_of_nonneg {q : ℚ} (hq : 0 ≤ q) : truncQ q = ⌊q⌋ := by
  unfold truncQ
  rw [Rat.floor_def, Int.tdiv_eq_ediv (Rat.num_nonneg.2 hq) (Int.ofNat_nonneg _)]

/-- C3: degrees-minutes conversion. For a non-negative value `v` in range
(the degrees times 100 fit an `int`, that is `v < 2147483700`) and a
hemisphere character `h`, `nmea_p2dec(v, h)` is
`floor(v/100) + (v - 100*floor(v/100))/60`, negated when `h` is `S` or `W`,
over exact rationals; and `4807.038` with `N` gives `48 + 7.038/60`. -/
theorem nmea_p2dec_degrees_minutes (v : ℚ) (h : Nat) (hv : 0 ≤ v) (hr : v < 2147483700) :
    nmea_p2dec v h =
        some (if h = 83 ∨ h = 87 then -((⌊v / 100⌋ : ℚ) + (v - 100 * (⌊v / 100⌋ : ℚ)) / 60)
              else (⌊v / 100⌋ : ℚ) + (v - 100 * (⌊v / 100⌋ : ℚ)) / 60) ∧
    nmea_p2dec (4807038 / 1000) 78 = some (48 + (7038 / 1000) / 60) := by
  constructor
  · have hq : (0 : ℚ) ≤ v / 100 := by positivity
    have hfl0 : 0 ≤ ⌊v / 100⌋ := Int.floor_nonneg.2 hq
    have hfl1 : ⌊v / 100⌋ < 21474837 := by
      rw [Int.floor_lt]
      push_cast
      linarith
    unfold nmea_p2dec
    simp only [truncQ_of_nonneg hq]
    have hfit : fitsS32 ⌊v / 100⌋ ∧ fitsS32 (⌊v / 100⌋ * 100) := by
      unfold fitsS32
      refine ⟨⟨by omega, by omega⟩, by omega, by omega⟩
    rw [if_pos hfit]
    congr 1
    by_cases hh : h = 83 ∨ h = 87
    · simp only [hh, if_true]; push_cast; ring
    · simp only [hh, if_false]; push_cast; ring
  · decide!

theorem nmea_p2dec_degrees_minutes_witness :
    nmea_p2dec 1131 87 = some (-(11 + 31 / 60)) := by
  have h := (nmea_p2dec_degrees_minutes 1131 87 (by norm_num) (by norm_num)).1
  have hf : ⌊(1131 : ℚ) / 100⌋ = 11 := by
    rw [Int.floor_eq_iff]; norm_num
  rw [h, hf]
  norm_num

/-- C4: end-to-end decode of the example sentence. On the body
`123519.00,4807.038,N,01131.000,E,1,08,0.9,545.4,M,46.9,M,,*` the nine
parser calls of `nmea_gga` all succeed, with quality 1, 8 satellites,
dilution 9/10 and altitude 545.4, and after `nmea_p2dec` the latitude is
`48 + 7.038/60` and the longitude `11 + 31/60` (exact rationals). -/
theorem nmea_gga_decodes_example :
    (nmea_gga_fields (bytes ("123519.00,4807.038,N,01131.000,E,1,08,0.9,545.4,M,46.9,M,,*")) 0).map
        Prod.snd =
      some (some ⟨123519, 4807038 / 1000, 19, 1131, 31, 1, 8, 9 / 10, 5454 / 10⟩) ∧
    (nmea_gga_decode (bytes ("123519.00,4807.038,N,01131.000,E,1,08,0.9,545.4,M,46.9,M,,*")) 0).map
        Prod.snd =
      some (some ⟨48 + (7038 / 1000) / 60, 11 + 31 / 60, 5454 / 10, 9 / 10, 8, 1⟩) := by
  constructor <;> decide!

/-- C5, the code at the failing input `-1.5,`: `nmea_float` succeeds, but the
value is `2^64 - 1 + 5/10` and not `-(1 + 5/10)`: the sign is applied to the
integer part alone, in unsigned 64-bit arithmetic, and the fraction is
added. -/
theorem nmea_float_negative_field :
    nmea_float (bytes ("-1.5,")) 0 = some (Parsed.ok 5 ((2 ^ 64 - 1 : ℚ) + 5 / 10)) ∧
    ((2 ^ 64 - 1 : ℚ) + 5 / 10) ≠ -(1 + 5 / 10) := by
  constructor
  · decide!
  · norm_num

/-- C7, the code at the failing input `,5,`: on an empty field `nmea_decimal`
and `nmea_float` return success with the cursor still at 0, on the `,`, not
one position past it (on the non-empty field `7,` the cursor does move past
the `,`). In `nmea_gga` the next parser then reads the same empty field:
with an empty dilution field both the dilution and the altitude come out
absent, although the altitude field is `545.4`. -/
theorem empty_field_leaves_cursor :
    nmea_decimal (bytes (",5,")) 0 = some (Parsed.ok 0 NILFIELD) ∧
    nmea_float (bytes (",5,")) 0 = some (Parsed.ok 0 (NILFIELD : ℚ)) ∧
    nmea_decimal (bytes ("7,5,")) 0 = some (Parsed.ok 2 7) ∧
    (nmea_gga_fields (bytes ("123519.00,4807.038,N,01131.000,E,1,08,,545.4,M,46.9,M,,*")) 0).map
        Prod.snd =
      some (some ⟨123519, 4807038 / 1000, 19, 1131, 31, 1, 8, (NILFIELD : ℚ), (NILFIELD : ℚ)⟩) := by
  refine ⟨?_, ?_, ?_, ?_⟩ <;> decide!

theorem nmea_float_at_delimiter (buf : List Nat) (pp : Nat)
    (h : buf[pp]? = some 44 ∨ buf[pp]? = some 42) :
    nmea_float buf pp = some (Parsed.ok pp (NILFIELD : ℚ)) := by
  unfold nmea_float
  rcases h with h | h <;> simp [h]

/-- With an empty latitude field the parsers, if they all succeed, deliver
the absent value as latitude. -/
theorem nmea_gga_fields_empty_lat (buf buf1 : List Nat) (p p1 : Nat) (t : ℚ) (f : GgaFields)
    (h1 : nmea_float buf p = some (Parsed.ok p1 t))
    (h2 : buf[p1]? = some 44 ∨ buf[p1]? = some 42)
    (hf : nmea_gga_fields buf p = some (buf1, some f)) : f.lat = (NILFIELD : ℚ) := by
  have hlat := nmea_float_at_delimiter buf p1 h2
  unfold nmea_gga_fields at hf
  simp only [h1, hlat] at hf
  repeat' split at hf
  all_goals first
    | (simp only [Option.some.injEq, Prod.mk.injEq] at hf
       rw [← hf.2])
    | (simp only [Option.some.injEq, Prod.mk.injEq, reduceCtorEq, and_false] at hf)

/-- C8: a sentence without usable coordinates does not touch the tracker.
When the parser calls of `nmea_gga` run without a fault and one of them
returns 0 (the log scan then finding the end of the printable text), or the
latitude or longitude they deliver is the absent value, or the latitude
field is empty (the cursor after the time field stands at `,` or `*`), then
`nmea_gga` returns with the state exactly as it was, so with origin, last
position, `last_quality`, `time_fixchange`, `last_reported_fix`,
`nofix_backoff` and `report_move` unchanged, and with no message handed to
the sink. -/
theorem nmea_gga_without_coordinates (delay : Int) (st : FixState) (env : Env)
    (buf buf1 : List Nat) (p : Nat) (r : Option GgaFields)
    (hf : nmea_gga_fields buf p = some (buf1, r))
    (hlog : r = none → printable_len (buf1.drop p) 0 ≠ none)
    (hno : r = none ∨
      (∃ f, r = some f ∧ (f.lat = (NILFIELD : ℚ) ∨ f.lon = (NILFIELD : ℚ))) ∨
      (∃ p1 t, nmea_float buf p = some (Parsed.ok p1 t) ∧
        (buf[p1]? = some 44 ∨ buf[p1]? = some 42))) :
    nmea_gga delay st env buf p = some (st, [], buf1) := by
  have hcases : r = none ∨ ∃ f, r = some f ∧ (f.lat = (NILFIELD : ℚ) ∨ f.lon = (NILFIELD : ℚ)) := by
    rcases hno with h | h | ⟨p1, t, h1, h2⟩
    · exact Or.inl h
    · exact Or.inr h
    · cases r with
      | none => exact Or.inl rfl
      | some f => exact Or.inr ⟨f, rfl, Or.inl (nmea_gga_fields_empty_lat buf buf1 p p1 t f h1 h2 hf)⟩
  rcases hcases with h | ⟨f, h, hnil⟩
  · subst h
    have hl := hlog rfl
    cases hp : printable_len (buf1.drop p) 0 with
    | none => exact absurd hp hl
    | some n => simp [nmea_gga, nmea_gga_decode, hf, hp]
  · subst h
    simp [nmea_gga, nmea_gga_decode, hf, hnil]

theorem nmea_gga_without_coordinates_witness :
    nmea_gga 120 FixState.init ⟨5, 5, true, [true, true], [true]⟩
        (bytes ("170801.00,,,,,0,00,99.99,,,,,,*") ++ [0, 0, 10]) 0 =
      some (FixState.init, [],
        bytes ("170801.00,") ++ [0, 0] ++ bytes (",,0,00,99.99,,,,,,*") ++ [0, 0, 10]) :=
  nmea_gga_without_coordinates 120 FixState.init ⟨5, 5, true, [true, true], [true]⟩
    (bytes ("170801.00,,,,,0,00,99.99,,,,,,*") ++ [0, 0, 10])
    (bytes ("170801.00,") ++ [0, 0] ++ bytes (",,0,00,99.99,,,,,,*") ++ [0, 0, 10]) 0
    (some ⟨170801, (NILFIELD : ℚ), 10, (NILFIELD : ℚ), 11, NILFIELD, NILFIELD,
      (NILFIELD : ℚ), (NILFIELD : ℚ)⟩)
    (by decide!) (by intro h; exact absurd h (by simp))
    (Or.inr (Or.inr ⟨10, 170801, by decide!, Or.inl (by decide)⟩))

theorem foldl_digits_mod (ds : List Nat) : ∀ v u : Nat, v % W64 = u % W64 →
    (ds.foldl (fun a c => (a * 10 + (c - 48)) % W64) v) % W64 =
      (ds.foldl (fun a c => a * 10 + (c - 48)) u) % W64 := by
  induction ds with
  | nil => intro v u h; exact h
  | cons c rest ih =>
    intro v u h
    simp only [List.foldl_cons]
    apply ih
    rw [Nat.mod_mod]
    rw [Nat.add_mod, Nat.mul_mod, h, ← Nat.mul_mod, ← Nat.add_mod]

theorem foldl_digits_lt (ds : List Nat) : ∀ v : Nat, v < W64 →
    ds.foldl (fun a c => (a * 10 + (c - 48)) % W64) v < W64 := by
  induction ds with
  | nil => intro v h; exact h
  | cons c rest ih =>
    intro v _
    simp only [List.foldl_cons]
    exact ih _ (Nat.mod_lt _ (by decide))

theorem decValue_lt_pow (ds : List Nat) (h : ∀ c ∈ ds, 48 ≤ c ∧ c ≤ 57) :
    decValue ds < 10 ^ ds.length := by
  unfold decValue
  have key : ∀ (l : List Nat), (∀ c ∈ l, 48 ≤ c ∧ c ≤ 57) → ∀ v : Nat,
      l.foldl (fun a c => a * 10 + (c - 48)) v < (v + 1) * 10 ^ l.length := by
    intro l
    induction l with
    | nil => intro _ v; simp
    | cons c rest ih =>
      intro hl v
      simp only [List.foldl_cons, List.length_cons]
      have hc := hl c (List.mem_cons_self _ _)
      have := ih (fun d hd => hl d (List.mem_cons_of_mem _ hd)) (v * 10 + (c - 48))
      calc List.foldl (fun a c => a * 10 + (c - 48)) (v * 10 + (c - 48)) rest
          < (v * 10 + (c - 48) + 1) * 10 ^ rest.length := this
        _ ≤ ((v + 1) * 10) * 10 ^ rest.length := by
            apply Nat.mul_le_mul_right; omega
        _ = (v + 1) * 10 ^ (rest.length + 1) := by ring
  simpa using key ds h 0

theorem p10_loop_small (n : Nat) (hn : n ≤ 19) : p10_loop n 1 = 10 ^ n := by
  interval_cases n <;> decide

theorem rt_readDec_loop_digits (ds rest : List Nat) (c : Nat)
    (hd : ∀ x ∈ ds, 48 ≤ x ∧ x ≤ 57) (hc : ¬ (48 ≤ c ∧ c ≤ 57)) :
    ∀ v n : Nat, rt_readDec_loop (ds ++ c :: rest) v n =
      some (ds.foldl (fun a x => (a * 10 + (x - 48)) % W64) v, n + ds.length) := by
  induction ds with
  | nil => intro v n; simp [rt_readDec_loop, hc]
  | cons x xs ih =>
    intro v n
    have hx := hd x (List.mem_cons_self _ _)
    have ih2 := ih (fun y hy => hd y (List.mem_cons_of_mem _ hy))
      ((v * 10 + (x - 48)) % W64) (n + 1)
    rw [List.cons_append, rt_readDec_loop, if_pos hx, ih2]
    simp only [List.foldl_cons, List.length_cons]
    congr 2; omega

/-- On a text that starts with the digits `ds`, not empty, followed by a
character that is no digit, `rt_readDec` returns their value modulo `2^64`
and leaves the pointer behind them. -/
theorem rt_readDec_digits (buf ds rest : List Nat) (p c : Nat)
    (hbuf : buf.drop p = ds ++ c :: rest) (hne : ds ≠ [])
    (hd : ∀ x ∈ ds, 48 ≤ x ∧ x ≤ 57) (hc : ¬ (48 ≤ c ∧ c ≤ 57)) :
    rt_readDec buf p = some (decValue ds % W64, p + ds.length) := by
  unfold rt_readDec
  rw [hbuf, rt_readDec_loop_digits ds rest c hd hc]
  have hlen : ds.length ≠ 0 := fun h => hne (List.length_eq_zero.1 h)
  simp only [Nat.zero_add, if_neg hlen]
  have h1 := foldl_digits_mod ds 0 0 rfl
  rw [Nat.mod_eq_of_lt (foldl_digits_lt ds 0 (by decide))] at h1
  rw [h1]; rfl

/-- Fields without a sign are read as written: on the integer digits `I`
(not empty, value below `2^64`), a `.` and a fraction `F` of 1 to 19 digits,
followed by `,` or `*`, `nmea_float` succeeds, moves the cursor one position
past the delimiter and returns `I + F / 10^(number of digits of F)`. -/
theorem nmea_float_unsigned_field (buf I F rest : List Nat) (pp d : Nat)
    (hbuf : buf.drop pp = I ++ 46 :: (F ++ d :: rest))
    (hI : I ≠ []) (hF : F ≠ []) (hF19 : F.length ≤ 19)
    (hId : ∀ x ∈ I, 48 ≤ x ∧ x ≤ 57) (hFd : ∀ x ∈ F, 48 ≤ x ∧ x ≤ 57)
    (hfit : decValue I < W64) (hd : d = 44 ∨ d = 42) :
    nmea_float buf pp =
      some (Parsed.ok (pp + I.length + 1 + F.length + 1)
        ((decValue I : ℚ) + (decValue F : ℚ) / ((10 ^ F.length : Nat) : ℚ))) := by
  obtain ⟨c0, I1, hI1⟩ := List.exists_cons_of_ne_nil hI
  have hc0 := hId c0 (by rw [hI1]; exact List.mem_cons_self _ _)
  have h0 : buf[pp]? = some c0 := by
    have := List.getElem?_drop buf pp 0
    rw [hbuf, hI1] at this
    simpa using this.symm
  have hr1 := rt_readDec_digits buf I (F ++ d :: rest) pp 46 hbuf hI hId (by omega)
  have hq : buf[pp + I.length]? = some 46 := by
    have := List.getElem?_drop buf pp I.length
    rw [hbuf, List.getElem?_append_right (le_refl _)] at this
    simpa using this.symm
  have hbuf2 : buf.drop (pp + I.length + 1) = F ++ d :: rest := by
    have := congrArg (List.drop (I.length + 1)) hbuf
    rw [List.drop_drop] at this
    rw [show pp + I.length + 1 = pp + (I.length + 1) from by omega, this]
    rw [show I ++ 46 :: (F ++ d :: rest) = (I ++ [46]) ++ (F ++ d :: rest) from by simp]
    exact List.drop_left' (by simp)
  have hdn : ¬ (48 ≤ d ∧ d ≤ 57) := by rcases hd with h | h <;> omega
  have hr2 := rt_readDec_digits buf F rest (pp + I.length + 1) d hbuf2 hF hFd hdn
  have hend : buf[pp + I.length + 1 + F.length]? = some d := by
    have := List.getElem?_drop buf (pp + I.length + 1) F.length
    rw [hbuf2, List.getElem?_append_right (le_refl _)] at this
    simpa using this.symm
  have hFv : decValue F % W64 = decValue F := by
    apply Nat.mod_eq_of_lt
    have h1 := decValue_lt_pow F hFd
    have h2 : 10 ^ F.length ≤ 10 ^ 19 := Nat.pow_le_pow_right (by decide) hF19
    have h3 : (10 : Nat) ^ 19 < W64 := by decide
    omega
  have hlen : 0 < I.length := List.length_pos.2 hI
  have hpos : (10 : Nat) ^ F.length ≠ 0 := by positivity
  have hdd : ¬ (d ≠ 44 ∧ d ≠ 42) := by rcases hd with h | h <;> simp [h]
  unfold nmea_float
  simp only [h0]
  rw [if_neg (by omega), if_neg (by omega), if_neg (by omega)]
  simp only [Nat.add_zero, hr1]
  rw [if_neg (by omega)]
  simp only [hq, if_true, hr2]
  rw [show pp + I.length + 1 + F.length - (pp + I.length + 1) = F.length from by omega,
    p10_loop_small _ hF19]
  simp only [hend]
  rw [if_neg hdd, if_neg hpos]
  simp only [signMul, Nat.mod_eq_of_lt hfit, hFv]
  congr 3
  have h1 : ((decValue I : Nat) : Int) % (W64 : Int) = (decValue I : Int) :=
    Int.emod_eq_of_lt (Int.ofNat_nonneg _) (by exact_mod_cast hfit)
  simp [h1]

theorem getSendbuf_sent (s : Sink) : (getSendbuf s).2.sent = s.sent := by
  unfold getSendbuf; split <;> rfl

theorem vxprintf_sent (s : Sink) : (vxprintf s).2.sent = s.sent := by
  unfold vxprintf; split <;> rfl

theorem send_alarm_sent (s : Sink) (text m : Msg) (hm : m ∈ (send_alarm s text).2.sent) :
    m ∈ s.sent ∨ m = text := by
  unfold send_alarm at hm
  split at hm
  · exact Or.inl hm
  · simp only at hm
    split at hm
    · rw [getSendbuf_sent] at hm; exact Or.inl hm
    · split at hm
      · rw [vxprintf_sent, getSendbuf_sent] at hm; exact Or.inl hm
      · simp only [sendText, List.mem_append, List.mem_singleton] at hm
        rw [vxprintf_sent, getSendbuf_sent] at hm
        exact hm

/-- A fix event in the sink after `send_gpsev_fix` was there before or the
call was made for `GPSEV_FIX`. -/
theorem send_gpsev_fix_sent (s s1 : Sink) (ev : GpsEv) (lat lon alt dil : ℚ) (sat q r : Int)
    (fl fo : ℚ) (h : send_gpsev_fix s ev lat lon alt dil sat q fl fo = some (r, s1))
    (m : Msg) (hm : m ∈ s1.sent) (hfix : isFixEvent m = true) :
    m ∈ s.sent ∨ ev = GpsEv.FIX := by
  unfold send_gpsev_fix at h
  split at h
  · exact absurd h (by simp)
  · simp only at h
    split at h
    · simp only [Option.some.injEq, Prod.mk.injEq] at h
      rw [← h.2, getSendbuf_sent] at hm
      exact Or.inl hm
    · by_cases hev : ev = GpsEv.FIX
      · exact Or.inr hev
      · rw [if_neg hev] at h
        simp only [Option.some.injEq] at h
        have h2 : s1 = (send_alarm (sendText (getSendbuf s).2 (Msg.gpsev ev lat lon alt dil sat q))
            (Msg.alarmMove fl fo lat lon alt dil sat q)).2 := by rw [h]
        rw [h2] at hm
        rcases send_alarm_sent _ _ _ hm with h3 | h3
        · simp only [sendText, List.mem_append, List.mem_singleton] at h3
          rw [getSendbuf_sent] at h3
          rcases h3 with h3 | h3
          · exact Or.inl h3
          · rw [h3] at hfix
            cases ev with
            | MOVE => exact absurd hfix (by simp [isFixEvent])
            | FIX => exact absurd rfl hev
            | NOFIX => exact absurd hfix (by simp [isFixEvent])
        · rw [h3] at hfix
          simp [isFixEvent] at hfix

theorem send_gpsev_nofix_sent (s s1 : Sink) (since r : Int)
    (h : send_gpsev_nofix s since = some (r, s1))
    (m : Msg) (hm : m ∈ s1.sent) (hfix : isFixEvent m = true) : m ∈ s.sent := by
  unfold send_gpsev_nofix at h
  split at h
  · exact absurd h (by simp)
  · simp only at h
    split at h
    · simp only [Option.some.injEq, Prod.mk.injEq] at h
      rw [← h.2, getSendbuf_sent] at hm
      exact hm
    · simp only [Option.some.injEq] at h
      have h2 : s1 = (send_alarm (sendText (getSendbuf s).2 (Msg.nofix since))
          (Msg.alarmNofix since)).2 := by rw [h]
      rw [h2] at hm
      rcases send_alarm_sent _ _ _ hm with h3 | h3
      · simp only [sendText, List.mem_append, List.mem_singleton] at h3
        rw [getSendbuf_sent] at h3
        rcases h3 with h3 | h3
        · exact h3
        · rw [h3] at hfix; simp [isFixEvent] at hfix
      · rw [h3] at hfix; simp [isFixEvent] at hfix

theorem track_fix_report_spec (delay : Int) (st st2 : FixState) (env : Env) (s s2 : Sink)
    (x : Fix) (h : track_fix_report delay st env s x = some (st2, s2)) :
    st2.time_fixchange = st.time_fixchange ∧
    (∀ m, m ∈ s2.sent → isFixEvent m = true →
      m ∈ s.sent ∨ (x.quality ≠ 0 ∧ env.now > st.time_fixchange + delay)) := by
  unfold track_fix_report at h
  split at h
  · rename_i hc
    split at h
    · exact absurd h (by simp)
    · rename_i r s1 hs
      simp only [Option.some.injEq, Prod.mk.injEq] at h
      constructor
      · rw [← h.1]; split <;> rfl
      · intro m hm hfix
        right
        refine ⟨?_, hc.2.2⟩
        intro hq
        have := hc.2.1
        simp [fix_sign, hq] at this
  · simp only [Option.some.injEq, Prod.mk.injEq] at h
    refine ⟨by rw [← h.1], ?_⟩
    intro m hm _
    rw [← h.2] at hm
    exact Or.inl hm

theorem track_nofix_report_spec (delay : Int) (st st3 : FixState) (env : Env) (s s3 : Sink)
    (x : Fix) (h : track_nofix_report delay st env s x = some (st3, s3)) :
    st3.time_fixchange = st.time_fixchange ∧
    (∀ m, m ∈ s3.sent → isFixEvent m = true → m ∈ s.sent) := by
  unfold track_nofix_report at h
  split at h
  · split at h
    · exact absurd h (by simp)
    · simp only at h
      split at h
      · split at h
        · exact absurd h (by simp)
        · rename_i r s1 hs
          simp only [Option.some.injEq, Prod.mk.injEq] at h
          constructor
          · rw [← h.1]; split <;> rfl
          · intro m hm hfix
            rw [← h.2] at hm
            exact send_gpsev_nofix_sent _ _ _ _ hs m hm hfix
      · simp only [Option.some.injEq, Prod.mk.injEq] at h
        refine ⟨by rw [← h.1], ?_⟩
        intro m hm _
        rw [← h.2] at hm
        exact hm
  · simp only [Option.some.injEq, Prod.mk.injEq] at h
    refine ⟨by rw [← h.1], ?_⟩
    intro m hm _
    rw [← h.2] at hm
    exact hm

theorem track_position_spec (st : FixState) (x : Fix) :
    (track_position st x).time_fixchange = st.time_fixchange ∧
    (track_position st x).last_quality = wrap32 x.quality := by
  unfold track_position
  constructor
  · simp only
    split
    · split
      · split <;> rfl
      · rfl
    · rfl
  · rfl

theorem track_move_report_spec (st st5 : FixState) (s s5 : Sink) (x : Fix)
    (h : track_move_report st s x = some (st5, s5)) :
    st5.time_fixchange = st.time_fixchange ∧ st5.last_quality = st.last_quality ∧
    (∀ m, m ∈ s5.sent → isFixEvent m = true → m ∈ s.sent) := by
  unfold track_move_report at h
  split at h
  · split at h
    · exact absurd h (by simp)
    · rename_i r s1 hs
      simp only [Option.some.injEq, Prod.mk.injEq] at h
      refine ⟨?_, ?_, ?_⟩
      · rw [← h.1]; split <;> rfl
      · rw [← h.1]; split <;> rfl
      · intro m hm hfix
        rw [← h.2] at hm
        rcases send_gpsev_fix_sent _ _ _ _ _ _ _ _ _ _ _ _ hs m hm hfix with h1 | h1
        · exact h1
        · exact absurd h1 (by decide)
  · simp only [Option.some.injEq, Prod.mk.injEq] at h
    refine ⟨by rw [← h.1], by rw [← h.1], ?_⟩
    intro m hm _
    rw [← h.2] at hm
    exact hm

/-- What one pass of the fix-state logic does to `time_fixchange` and
`last_quality`, and when it can hand a fix event to the sink. -/
theorem nmea_gga_track_spec (delay : Int) (st st1 : FixState) (env : Env) (x : Fix)
    (msgs : List Msg) (h : nmea_gga_track delay st env x = some (st1, msgs)) :
    st1.time_fixchange = (track_fixchange st env x).time_fixchange ∧
    st1.last_quality = wrap32 x.quality ∧
    (∀ m, m ∈ msgs → isFixEvent m = true →
      x.quality ≠ 0 ∧ env.now > (track_fixchange st env x).time_fixchange + delay) := by
  unfold nmea_gga_track at h
  simp only at h
  cases h2 : track_fix_report delay (track_fixchange st env x) env
      ⟨env.tc, env.grants, env.encodes, []⟩ x with
  | none => simp [h2] at h
  | some r2 =>
    obtain ⟨st2, s2⟩ := r2
    simp only [h2] at h
    cases h3 : track_nofix_report delay st2 env s2 x with
    | none => simp [h3] at h
    | some r3 =>
      obtain ⟨st3, s3⟩ := r3
      simp only [h3] at h
      cases h5 : track_move_report (track_position st3 x) s3 x with
      | none => simp [h5] at h
      | some r5 =>
        obtain ⟨st5, s5⟩ := r5
        simp only [h5, Option.some.injEq, Prod.mk.injEq] at h
        obtain ⟨a1, a2⟩ := track_fix_report_spec _ _ _ _ _ _ _ h2
        obtain ⟨b1, b2⟩ := track_nofix_report_spec _ _ _ _ _ _ _ h3
        obtain ⟨c1, c2⟩ := track_position_spec st3 x
        obtain ⟨d1, d2, d3⟩ := track_move_report_spec _ _ _ _ _ h5
        refine ⟨?_, ?_, ?_⟩
        · rw [← h.1, d1, c1, b1, a1]
        · rw [← h.1, d2, c2]
        · intro m hm hfix
          rw [← h.2] at hm
          rcases a2 m (b2 m (d3 m hm hfix) hfix) hfix with h6 | h6
          · simp at h6
          · exact h6

theorem track_fixchange_time (st : FixState) (env : Env) (x : Fix) :
    (track_fixchange st env x).time_fixchange =
      if decide (x.quality = 0) ≠ decide (st.last_quality = 0) then env.t_change
      else st.time_fixchange := by
  unfold track_fixchange
  by_cases h1 : x.quality = 0 <;> by_cases h2 : st.last_quality = 0 <;> simp [h1, h2]

theorem wrap32_zero : wrap32 0 = 0 := by decide

/-- The debounce bound along a sequence of passes, from a state in which
`last_quality` is zero whenever the previous quality `qp` is, and
`time_fixchange` is not before `T` whenever `qp` is nonzero. -/
theorem run_passes_fix_bound (delay : Int) :
    ∀ (pre : List Pass) (st : FixState) (qp T : Int) (p : Pass) (st1 : FixState)
      (log : List (List Msg)) (st2 : FixState) (msgs : List Msg),
      (qp = 0 → st.last_quality = 0) → (qp ≠ 0 → T ≤ st.time_fixchange) →
      clockMonotone (pre ++ [p]) →
      (qp ≠ 0 → ∀ a ∈ pre ++ [p], T ≤ a.env.t_change) →
      run_passes delay st pre = some (st1, log) →
      nmea_gga_track delay st1 p.env p.x = some (st2, msgs) →
      ∀ m, m ∈ msgs → isFixEvent m = true →
        p.x.quality ≠ 0 ∧ p.env.now > lastFixChange T qp (pre ++ [p]) + delay := by
  intro pre
  induction pre with
  | nil =>
    intro st qp T p st1 log st2 msgs hz hnz _ hfut hrun hp m hm hfix
    simp only [run_passes, Option.some.injEq, Prod.mk.injEq] at hrun
    rw [← hrun.1] at hp
    obtain ⟨-, -, h3⟩ := nmea_gga_track_spec _ _ _ _ _ _ hp
    obtain ⟨hq, hnow⟩ := h3 m hm hfix
    refine ⟨hq, ?_⟩
    rw [track_fixchange_time] at hnow
    simp only [List.nil_append, lastFixChange]
    by_cases hqp : qp = 0
    · have hl := hz hqp
      simp only [hq, hl, hqp, decide_True, decide_False, ne_eq, Bool.false_eq_true,
        not_false_eq_true, if_true] at hnow ⊢
      exact hnow
    · have hT := hnz hqp
      have hT2 := hfut hqp p (by simp)
      simp only [hq, hqp, decide_False, ne_eq, not_true_eq_false, if_false]
      split at hnow <;> omega
  | cons a rest ih =>
    intro st qp T p st1 log st2 msgs hz hnz hmono hfut hrun hp m hm hfix
    simp only [run_passes] at hrun
    cases ha : nmea_gga_track delay st a.env a.x with
    | none => simp [ha] at hrun
    | some ra =>
      obtain ⟨sta, ma⟩ := ra
      simp only [ha] at hrun
      cases hr : run_passes delay sta rest with
      | none => simp [hr] at hrun
      | some rr =>
        obtain ⟨stb, lb⟩ := rr
        simp only [hr, Option.some.injEq, Prod.mk.injEq] at hrun
        obtain ⟨t1, t2, -⟩ := nmea_gga_track_spec _ _ _ _ _ _ ha
        rw [track_fixchange_time] at t1
        have hmono2 : clockMonotone (rest ++ [p]) := by
          unfold clockMonotone at hmono ⊢
          simp only [List.cons_append, List.pairwise_cons] at hmono
          exact hmono.2
        have hmono1 : ∀ b ∈ rest ++ [p], a.env.t_change ≤ b.env.t_change := by
          unfold clockMonotone at hmono
          simp only [List.cons_append, List.pairwise_cons] at hmono
          exact hmono.1
        simp only [List.cons_append, lastFixChange]
        rw [← hrun.1] at hp
        apply ih sta a.x.quality _ p stb lb st2 msgs _ _ hmono2 _ hr hp m hm hfix
        · intro h0
          rw [t2, h0]; exact wrap32_zero
        · intro hne
          rw [t1]
          by_cases hqp : qp = 0
          · have hl := hz hqp
            simp [hne, hl, hqp]
          · have hT := hnz hqp
            have hT2 := hfut hqp a (by simp)
            simp only [hne, hqp, decide_False, ne_eq, not_true_eq_false, if_false]
            split <;> omega
        · intro hne b hb
          by_cases hqp : qp = 0
          · simp only [hne, hqp, decide_True, decide_False, ne_eq, Bool.false_eq_true,
              not_false_eq_true, if_true]
            exact hmono1 b hb
          · simp only [hne, hqp, decide_False, ne_eq, not_true_eq_false, if_false]
            exact hfut hqp b (by simp [List.mem_append] at hb ⊢; tauto)

/-- C9, amended: fix debounce, lower bound, with "quality nonzero" for
"quality > 0". Over every sequence of passes of the fix-state logic that
starts with `last_quality == 0` and in which the clock does not run
backwards, a fix event is handed to the sink in a pass only if that pass has
a nonzero quality and its time `now` is strictly greater than
`t + GPS_REPORT_DELAY`, where `t` is the time recorded at the most recent
pass whose quality changed between zero and nonzero relative to the pass
before it. -/
theorem fix_report_debounced (delay : Int) (st0 st1 st2 : FixState) (pre : List Pass)
    (p : Pass) (log : List (List Msg)) (msgs : List Msg) (m : Msg)
    (h0 : st0.last_quality = 0) (hmono : clockMonotone (pre ++ [p]))
    (hpre : run_passes delay st0 pre = some (st1, log))
    (hp : nmea_gga_track delay st1 p.env p.x = some (st2, msgs))
    (hm : m ∈ msgs) (hfix : isFixEvent m = true) :
    p.x.quality ≠ 0 ∧
      p.env.now > lastFixChange st0.time_fixchange 0 (pre ++ [p]) + delay :=
  run_passes_fix_bound delay pre st0 0 st0.time_fixchange p st1 log st2 msgs
    (fun _ => h0) (fun h => absurd rfl h) hmono (fun h => absurd rfl h) hpre hp m hm hfix

theorem fix_report_debounced_witness :
    (1 : Int) ≠ 0 ∧
      (121 : Int) > lastFixChange 0 0
        ([passAt ⟨0, 0, 0, 0, 0, 1⟩ 0 [] []] ++ [passAt ⟨0, 0, 0, 0, 0, 1⟩ 121 [true, true] [true]])
        + 120 :=
  fix_report_debounced 120 FixState.init { FixState.init with last_quality := 1 }
    { FixState.init with last_quality := 1, last_reported_fix := 1 }
    [passAt ⟨0, 0, 0, 0, 0, 1⟩ 0 [] []] (passAt ⟨0, 0, 0, 0, 0, 1⟩ 121 [true, true] [true])
    [[]] [Msg.gpsev GpsEv.FIX 0 0 0 0 0 1, Msg.alarmFix 0 0 0 0 0 1]
    (Msg.gpsev GpsEv.FIX 0 0 0 0 0 1)
    rfl (by unfold clockMonotone; decide) (by decide!) (by decide!) (by simp) rfl

/-- C9, counterexample: a sentence with the quality field `-1` decodes to
quality -1, and in the second of two passes with that quality, 121 time
units after the first with a delay of 120, the fix event is handed to the
sink, although the quality is not greater than 0. -/
theorem fix_event_with_negative_quality :
    (nmea_gga_decode
        (bytes ("123519.00,4807.038,N,01131.000,E,-1,08,0.9,545.4,M,46.9,M,,*")) 0).map Prod.snd =
      some (some { exampleFix with quality := -1 }) ∧
    (run_passes 120 FixState.init
        [passAt { exampleFix with quality := -1 } 0 [true, true] [true],
         passAt { exampleFix with quality := -1 } 121 [true, true] [true]]).map Prod.snd =
      some [[], [Msg.gpsev GpsEv.FIX exampleFix.lat exampleFix.lon exampleFix.alt
                   exampleFix.dilution 8 (-1),
                 Msg.alarmFix exampleFix.lat exampleFix.lon exampleFix.alt
                   exampleFix.dilution 8 (-1)]] ∧
    ¬ ((-1 : Int) > 0) := by
  refine ⟨?_, ?_, ?_⟩ <;> decide!

/-- C10, the code at the failing input: three passes with quality 1 and a
delay of 120, at the times 0, 121 and 122. In the second pass the sink
grants the buffer for the fix event and refuses the one for the alarm text,
so `send_gpsev_fix` returns 0 after the event was handed to `sendText`, and
`last_reported_fix` stays 0; in the third pass the fix event is handed to
`sendText` a second time. -/
theorem fix_event_sent_twice :
    (run_passes 120 FixState.init
        [passAt exampleFix 0 [true, true] [true],
         passAt exampleFix 121 [true, false] [],
         passAt exampleFix 122 [true, true] [true]]).map
        (fun r => r.2.map (fun l => l.filter (fun m => isFixEvent m))) =
      some [[],
        [Msg.gpsev GpsEv.FIX exampleFix.lat exampleFix.lon exampleFix.alt exampleFix.dilution 8 1],
        [Msg.gpsev GpsEv.FIX exampleFix.lat exampleFix.lon exampleFix.alt exampleFix.dilution 8 1]] := by
  decide!

/-- `send_alarm` returns 0 and hands nothing to the sink, or returns 1 and
hands the alarm text. -/
theorem send_alarm_cases (s : Sink) (text : Msg) :
    ((send_alarm s text).1 = 0 ∧ (send_alarm s text).2.sent = s.sent) ∨
    ((send_alarm s text).1 = 1 ∧ (send_alarm s text).2.sent = s.sent ++ [text]) := by
  unfold send_alarm
  split
  · exact Or.inl ⟨rfl, rfl⟩
  · simp only
    split
    · exact Or.inl ⟨rfl, getSendbuf_sent s⟩
    · split
      · left
        refine ⟨rfl, ?_⟩
        rw [vxprintf_sent, getSendbuf_sent]
      · right
        refine ⟨rfl, ?_⟩
        simp only [sendText]
        rw [vxprintf_sent, getSendbuf_sent]

/-- The three outcomes of `send_gpsev_fix` when `TC` is connected: no buffer
for the event (returns 0, nothing sent), the event sent and the alarm not
(returns 0), or both sent (returns 1). -/
theorem send_gpsev_fix_cases (s s1 : Sink) (ev : GpsEv) (lat lon alt dil : ℚ) (sat q r : Int)
    (fl fo : ℚ) (h : send_gpsev_fix s ev lat lon alt dil sat q fl fo = some (r, s1)) :
    (r = 0 ∧ s1.sent = s.sent) ∨
    (r = 0 ∧ s1.sent = s.sent ++ [Msg.gpsev ev lat lon alt dil sat q]) ∨
    (r = 1 ∧ s1.sent = s.sent ++ [Msg.gpsev ev lat lon alt dil sat q,
      if ev = GpsEv.FIX then Msg.alarmFix lat lon alt dil sat q
      else Msg.alarmMove fl fo lat lon alt dil sat q]) := by
  unfold send_gpsev_fix at h
  split at h
  · exact absurd h (by simp)
  · simp only at h
    split at h
    · simp only [Option.some.injEq, Prod.mk.injEq] at h
      left
      exact ⟨h.1.symm, by rw [← h.2, getSendbuf_sent]⟩
    · right
      have hs : (sendText (getSendbuf s).2 (Msg.gpsev ev lat lon alt dil sat q)).sent =
          s.sent ++ [Msg.gpsev ev lat lon alt dil sat q] := by
        simp only [sendText]; rw [getSendbuf_sent]
      by_cases hev : ev = GpsEv.FIX
      · rw [if_pos hev] at h
        simp only [Option.some.injEq] at h
        rcases send_alarm_cases (sendText (getSendbuf s).2 (Msg.gpsev ev lat lon alt dil sat q))
          (Msg.alarmFix lat lon alt dil sat q) with hc | hc
        · rw [h] at hc
          left
          exact ⟨hc.1, by rw [hc.2, hs]⟩
        · rw [h] at hc
          right
          refine ⟨hc.1, ?_⟩
          rw [hc.2, hs, if_pos hev]
          simp
      · rw [if_neg hev] at h
        simp only [Option.some.injEq] at h
        rcases send_alarm_cases (sendText (getSendbuf s).2 (Msg.gpsev ev lat lon alt dil sat q))
          (Msg.alarmMove fl fo lat lon alt dil sat q) with hc | hc
        · rw [h] at hc
          left
          exact ⟨hc.1, by rw [hc.2, hs]⟩
        · rw [h] at hc
          right
          refine ⟨hc.1, ?_⟩
          rw [hc.2, hs, if_neg hev]
          simp

/-- The three outcomes of `send_gpsev_nofix` when `TC` is connected. -/
theorem send_gpsev_nofix_cases (s s1 : Sink) (since r : Int)
    (h : send_gpsev_nofix s since = some (r, s1)) :
    (r = 0 ∧ s1.sent = s.sent) ∨
    (r = 0 ∧ s1.sent = s.sent ++ [Msg.nofix since]) ∨
    (r = 1 ∧ s1.sent = s.sent ++ [Msg.nofix since, Msg.alarmNofix since]) := by
  unfold send_gpsev_nofix at h
  split at h
  · exact absurd h (by simp)
  · simp only at h
    split at h
    · simp only [Option.some.injEq, Prod.mk.injEq] at h
      left
      exact ⟨h.1.symm, by rw [← h.2, getSendbuf_sent]⟩
    · right
      have hs : (sendText (getSendbuf s).2 (Msg.nofix since)).sent =
          s.sent ++ [Msg.nofix since] := by
        simp only [sendText]; rw [getSendbuf_sent]
      simp only [Option.some.injEq] at h
      rcases send_alarm_cases (sendText (getSendbuf s).2 (Msg.nofix since))
        (Msg.alarmNofix since) with hc | hc
      · rw [h] at hc
        left
        exact ⟨hc.1, by rw [hc.2, hs]⟩
      · rw [h] at hc
        right
        refine ⟨hc.1, ?_⟩
        rw [hc.2, hs]
        simp

theorem getSendbuf_tc (s : Sink) : (getSendbuf s).2.tc = s.tc := by
  unfold getSendbuf; split <;> rfl

theorem vxprintf_tc (s : Sink) : (vxprintf s).2.tc = s.tc := by
  unfold vxprintf; split <;> rfl

theorem send_alarm_tc (s : Sink) (m : Msg) : (send_alarm s m).2.tc = s.tc := by
  unfold send_alarm
  split
  · rfl
  · simp only
    split
    · exact getSendbuf_tc s
    · split
      · rw [vxprintf_tc, getSendbuf_tc]
      · simp only [sendText]; rw [vxprintf_tc, getSendbuf_tc]

/-- With `TC` connected `send_gpsev_fix` returns. -/
theorem send_gpsev_fix_isSome (s : Sink) (ev : GpsEv) (lat lon alt dil : ℚ) (sat q : Int)
    (fl fo : ℚ) (htc : s.tc = true) :
    ∃ r s1, send_gpsev_fix s ev lat lon alt dil sat q fl fo = some (r, s1) ∧ s1.tc = true := by
  have hs : (sendText (getSendbuf s).2 (Msg.gpsev ev lat lon alt dil sat q)).tc = true := by
    simp only [sendText]; rw [getSendbuf_tc]; exact htc
  unfold send_gpsev_fix
  rw [if_neg (by simp [htc])]
  simp only
  by_cases hgot : (getSendbuf s).1 = false
  · rw [if_pos hgot]
    exact ⟨_, _, rfl, by rw [getSendbuf_tc]; exact htc⟩
  · rw [if_neg hgot]
    by_cases hev : ev = GpsEv.FIX
    · rw [if_pos hev]
      exact ⟨(send_alarm _ _).1, (send_alarm _ _).2, rfl, by rw [send_alarm_tc]; exact hs⟩
    · rw [if_neg hev]
      exact ⟨(send_alarm _ _).1, (send_alarm _ _).2, rfl, by rw [send_alarm_tc]; exact hs⟩

/-- With `TC` connected `send_gpsev_nofix` returns. -/
theorem send_gpsev_nofix_isSome (s : Sink) (since : Int) (htc : s.tc = true) :
    ∃ r s1, send_gpsev_nofix s since = some (r, s1) ∧ s1.tc = true := by
  have hs : (sendText (getSendbuf s).2 (Msg.nofix since)).tc = true := by
    simp only [sendText]; rw [getSendbuf_tc]; exact htc
  unfold send_gpsev_nofix
  rw [if_neg (by simp [htc])]
  simp only
  by_cases hgot : (getSendbuf s).1 = false
  · rw [if_pos hgot]
    exact ⟨_, _, rfl, by rw [getSendbuf_tc]; exact htc⟩
  · rw [if_neg hgot]
    exact ⟨(send_alarm _ _).1, (send_alarm _ _).2, rfl, by rw [send_alarm_tc]; exact hs⟩

theorem shl1_eq (n sh : Int) (h : shl1 n = some sh) :
    0 ≤ n ∧ n < 31 ∧ sh = 2 ^ n.toNat := by
  unfold shl1 at h
  split at h
  · rename_i hc
    simp only [Option.some.injEq] at h
    exact ⟨hc.1, hc.2, h.symm⟩
  · exact absurd h (by simp)

/-- The fix report changes `last_reported_fix` and `nofix_backoff` only, and
only when `send_gpsev_fix` was called and returned 1; with quality 0 it does
nothing. -/
theorem track_fix_report_cases (delay : Int) (st st2 : FixState) (env : Env) (s s2 : Sink)
    (x : Fix) (h : track_fix_report delay st env s x = some (st2, s2)) :
    (x.quality = 0 → st2 = st ∧ s2 = s) ∧
    ((st2 = st ∧ ∀ m, m ∈ s2.sent → m ∈ s.sent ∨ m = Msg.gpsev GpsEv.FIX x.lat x.lon x.alt
        x.dilution (wrap32 x.satellites) (wrap32 x.quality)) ∨
     (st2 = { st with last_reported_fix := fix_sign x.quality, nofix_backoff := 0 } ∧
      s2.sent = s.sent ++ [Msg.gpsev GpsEv.FIX x.lat x.lon x.alt x.dilution
        (wrap32 x.satellites) (wrap32 x.quality),
        Msg.alarmFix x.lat x.lon x.alt x.dilution (wrap32 x.satellites) (wrap32 x.quality)])) := by
  unfold track_fix_report at h
  by_cases hc : st.last_reported_fix ≤ 0 ∧ fix_sign x.quality > 0 ∧
      env.now > st.time_fixchange + delay
  · rw [if_pos hc] at h
    have hq : x.quality ≠ 0 := by
      intro hq
      have := hc.2.1
      simp [fix_sign, hq] at this
    refine ⟨fun h0 => absurd h0 hq, ?_⟩
    cases hs : send_gpsev_fix s GpsEv.FIX x.lat x.lon x.alt x.dilution
        (wrap32 x.satellites) (wrap32 x.quality) 0 0 with
    | none => simp [hs] at h
    | some rs =>
      obtain ⟨r, s1⟩ := rs
      simp only [hs, Option.some.injEq, Prod.mk.injEq] at h
      rcases send_gpsev_fix_cases _ _ _ _ _ _ _ _ _ _ _ _ hs with hr | hr | hr
      · left
        rw [if_neg (by simp [hr.1])] at h
        refine ⟨h.1.symm, ?_⟩
        intro m hm
        rw [← h.2, hr.2] at hm
        exact Or.inl hm
      · left
        rw [if_neg (by simp [hr.1])] at h
        refine ⟨h.1.symm, ?_⟩
        intro m hm
        rw [← h.2, hr.2] at hm
        simpa using hm
      · right
        rw [if_pos (by simp [hr.1])] at h
        refine ⟨h.1.symm, ?_⟩
        rw [← h.2, hr.2]
        simp
  · rw [if_neg hc] at h
    simp only [Option.some.injEq, Prod.mk.injEq] at h
    refine ⟨fun _ => ⟨h.1.symm, h.2.symm⟩, Or.inl ⟨h.1.symm, ?_⟩⟩
    intro m hm
    rw [← h.2] at hm
    exact Or.inl hm

/-- The no-fix report: with a nonzero quality it does nothing; with quality
0 the shift `1 << nofix_backoff` is defined and either the threshold is not
passed and nothing happens, or `send_gpsev_nofix` is called and the state
changes exactly when it returns 1, which is when the alarm text was sent. -/
theorem track_nofix_report_cases (delay : Int) (st st3 : FixState) (env : Env) (s s3 : Sink)
    (x : Fix) (h : track_nofix_report delay st env s x = some (st3, s3)) :
    (x.quality ≠ 0 → st3 = st ∧ s3 = s) ∧
    (x.quality = 0 →
      0 ≤ st.nofix_backoff ∧ st.nofix_backoff < 31 ∧
      ((¬ env.now > st.time_fixchange + 2 ^ st.nofix_backoff.toNat * delay ∧
          st3 = st ∧ s3 = s) ∨
       (env.now > st.time_fixchange + 2 ^ st.nofix_backoff.toNat * delay ∧
          ((st3 = st ∧ (s3.sent = s.sent ∨
              s3.sent = s.sent ++ [Msg.nofix (env.now - st.time_fixchange)])) ∨
           (st3 = { st with last_reported_fix := -1,
                            nofix_backoff := max (st.nofix_backoff + 1) 16 } ∧
            s3.sent = s.sent ++ [Msg.nofix (env.now - st.time_fixchange),
              Msg.alarmNofix (env.now - st.time_fixchange)]))))) := by
  unfold track_nofix_report at h
  by_cases hq : x.quality = 0
  · refine ⟨fun h0 => absurd hq h0, fun _ => ?_⟩
    have hf : fix_sign x.quality < 0 := by simp [fix_sign, hq]
    have hfs : fix_sign x.quality = -1 := by simp [fix_sign, hq]
    rw [if_pos hf] at h
    cases hsh : shl1 st.nofix_backoff with
    | none => simp [hsh] at h
    | some sh =>
      obtain ⟨h0, h31, hpow⟩ := shl1_eq _ _ hsh
      simp only [hsh] at h
      rw [hpow] at h
      refine ⟨h0, h31, ?_⟩
      by_cases hnow : env.now > st.time_fixchange + 2 ^ st.nofix_backoff.toNat * delay
      · right
        refine ⟨hnow, ?_⟩
        rw [if_pos hnow] at h
        cases hs : send_gpsev_nofix s (env.now - st.time_fixchange) with
        | none => simp [hs] at h
        | some rs =>
          obtain ⟨r, s1⟩ := rs
          simp only [hs, Option.some.injEq, Prod.mk.injEq] at h
          rcases send_gpsev_nofix_cases _ _ _ _ hs with hr | hr | hr
          · left
            rw [if_neg (by simp [hr.1])] at h
            exact ⟨h.1.symm, Or.inl (by rw [← h.2, hr.2])⟩
          · left
            rw [if_neg (by simp [hr.1])] at h
            exact ⟨h.1.symm, Or.inr (by rw [← h.2, hr.2])⟩
          · right
            rw [if_pos (by simp [hr.1]), hfs] at h
            exact ⟨h.1.symm, by rw [← h.2, hr.2]⟩
      · left
        rw [if_neg hnow] at h
        simp only [Option.some.injEq, Prod.mk.injEq] at h
        exact ⟨hnow, h.1.symm, h.2.symm⟩
  · refine ⟨fun _ => ?_, fun h0 => absurd h0 hq⟩
    have hf : ¬ fix_sign x.quality < 0 := by simp [fix_sign, hq]
    rw [if_neg hf] at h
    simp only [Option.some.injEq, Prod.mk.injEq] at h
    exact ⟨h.1.symm, h.2.symm⟩

/-- The move report: without a pending move it does nothing; with one,
`send_gpsev_fix` is called for `GPSEV_MOVE` and `report_move` is cleared
exactly when it returns 1, which is when the alarm text was sent. -/
theorem track_move_report_cases (st st5 : FixState) (s s5 : Sink) (x : Fix)
    (h : track_move_report st s x = some (st5, s5)) :
    (st.report_move = 0 → st5 = st ∧ s5 = s) ∧
    (st.report_move ≠ 0 →
      ((st5 = st ∧ (s5.sent = s.sent ∨ s5.sent = s.sent ++
          [Msg.gpsev GpsEv.MOVE x.lat x.lon x.alt x.dilution (wrap32 x.satellites)
            (wrap32 x.quality)])) ∨
       (st5 = { st with report_move := 0 } ∧
        s5.sent = s.sent ++
          [Msg.gpsev GpsEv.MOVE x.lat x.lon x.alt x.dilution (wrap32 x.satellites)
            (wrap32 x.quality),
           Msg.alarmMove st.from_lat st.from_lon x.lat x.lon x.alt x.dilution
            (wrap32 x.satellites) (wrap32 x.quality)]))) := by
  unfold track_move_report at h
  by_cases hm : st.report_move ≠ 0
  · refine ⟨fun h0 => absurd h0 hm, fun _ => ?_⟩
    rw [if_pos hm] at h
    cases hs : send_gpsev_fix s GpsEv.MOVE x.lat x.lon x.alt x.dilution
        (wrap32 x.satellites) (wrap32 x.quality) st.from_lat st.from_lon with
    | none => simp [hs] at h
    | some rs =>
      obtain ⟨r, s1⟩ := rs
      simp only [hs, Option.some.injEq, Prod.mk.injEq] at h
      rcases send_gpsev_fix_cases _ _ _ _ _ _ _ _ _ _ _ _ hs with hr | hr | hr
      · left
        rw [if_neg (by simp [hr.1])] at h
        exact ⟨h.1.symm, Or.inl (by rw [← h.2, hr.2])⟩
      · left
        rw [if_neg (by simp [hr.1])] at h
        exact ⟨h.1.symm, Or.inr (by rw [← h.2, hr.2])⟩
      · right
        rw [if_pos (by simp [hr.1])] at h
        refine ⟨h.1.symm, ?_⟩
        rw [← h.2, hr.2]
        simp
  · have hm0 : st.report_move = 0 := by
      by_contra hne; exact hm hne
    refine ⟨fun _ => ?_, fun h0 => absurd hm0 h0⟩
    rw [if_neg hm] at h
    simp only [Option.some.injEq, Prod.mk.injEq] at h
    exact ⟨h.1.symm, h.2.symm⟩

/-- One pass of the fix-state logic is its three reports in turn, around the
position update. -/
theorem nmea_gga_track_stages (delay : Int) (st st1 : FixState) (env : Env) (x : Fix)
    (msgs : List Msg) (h : nmea_gga_track delay st env x = some (st1, msgs)) :
    ∃ st2 s2 st3 s3 s5,
      track_fix_report delay (track_fixchange st env x) env
        ⟨env.tc, env.grants, env.encodes, []⟩ x = some (st2, s2) ∧
      track_nofix_report delay st2 env s2 x = some (st3, s3) ∧
      track_move_report (track_position st3 x) s3 x = some (st1, s5) ∧
      msgs = s5.sent := by
  unfold nmea_gga_track at h
  simp only at h
  cases h2 : track_fix_report delay (track_fixchange st env x) env
      ⟨env.tc, env.grants, env.encodes, []⟩ x with
  | none => simp [h2] at h
  | some r2 =>
    obtain ⟨st2, s2⟩ := r2
    simp only [h2] at h
    cases h3 : track_nofix_report delay st2 env s2 x with
    | none => simp [h3] at h
    | some r3 =>
      obtain ⟨st3, s3⟩ := r3
      simp only [h3] at h
      cases h5 : track_move_report (track_position st3 x) s3 x with
      | none => simp [h5] at h
      | some r5 =>
        obtain ⟨st5, s5⟩ := r5
        simp only [h5, Option.some.injEq, Prod.mk.injEq] at h
        exact ⟨st2, s2, st3, s3, s5, rfl, h3, by rw [h5, h.1], h.2.symm⟩

theorem track_fixchange_frame (st : FixState) (env : Env) (x : Fix) :
    track_fixchange st env x =
      { st with time_fixchange := (track_fixchange st env x).time_fixchange } := by
  unfold track_fixchange
  split <;> rfl

theorem track_position_of_nonpos (st : FixState) (x : Fix) (hq : ¬ x.quality > 0) :
    track_position st x = { st with last_quality := wrap32 x.quality } := by
  unfold track_position
  simp only [if_neg hq]

/-- A pass with quality 0: `time_fixchange`, `last_quality`, the exponent and
the no-fix messages. -/
theorem nmea_gga_track_nofix_pass (delay : Int) (st st1 : FixState) (env : Env) (x : Fix)
    (msgs : List Msg) (hq : x.quality = 0)
    (h : nmea_gga_track delay st env x = some (st1, msgs)) :
    st1.time_fixchange = (track_fixchange st env x).time_fixchange ∧
    st1.last_quality = 0 ∧
    0 ≤ st.nofix_backoff ∧ st.nofix_backoff < 31 ∧
    (st1.nofix_backoff = st.nofix_backoff ∨
      st1.nofix_backoff = max (st.nofix_backoff + 1) 16) ∧
    (∀ since, Msg.nofix since ∈ msgs →
      since = env.now - (track_fixchange st env x).time_fixchange ∧
      since > 2 ^ st.nofix_backoff.toNat * delay) ∧
    (∀ since, Msg.alarmNofix since ∈ msgs →
      st1.nofix_backoff = max (st.nofix_backoff + 1) 16) := by
  obtain ⟨st2, s2, st3, s3, s5, h2, h3, h5, hmsgs⟩ := nmea_gga_track_stages _ _ _ _ _ _ h
  obtain ⟨hfix0, -⟩ := track_fix_report_cases _ _ _ _ _ _ _ h2
  obtain ⟨hst2, hs2⟩ := hfix0 hq
  obtain ⟨-, hno⟩ := track_nofix_report_cases _ _ _ _ _ _ _ h3
  obtain ⟨hn0, hn31, hcases⟩ := hno hq
  have hpos : track_position st3 x = { st3 with last_quality := wrap32 x.quality } :=
    track_position_of_nonpos st3 x (by rw [hq]; decide)
  obtain ⟨hm0, hm1⟩ := track_move_report_cases _ _ _ _ _ h5
  have hnb : st2.nofix_backoff = st.nofix_backoff := by
    rw [hst2, track_fixchange_frame]
  have htf : st2.time_fixchange = (track_fixchange st env x).time_fixchange := by rw [hst2]
  have hs2sent : s2.sent = [] := by rw [hs2]
  rw [hnb, htf] at hcases
  rw [hnb] at hn0 hn31
  -- the state after the move report agrees with the one before it but for `report_move`
  have h5eq : st1.time_fixchange = st3.time_fixchange ∧ st1.last_quality = wrap32 x.quality ∧
      st1.nofix_backoff = st3.nofix_backoff := by
    by_cases hrm : (track_position st3 x).report_move = 0
    · obtain ⟨e, -⟩ := hm0 hrm
      rw [e, hpos]; exact ⟨rfl, rfl, rfl⟩
    · rcases hm1 hrm with ⟨e, -⟩ | ⟨e, -⟩
      · rw [e, hpos]; exact ⟨rfl, rfl, rfl⟩
      · rw [e, hpos]; exact ⟨rfl, rfl, rfl⟩
  -- the messages of the move report are no no-fix messages
  have h5sent : ∀ m, m ∈ s5.sent → m ∈ s3.sent ∨
      (∀ since, m ≠ Msg.nofix since ∧ m ≠ Msg.alarmNofix since) := by
    intro m hm
    by_cases hrm : (track_position st3 x).report_move = 0
    · obtain ⟨-, e⟩ := hm0 hrm
      rw [e] at hm; exact Or.inl hm
    · rcases hm1 hrm with ⟨-, e | e⟩ | ⟨-, e⟩
      · rw [e] at hm; exact Or.inl hm
      · rw [e] at hm
        simp only [List.mem_append, List.mem_singleton] at hm
        rcases hm with hm | hm
        · exact Or.inl hm
        · right; intro since; rw [hm]; exact ⟨by simp, by simp⟩
      · rw [e] at hm
        simp only [List.mem_append, List.mem_cons, List.mem_singleton, List.not_mem_nil,
          or_false] at hm
        rcases hm with hm | hm | hm
        · exact Or.inl hm
        · right; intro since; rw [hm]; exact ⟨by simp, by simp⟩
        · right; intro since; rw [hm]; exact ⟨by simp, by simp⟩
  -- what the no-fix report did
  have hst3 : st3.time_fixchange = (track_fixchange st env x).time_fixchange ∧
      (st3.nofix_backoff = st.nofix_backoff ∨
        st3.nofix_backoff = max (st.nofix_backoff + 1) 16) := by
    rcases hcases with ⟨-, e, -⟩ | ⟨-, ⟨e, -⟩ | ⟨e, -⟩⟩
    · rw [e]; exact ⟨htf, Or.inl hnb⟩
    · rw [e]; exact ⟨htf, Or.inl hnb⟩
    · rw [e]; exact ⟨rfl, Or.inr rfl⟩
  have hnofix : ∀ m, m ∈ s3.sent →
      (m = Msg.nofix (env.now - (track_fixchange st env x).time_fixchange) ∨
        m = Msg.alarmNofix (env.now - (track_fixchange st env x).time_fixchange)) ∧
      env.now > (track_fixchange st env x).time_fixchange +
        2 ^ st.nofix_backoff.toNat * delay ∧
      (m = Msg.alarmNofix (env.now - (track_fixchange st env x).time_fixchange) →
        st3.nofix_backoff = max (st.nofix_backoff + 1) 16) := by
    intro m hm
    rcases hcases with ⟨-, -, e⟩ | ⟨hnow, ⟨-, e | e⟩ | ⟨e0, e⟩⟩
    · rw [e, hs2sent] at hm; simp at hm
    · rw [e, hs2sent] at hm; simp at hm
    · rw [e, hs2sent] at hm
      simp only [List.nil_append, List.mem_singleton] at hm
      refine ⟨Or.inl hm, hnow, ?_⟩
      intro h'; rw [hm] at h'; simp at h'
    · rw [e, hs2sent] at hm
      simp only [List.nil_append, List.mem_cons, List.mem_singleton, List.not_mem_nil,
        or_false] at hm
      refine ⟨hm, hnow, fun _ => ?_⟩
      rw [e0]
  obtain ⟨e1, e2, e3⟩ := h5eq
  refine ⟨?_, ?_, hn0, hn31, ?_, ?_, ?_⟩
  · rw [e1]; exact hst3.1
  · rw [e2, hq]; exact wrap32_zero
  · rw [e3]; exact hst3.2
  · intro since hmem
    rw [hmsgs] at hmem
    rcases h5sent _ hmem with hin | hne
    · obtain ⟨hm, hnow, -⟩ := hnofix _ hin
      rcases hm with hm | hm
      · simp only [Msg.nofix.injEq] at hm
        refine ⟨hm, ?_⟩
        rw [hm]; omega
      · simp at hm
    · exact absurd rfl (hne since).1
  · intro since hmem
    rw [hmsgs] at hmem
    rw [e3]
    rcases h5sent _ hmem with hin | hne
    · obtain ⟨hm, -, hs⟩ := hnofix _ hin
      rcases hm with hm | hm
      · simp at hm
      · exact hs hm
    · exact absurd rfl (hne since).2

/-- Within an outage `time_fixchange` and `last_quality` stay as they are and
the exponent does not decrease. -/
theorem run_passes_outage (delay : Int) :
    ∀ (ps : List Pass) (st st1 : FixState) (log : List (List Msg)),
      (∀ p ∈ ps, p.x.quality = 0) → st.last_quality = 0 →
      run_passes delay st ps = some (st1, log) →
      st1.time_fixchange = st.time_fixchange ∧ st1.last_quality = 0 ∧
        st.nofix_backoff ≤ st1.nofix_backoff := by
  intro ps
  induction ps with
  | nil =>
    intro st st1 log _ hl h
    simp only [run_passes, Option.some.injEq, Prod.mk.injEq] at h
    rw [← h.1]
    exact ⟨rfl, hl, le_refl _⟩
  | cons a rest ih =>
    intro st st1 log hq hl h
    simp only [run_passes] at h
    cases ha : nmea_gga_track delay st a.env a.x with
    | none => simp [ha] at h
    | some ra =>
      obtain ⟨sta, ma⟩ := ra
      simp only [ha] at h
      cases hr : run_passes delay sta rest with
      | none => simp [hr] at h
      | some rr =>
        obtain ⟨stb, lb⟩ := rr
        simp only [hr, Option.some.injEq, Prod.mk.injEq] at h
        have hqa : a.x.quality = 0 := hq a (List.mem_cons_self _ _)
        obtain ⟨t1, t2, -, -, t5, -, -⟩ := nmea_gga_track_nofix_pass _ _ _ _ _ _ hqa ha
        rw [track_fixchange_time] at t1
        simp only [hqa, hl, ne_eq, not_true_eq_false, if_false] at t1
        obtain ⟨u1, u2, u3⟩ := ih sta stb lb
          (fun p hp => hq p (List.mem_cons_of_mem _ hp)) t2 hr
        rw [← h.1]
        refine ⟨by rw [u1, t1], u2, ?_⟩
        rcases t5 with t5 | t5
        · omega
        · have : st.nofix_backoff + 1 ≤ max (st.nofix_backoff + 1) 16 := le_max_left _ _
          omega

theorem two_pow_mul_le (a b : Int) (delay : Int) (hd : 0 < delay) (hab : a ≤ b) :
    (2 : Int) ^ a.toNat * delay ≤ 2 ^ b.toNat * delay := by
  apply Int.mul_le_mul_of_nonneg_right _ (le_of_lt hd)
  apply pow_le_pow_right₀ (by norm_num)
  omega

theorem two_pow_mul_lt (a b : Int) (delay : Int) (hd : 0 < delay) (h0 : 0 ≤ a) (hab : a < b) :
    (2 : Int) ^ a.toNat * delay < 2 ^ b.toNat * delay := by
  apply Int.mul_lt_mul_of_pos_right _ hd
  apply pow_lt_pow_right₀ (by norm_num)
  omega

/-- C12, amended: no-fix reports come at increasing thresholds. For two
passes `a` and, later, `b` of one outage (all passes from `a` to `b` have
quality 0) and `GPS_REPORT_DELAY > 0`: a no-fix event is handed to the sink
in a pass only with `since = now - time_fixchange` greater than
`2^nofix_backoff * GPS_REPORT_DELAY`, for the exponent before the pass; the
exponent, and so the threshold, never decreases in the outage, and a
successful report in `a` (its alarm text was sent) makes the threshold at
`b` strictly greater than the one at `a`; so `since` at `b` exceeds the
threshold at `a`, and it is greater than `since` at `a` when the clock
reading `now` of `b` is greater than that of `a`. -/
theorem nofix_reports_back_off (delay : Int) (st sa sm sb : FixState) (a b : Pass)
    (mid : List Pass) (ma mb : List Msg) (logm : List (List Msg)) (s1 s2 : Int)
    (hd : 0 < delay)
    (hqa : a.x.quality = 0) (hqm : ∀ p ∈ mid, p.x.quality = 0) (hqb : b.x.quality = 0)
    (ha : nmea_gga_track delay st a.env a.x = some (sa, ma))
    (hm : run_passes delay sa mid = some (sm, logm))
    (hb : nmea_gga_track delay sm b.env b.x = some (sb, mb))
    (h1 : Msg.nofix s1 ∈ ma) (h2 : Msg.nofix s2 ∈ mb) :
    s1 = a.env.now - sa.time_fixchange ∧
    s1 > 2 ^ st.nofix_backoff.toNat * delay ∧
    s2 = b.env.now - sa.time_fixchange ∧
    s2 > 2 ^ sm.nofix_backoff.toNat * delay ∧
    st.nofix_backoff ≤ sm.nofix_backoff ∧
    (Msg.alarmNofix s1 ∈ ma →
      2 ^ st.nofix_backoff.toNat * delay < 2 ^ sm.nofix_backoff.toNat * delay) ∧
    s2 > 2 ^ st.nofix_backoff.toNat * delay ∧
    (a.env.now < b.env.now → s1 < s2) := by
  obtain ⟨a1, a2, a3, a4, a5, a6, a7⟩ := nmea_gga_track_nofix_pass _ _ _ _ _ _ hqa ha
  obtain ⟨m1, m2, m3⟩ := run_passes_outage delay mid sa sm logm hqm a2 hm
  obtain ⟨b1, b2, b3, b4, b5, b6, b7⟩ := nmea_gga_track_nofix_pass _ _ _ _ _ _ hqb hb
  obtain ⟨e1, g1⟩ := a6 s1 h1
  obtain ⟨e2, g2⟩ := b6 s2 h2
  have hT : (track_fixchange sm b.env b.x).time_fixchange = sa.time_fixchange := by
    rw [track_fixchange_time]
    simp only [hqb, m2, ne_eq, not_true_eq_false, if_false]
    exact m1
  have hle : st.nofix_backoff ≤ sm.nofix_backoff := by
    rcases a5 with a5 | a5
    · omega
    · have : st.nofix_backoff + 1 ≤ max (st.nofix_backoff + 1) 16 := le_max_left _ _
      omega
  have hthr := two_pow_mul_le _ _ delay hd hle
  refine ⟨by rw [e1, a1], g1, by rw [e2, hT], g2, hle, ?_, by omega, ?_⟩
  · intro hal
    have hs := a7 s1 hal
    have : st.nofix_backoff + 1 ≤ max (st.nofix_backoff + 1) 16 := le_max_left _ _
    exact two_pow_mul_lt _ _ delay hd a3 (by omega)
  · intro hnow
    rw [e1, e2, hT, a1]
    omega

theorem nofix_reports_back_off_witness :
    (121 : Int) = 121 - 0 ∧ (121 : Int) > 2 ^ (0 : Int).toNat * 120 ∧
    (7864321 : Int) = 7864321 - 0 ∧ (7864321 : Int) > 2 ^ (16 : Int).toNat * 120 ∧
    (0 : Int) ≤ 16 ∧
    (Msg.alarmNofix 121 ∈ [Msg.nofix 121, Msg.alarmNofix 121] →
      (2 : Int) ^ (0 : Int).toNat * 120 < 2 ^ (16 : Int).toNat * 120) ∧
    (7864321 : Int) > 2 ^ (0 : Int).toNat * 120 ∧
    ((121 : Int) < 7864321 → (121 : Int) < 7864321) :=
  nofix_reports_back_off 120 FixState.init
    { FixState.init with last_reported_fix := -1, nofix_backoff := 16 }
    { FixState.init with last_reported_fix := -1, nofix_backoff := 16 }
    { FixState.init with last_reported_fix := -1, nofix_backoff := 17 }
    (passAt ⟨0, 0, 0, 0, 0, 0⟩ 121 [true, true] [true])
    (passAt ⟨0, 0, 0, 0, 0, 0⟩ 7864321 [true, true] [true])
    [] [Msg.nofix 121, Msg.alarmNofix 121] [Msg.nofix 7864321, Msg.alarmNofix 7864321] []
    121 7864321 (by decide) rfl (by simp) rfl (by decide!) rfl (by decide!) (by simp) (by simp)

/-- C12, counterexample: two passes of one outage read the same clock value
10000000 (delay 120, outage since time 0). Both hand a no-fix event to the
sink, the first beyond the threshold `2^0 * 120`, the second beyond
`2^16 * 120`, and both carry `since = 10000000`: the values are not strictly
increasing. -/
theorem nofix_since_not_increasing :
    (run_passes 120 FixState.init
        [passAt ⟨0, 0, 0, 0, 0, 0⟩ 10000000 [true, true] [true],
         passAt ⟨0, 0, 0, 0, 0, 0⟩ 10000000 [true, true] [true]]).map Prod.snd =
      some [[Msg.nofix 10000000, Msg.alarmNofix 10000000],
            [Msg.nofix 10000000, Msg.alarmNofix 10000000]] ∧
    ¬ ((10000000 : Int) < 10000000) := by
  constructor
  · decide!
  · decide

/-- C11, the code at the failing input: from the start state (exponent 0,
delay 120) a first successful no-fix report, at time 121, sets
`nofix_backoff` to 16, not to 1, and a second one, at time 7864321, sets it
to 17, above 16: the update is `max(nofix_backoff+1, 16)`. -/
theorem nofix_backoff_not_capped :
    (run_passes 120 FixState.init
        [passAt ⟨0, 0, 0, 0, 0, 0⟩ 121 [true, true] [true]]).map
      (fun r => r.1.nofix_backoff) = some 16 ∧
    (run_passes 120 FixState.init
        [passAt ⟨0, 0, 0, 0, 0, 0⟩ 121 [true, true] [true],
         passAt ⟨0, 0, 0, 0, 0, 0⟩ 7864321 [true, true] [true]]).map
      (fun r => (r.1.nofix_backoff, r.2)) =
      some (17, [[Msg.nofix 121, Msg.alarmNofix 121],
                 [Msg.nofix 7864321, Msg.alarmNofix 7864321]]) ∧
    min ((0 : Int) + 1) 16 = 1 := by
  refine ⟨?_, ?_, ?_⟩ <;> decide!

/-- The reports leave the origin, the last position, the stored position
and the pending-move data alone. -/
theorem track_fix_report_position (delay : Int) (st st2 : FixState) (env : Env) (s s2 : Sink)
    (x : Fix) (h : track_fix_report delay st env s x = some (st2, s2)) :
    st2.orig_lat = st.orig_lat ∧ st2.orig_lon = st.orig_lon ∧
    st2.last_lat = st.last_lat ∧ st2.last_lon = st.last_lon ∧
    st2.lastpos = st.lastpos ∧ st2.report_move = st.report_move ∧
    st2.from_lat = st.from_lat ∧ st2.from_lon = st.from_lon := by
  obtain ⟨-, hc⟩ := track_fix_report_cases _ _ _ _ _ _ _ h
  rcases hc with ⟨e, -⟩ | ⟨e, -⟩ <;> rw [e] <;> exact ⟨rfl, rfl, rfl, rfl, rfl, rfl, rfl, rfl⟩

theorem track_nofix_report_position (delay : Int) (st st3 : FixState) (env : Env)
    (s s3 : Sink) (x : Fix) (h : track_nofix_report delay st env s x = some (st3, s3)) :
    st3.orig_lat = st.orig_lat ∧ st3.orig_lon = st.orig_lon ∧
    st3.last_lat = st.last_lat ∧ st3.last_lon = st.last_lon ∧
    st3.lastpos = st.lastpos ∧ st3.report_move = st.report_move ∧
    st3.from_lat = st.from_lat ∧ st3.from_lon = st.from_lon := by
  obtain ⟨h1, h0⟩ := track_nofix_report_cases _ _ _ _ _ _ _ h
  by_cases hq : x.quality = 0
  · obtain ⟨-, -, hc⟩ := h0 hq
    rcases hc with ⟨-, e, -⟩ | ⟨-, ⟨e, -⟩ | ⟨e, -⟩⟩ <;> rw [e] <;>
      exact ⟨rfl, rfl, rfl, rfl, rfl, rfl, rfl, rfl⟩
  · obtain ⟨e, -⟩ := h1 hq
    rw [e]; exact ⟨rfl, rfl, rfl, rfl, rfl, rfl, rfl, rfl⟩

theorem track_move_report_position (st st5 : FixState) (s s5 : Sink) (x : Fix)
    (h : track_move_report st s x = some (st5, s5)) :
    st5.orig_lat = st.orig_lat ∧ st5.orig_lon = st.orig_lon ∧
    st5.last_lat = st.last_lat ∧ st5.last_lon = st.last_lon ∧
    st5.lastpos = st.lastpos ∧ st5.from_lat = st.from_lat ∧ st5.from_lon = st.from_lon ∧
    st5.last_reported_fix = st.last_reported_fix ∧ st5.nofix_backoff = st.nofix_backoff ∧
    (st5.report_move = st.report_move ∨ st5.report_move = 0) := by
  obtain ⟨h0, h1⟩ := track_move_report_cases _ _ _ _ _ h
  by_cases hm : st.report_move = 0
  · obtain ⟨e, -⟩ := h0 hm
    rw [e]; exact ⟨rfl, rfl, rfl, rfl, rfl, rfl, rfl, rfl, rfl, Or.inl rfl⟩
  · rcases h1 hm with ⟨e, -⟩ | ⟨e, -⟩
    · rw [e]; exact ⟨rfl, rfl, rfl, rfl, rfl, rfl, rfl, rfl, rfl, Or.inl rfl⟩
    · rw [e]; exact ⟨rfl, rfl, rfl, rfl, rfl, rfl, rfl, rfl, rfl, Or.inr rfl⟩

/-- The position update looks at the origin and `report_move` only, and so
gives the same origin and flag after the reports as before them. -/
theorem track_position_fields (st : FixState) (x : Fix) :
    (x.quality > 0 →
      (check_tolerance st.orig_lat x.lat (1 / 1000) ≠ 0 ∨
        check_tolerance st.orig_lon x.lon (1 / 1000) ≠ 0) →
      (track_position st x).orig_lat = x.lat ∧ (track_position st x).orig_lon = x.lon ∧
      (track_position st x).last_lat = x.lat ∧ (track_position st x).last_lon = x.lon ∧
      (track_position st x).lastpos = some (x.lat, x.lon) ∧
      (track_position st x).report_move = 1 ∧
      (track_position st x).from_lat = (if st.report_move = 0 then st.orig_lat else st.from_lat) ∧
      (track_position st x).from_lon = (if st.report_move = 0 then st.orig_lon else st.from_lon)) ∧
    ((¬ x.quality > 0 ∨
      ¬ (check_tolerance st.orig_lat x.lat (1 / 1000) ≠ 0 ∨
        check_tolerance st.orig_lon x.lon (1 / 1000) ≠ 0)) →
      (track_position st x).orig_lat = st.orig_lat ∧
      (track_position st x).orig_lon = st.orig_lon ∧
      (track_position st x).last_lat = st.last_lat ∧
      (track_position st x).last_lon = st.last_lon ∧
      (track_position st x).lastpos = st.lastpos ∧
      (track_position st x).report_move = st.report_move ∧
      (track_position st x).from_lat = st.from_lat ∧
      (track_position st x).from_lon = st.from_lon) ∧
    (track_position st x).last_reported_fix = st.last_reported_fix ∧
    (track_position st x).nofix_backoff = st.nofix_backoff := by
  unfold track_position
  by_cases hq : x.quality > 0
  · by_cases hmove : check_tolerance st.orig_lat x.lat (1 / 1000) ≠ 0 ∨
        check_tolerance st.orig_lon x.lon (1 / 1000) ≠ 0
    · by_cases hrm : st.report_move = 0
      · simp only [if_pos hq, if_pos hmove, if_pos hrm]
        tauto
      · simp only [if_pos hq, if_pos hmove, if_neg hrm]
        tauto
    · simp only [if_pos hq, if_neg hmove]
      tauto
  · simp only [if_neg hq]
    tauto

/-- The origin, the last position, the stored position and the pending move
over a whole pass: they are those of the position update applied to the
state before the pass, except that an accepted move report clears
`report_move`. -/
theorem nmea_gga_track_position (delay : Int) (st st1 : FixState) (env : Env) (x : Fix)
    (msgs : List Msg) (h : nmea_gga_track delay st env x = some (st1, msgs)) :
    st1.orig_lat = (track_position st x).orig_lat ∧
    st1.orig_lon = (track_position st x).orig_lon ∧
    st1.last_lat = (track_position st x).last_lat ∧
    st1.last_lon = (track_position st x).last_lon ∧
    st1.lastpos = (track_position st x).lastpos ∧
    st1.from_lat = (track_position st x).from_lat ∧
    st1.from_lon = (track_position st x).from_lon ∧
    (st1.report_move = (track_position st x).report_move ∨
      (st1.report_move = 0 ∧ (track_position st x).report_move ≠ 0 ∧
        Msg.alarmMove (track_position st x).from_lat (track_position st x).from_lon
          x.lat x.lon x.alt x.dilution (wrap32 x.satellites) (wrap32 x.quality) ∈ msgs)) := by
  obtain ⟨st2, s2, st3, s3, s5, h2, h3, h5, hmsgs⟩ := nmea_gga_track_stages _ _ _ _ _ _ h
  obtain ⟨a1, a2, a3, a4, a5, a6, a7, a8⟩ := track_fix_report_position _ _ _ _ _ _ _ h2
  obtain ⟨b1, b2, b3, b4, b5, b6, b7, b8⟩ := track_nofix_report_position _ _ _ _ _ _ _ h3
  have hfc : track_fixchange st env x =
      { st with time_fixchange := (track_fixchange st env x).time_fixchange } :=
    track_fixchange_frame st env x
  have c1 : st3.orig_lat = st.orig_lat := by rw [b1, a1, hfc]
  have c2 : st3.orig_lon = st.orig_lon := by rw [b2, a2, hfc]
  have c3 : st3.last_lat = st.last_lat := by rw [b3, a3, hfc]
  have c4 : st3.last_lon = st.last_lon := by rw [b4, a4, hfc]
  have c5 : st3.lastpos = st.lastpos := by rw [b5, a5, hfc]
  have c6 : st3.report_move = st.report_move := by rw [b6, a6, hfc]
  have c7 : st3.from_lat = st.from_lat := by rw [b7, a7, hfc]
  have c8 : st3.from_lon = st.from_lon := by rw [b8, a8, hfc]
  -- the position update gives the same fields from `st3` as from `st`
  have hp : (track_position st3 x).orig_lat = (track_position st x).orig_lat ∧
      (track_position st3 x).orig_lon = (track_position st x).orig_lon ∧
      (track_position st3 x).last_lat = (track_position st x).last_lat ∧
      (track_position st3 x).last_lon = (track_position st x).last_lon ∧
      (track_position st3 x).lastpos = (track_position st x).lastpos ∧
      (track_position st3 x).report_move = (track_position st x).report_move ∧
      (track_position st3 x).from_lat = (track_position st x).from_lat ∧
      (track_position st3 x).from_lon = (track_position st x).from_lon := by
    obtain ⟨p1, p2, -, -⟩ := track_position_fields st3 x
    obtain ⟨q1, q2, -, -⟩ := track_position_fields st x
    rw [c1, c2] at p1 p2
    by_cases hmv : x.quality > 0 ∧ (check_tolerance st.orig_lat x.lat (1 / 1000) ≠ 0 ∨
        check_tolerance st.orig_lon x.lon (1 / 1000) ≠ 0)
    · obtain ⟨u1, u2, u3, u4, u5, u6, u7, u8⟩ := p1 hmv.1 hmv.2
      obtain ⟨v1, v2, v3, v4, v5, v6, v7, v8⟩ := q1 hmv.1 hmv.2
      rw [c6, c7] at u7
      rw [c6, c8] at u8
      exact ⟨by rw [u1, v1], by rw [u2, v2], by rw [u3, v3], by rw [u4, v4], by rw [u5, v5],
        by rw [u6, v6], by rw [u7, v7], by rw [u8, v8]⟩
    · have hno : ¬ x.quality > 0 ∨ ¬ (check_tolerance st.orig_lat x.lat (1 / 1000) ≠ 0 ∨
          check_tolerance st.orig_lon x.lon (1 / 1000) ≠ 0) := by tauto
      obtain ⟨u1, u2, u3, u4, u5, u6, u7, u8⟩ := p2 hno
      obtain ⟨v1, v2, v3, v4, v5, v6, v7, v8⟩ := q2 hno
      exact ⟨by rw [u1, v1], by rw [u2, v2], by rw [u3, v3, c3], by rw [u4, v4, c4],
        by rw [u5, v5, c5], by rw [u6, v6, c6], by rw [u7, v7, c7], by rw [u8, v8, c8]⟩
  obtain ⟨p1, p2, p3, p4, p5, p6, p7, p8⟩ := hp
  obtain ⟨d1, d2, d3, d4, d5, d6, d7, -, -, -⟩ := track_move_report_position _ _ _ _ _ h5
  refine ⟨by rw [d1, p1], by rw [d2, p2], by rw [d3, p3], by rw [d4, p4], by rw [d5, p5],
    by rw [d6, p7], by rw [d7, p8], ?_⟩
  obtain ⟨m0, m1⟩ := track_move_report_cases _ _ _ _ _ h5
  by_cases hrm : (track_position st3 x).report_move = 0
  · obtain ⟨e, -⟩ := m0 hrm
    left; rw [e, p6]
  · rcases m1 hrm with ⟨e, -⟩ | ⟨e, es⟩
    · left; rw [e, p6]
    · right
      refine ⟨by rw [e], by rw [← p6]; exact hrm, ?_⟩
      rw [hmsgs, es, ← p7, ← p8]
      simp

theorem isBinary64_neg (q : ℚ) (hq : isBinary64 q) : isBinary64 (-q) := by
  obtain ⟨m, k, hm, hk | hk⟩ := hq
  · exact ⟨-m, k, by rw [abs_neg]; exact hm, Or.inl ⟨hk.1, by rw [hk.2]; push_cast; ring⟩⟩
  · exact ⟨-m, k, by rw [abs_neg]; exact hm, Or.inr ⟨hk.1, by rw [hk.2]; push_cast; ring⟩⟩

/-- The literal `0.001` of the source is the binary64 number
`0x1.0624dd2f1a9fcp-10`, a little above one thousandth. For a binary64
number `d` the comparison with the literal and the comparison with one
thousandth give the same result: no binary64 number lies between the
two. -/
theorem tolerance_literal_le (d : ℚ) (hd : isBinary64 d) :
    1 / 1000 ≤ d ↔ (4611686018427388 : ℚ) / 2 ^ 62 ≤ d := by
  constructor
  · intro h
    obtain ⟨m, k, hm, hk | hk⟩ := hd
    · obtain ⟨-, e⟩ := hk
      have hpos : (0 : ℚ) < ((m * 2 ^ k : ℤ) : ℚ) := by
        push_cast
        rw [← e]
        linarith
      have hpos2 : (0 : ℤ) < m * 2 ^ k := by exact_mod_cast hpos
      have hone : (1 : ℚ) ≤ ((m * 2 ^ k : ℤ) : ℚ) := by
        have : (1 : ℤ) ≤ m * 2 ^ k := by omega
        exact_mod_cast this
      have hD : (4611686018427388 : ℚ) / 2 ^ 62 ≤ 1 := by norm_num
      rw [e]
      push_cast at hone
      linarith
    · obtain ⟨-, e⟩ := hk
      have hpos : (0 : ℚ) < 2 ^ k := by positivity
      rw [e] at h ⊢
      rw [div_le_div_iff₀ (by norm_num) hpos] at h
      rw [div_le_div_iff₀ (by positivity) hpos]
      have h1 : ((2 ^ k : ℤ) : ℚ) ≤ ((m * 1000 : ℤ) : ℚ) := by
        push_cast
        linarith
      have h2 : (2 ^ k : ℤ) ≤ m * 1000 := by exact_mod_cast h1
      have hm2 : m < 2 ^ 53 := lt_of_le_of_lt (le_abs_self m) hm
      have goalZ : (4611686018427388 : ℤ) * 2 ^ k ≤ m * 2 ^ 62 := by
        by_cases hk62 : k ≤ 62
        · obtain ⟨j, hj⟩ : ∃ j, 62 = k + j := ⟨62 - k, by omega⟩
          have hjpos : (0 : ℤ) ≤ 2 ^ j := by positivity
          have h3 : (2 ^ k : ℤ) * 2 ^ j ≤ m * 1000 * 2 ^ j :=
            Int.mul_le_mul_of_nonneg_right h2 hjpos
          have h4 : (2 ^ k : ℤ) * 2 ^ j = 4611686018427387904 := by
            rw [← pow_add, ← hj]
            norm_num
          have h5 : (4611686018427388 : ℤ) ≤ m * 2 ^ j := by
            have h6 : m * 1000 * 2 ^ j = 1000 * (m * 2 ^ j) := by ring
            rw [h4, h6] at h3
            omega
          have hkpos : (0 : ℤ) ≤ 2 ^ k := by positivity
          have h7 : (4611686018427388 : ℤ) * 2 ^ k ≤ m * 2 ^ j * 2 ^ k :=
            Int.mul_le_mul_of_nonneg_right h5 hkpos
          have h8 : m * 2 ^ j * 2 ^ k = m * 2 ^ 62 := by
            rw [hj, pow_add]
            ring
          rw [h8] at h7
          exact h7
        · have h9 : (2 : ℤ) ^ 63 ≤ 2 ^ k := pow_le_pow_right₀ (by norm_num) (by omega)
          have h10 : (2 : ℤ) ^ 63 = 9223372036854775808 := by norm_num
          have h11 : (2 : ℤ) ^ 53 = 9007199254740992 := by norm_num
          rw [h10] at h9
          rw [h11] at hm2
          omega
      have h12 : ((4611686018427388 * 2 ^ k : ℤ) : ℚ) ≤ ((m * 2 ^ 62 : ℤ) : ℚ) := by
        exact_mod_cast goalZ
      push_cast at h12
      linarith
  · intro h
    have hD : (1 : ℚ) / 1000 ≤ 4611686018427388 / 2 ^ 62 := by norm_num
    linarith

/-- With a binary64 difference, `check_tolerance` gives the same result for
the value of the literal `0.001` as for one thousandth, the value the
embedding of the tracker uses. -/
theorem check_tolerance_literal (a b : ℚ) (hd : isBinary64 (a - b)) :
    check_tolerance a b (1 / 1000) = check_tolerance a b (4611686018427388 / 2 ^ 62) := by
  have h1 := tolerance_literal_le (a - b) hd
  have h2 := tolerance_literal_le (-(a - b)) (isBinary64_neg _ hd)
  have e1 : (a - b ≤ -(1 / 1000) ∨ 1 / 1000 ≤ a - b) ↔
      (a - b ≤ -(4611686018427388 / 2 ^ 62) ∨ 4611686018427388 / 2 ^ 62 ≤ a - b) := by
    constructor
    · rintro (h | h)
      · left
        have := h2.1 (by linarith)
        linarith
      · right
        exact h1.1 h
    · rintro (h | h)
      · left
        have := h2.2 (by linarith)
        linarith
      · right
        exact h1.2 h
  unfold check_tolerance
  simp only
  by_cases hc : a - b ≤ -(1 / 1000) ∨ 1 / 1000 ≤ a - b
  · rw [if_pos hc, if_pos (e1.1 hc)]
  · rw [if_neg hc, if_neg (fun h => hc (e1.2 h))]

theorem track_fix_report_isSome (delay : Int) (st : FixState) (env : Env) (s : Sink) (x : Fix)
    (htc : s.tc = true) :
    ∃ st2 s2, track_fix_report delay st env s x = some (st2, s2) ∧ s2.tc = true ∧
      st2.time_fixchange = st.time_fixchange ∧ (x.quality = 0 → st2 = st) := by
  unfold track_fix_report
  by_cases hc : st.last_reported_fix ≤ 0 ∧ fix_sign x.quality > 0 ∧
      env.now > st.time_fixchange + delay
  · rw [if_pos hc]
    have hq : x.quality ≠ 0 := by
      intro hq
      have := hc.2.1
      simp [fix_sign, hq] at this
    obtain ⟨r, s1, hs, ht⟩ := send_gpsev_fix_isSome s GpsEv.FIX x.lat x.lon x.alt x.dilution
      (wrap32 x.satellites) (wrap32 x.quality) 0 0 htc
    rw [hs]
    refine ⟨_, _, rfl, ht, ?_, fun h0 => absurd h0 hq⟩
    by_cases hr : r ≠ 0
    · rw [if_pos hr]
    · rw [if_neg hr]
  · rw [if_neg hc]
    exact ⟨_, _, rfl, htc, rfl, fun _ => rfl⟩

theorem track_nofix_report_isSome (delay : Int) (st : FixState) (env : Env) (s : Sink) (x : Fix)
    (htc : s.tc = true)
    (hnb : x.quality = 0 → 0 ≤ st.nofix_backoff ∧ st.nofix_backoff < 31) :
    ∃ st3 s3, track_nofix_report delay st env s x = some (st3, s3) ∧ s3.tc = true := by
  unfold track_nofix_report
  by_cases hf : fix_sign x.quality < 0
  · rw [if_pos hf]
    have hq : x.quality = 0 := by
      by_contra hq
      simp [fix_sign, hq] at hf
    have hsh : shl1 st.nofix_backoff = some (2 ^ st.nofix_backoff.toNat) := by
      unfold shl1
      rw [if_pos (hnb hq)]
    rw [hsh]
    simp only
    by_cases hnow : env.now > st.time_fixchange + 2 ^ st.nofix_backoff.toNat * delay
    · rw [if_pos hnow]
      obtain ⟨r, s1, hs, ht⟩ := send_gpsev_nofix_isSome s (env.now - st.time_fixchange) htc
      rw [hs]
      exact ⟨_, _, rfl, ht⟩
    · rw [if_neg hnow]
      exact ⟨_, _, rfl, htc⟩
  · rw [if_neg hf]
    exact ⟨_, _, rfl, htc⟩

theorem track_move_report_isSome (st : FixState) (s : Sink) (x : Fix) (htc : s.tc = true) :
    ∃ st5 s5, track_move_report st s x = some (st5, s5) := by
  unfold track_move_report
  by_cases hm : st.report_move ≠ 0
  · rw [if_pos hm]
    obtain ⟨r, s1, hs, -⟩ := send_gpsev_fix_isSome s GpsEv.MOVE x.lat x.lon x.alt x.dilution
      (wrap32 x.satellites) (wrap32 x.quality) st.from_lat st.from_lon htc
    rw [hs]
    exact ⟨_, _, rfl⟩
  · rw [if_neg hm]
    exact ⟨_, _, rfl⟩

/-- With `TC` connected and, for quality 0, the exponent in the range where
`1 << nofix_backoff` is defined, a pass of the fix-state logic returns. -/
theorem nmea_gga_track_isSome (delay : Int) (st : FixState) (env : Env) (x : Fix)
    (htc : env.tc = true)
    (hnb : x.quality = 0 → 0 ≤ st.nofix_backoff ∧ st.nofix_backoff < 31) :
    ∃ st1 msgs, nmea_gga_track delay st env x = some (st1, msgs) := by
  obtain ⟨st2, s2, h2, t2, -, e2⟩ := track_fix_report_isSome delay (track_fixchange st env x)
    env ⟨env.tc, env.grants, env.encodes, []⟩ x htc
  have hnb2 : x.quality = 0 → 0 ≤ st2.nofix_backoff ∧ st2.nofix_backoff < 31 := by
    intro hq
    rw [e2 hq, track_fixchange_frame]
    exact hnb hq
  obtain ⟨st3, s3, h3, t3⟩ := track_nofix_report_isSome delay st2 env s2 x t2 hnb2
  obtain ⟨st5, s5, h5⟩ := track_move_report_isSome (track_position st3 x) s3 x t3
  unfold nmea_gga_track
  simp only [h2, h3, h5]
  exact ⟨_, _, rfl⟩

/-- C14: the origin is frozen without a fix. For every pass of the fix-state
logic with quality 0, whatever latitude, longitude and other values the
sentence carries: if the pass returns, what `sys_getLatLon` returns (the
origin), the last known latitude and longitude and the position record last
written to the file are as before the pass, and `report_move` is as before
or cleared, so no move becomes pending; and the pass does return when `TC` is
connected and the exponent is in the range where `1 << nofix_backoff` is
defined. -/
theorem origin_frozen_without_fix (delay : Int) (st : FixState) (env : Env) (x : Fix)
    (hq : x.quality = 0) :
    (∀ st1 msgs, nmea_gga_track delay st env x = some (st1, msgs) →
      sys_getLatLon st1 = sys_getLatLon st ∧
      st1.last_lat = st.last_lat ∧ st1.last_lon = st.last_lon ∧
      st1.lastpos = st.lastpos ∧
      (st1.report_move = st.report_move ∨ st1.report_move = 0)) ∧
    (env.tc = true → 0 ≤ st.nofix_backoff → st.nofix_backoff < 31 →
      ∃ st1 msgs, nmea_gga_track delay st env x = some (st1, msgs)) := by
  constructor
  · intro st1 msgs h
    obtain ⟨t1, t2, t3, t4, t5, -, -, t8⟩ := nmea_gga_track_position _ _ _ _ _ _ h
    have hp : track_position st x = { st with last_quality := wrap32 x.quality } :=
      track_position_of_nonpos st x (by rw [hq]; decide)
    rw [hp] at t1 t2 t3 t4 t5 t8
    refine ⟨?_, t3, t4, t5, ?_⟩
    · unfold sys_getLatLon
      rw [t1, t2]
    · rcases t8 with e | ⟨e, -, -⟩
      · exact Or.inl e
      · exact Or.inr e
  · intro htc h0 h31
    exact nmea_gga_track_isSome delay st env x htc (fun _ => ⟨h0, h31⟩)

theorem origin_frozen_without_fix_witness :
    sys_getLatLon { FixState.init with last_reported_fix := -1, nofix_backoff := 16 } =
      sys_getLatLon FixState.init ∧
    ({ FixState.init with last_reported_fix := -1, nofix_backoff := 16 } : FixState).last_lat =
      FixState.init.last_lat ∧
    ({ FixState.init with last_reported_fix := -1, nofix_backoff := 16 } : FixState).last_lon =
      FixState.init.last_lon ∧
    ({ FixState.init with last_reported_fix := -1, nofix_backoff := 16 } : FixState).lastpos =
      FixState.init.lastpos ∧
    (({ FixState.init with last_reported_fix := -1, nofix_backoff := 16 } :
        FixState).report_move = FixState.init.report_move ∨
      ({ FixState.init with last_reported_fix := -1, nofix_backoff := 16 } :
        FixState).report_move = 0) :=
  (origin_frozen_without_fix 120 FixState.init ⟨0, 121, true, [true, true], [true]⟩
    ⟨48, 11, 500, 1, 7, 0⟩ (by decide)).1
    { FixState.init with last_reported_fix := -1, nofix_backoff := 16 }
    [Msg.nofix 121, Msg.alarmNofix 121] (by decide!)

/-! ### Rejected reports -/

theorem track_fix_report_rejected (delay : Int) (st st2 : FixState) (env : Env)
    (s s1 s2 : Sink) (x : Fix)
    (hs : send_gpsev_fix s GpsEv.FIX x.lat x.lon x.alt x.dilution
      (wrap32 x.satellites) (wrap32 x.quality) 0 0 = some (0, s1))
    (h : track_fix_report delay st env s x = some (st2, s2)) : st2 = st := by
  unfold track_fix_report at h
  by_cases hc : st.last_reported_fix ≤ 0 ∧ fix_sign x.quality > 0 ∧
      env.now > st.time_fixchange + delay
  · rw [if_pos hc, hs] at h
    simp only [ne_eq, not_true_eq_false, if_false, Option.some.injEq, Prod.mk.injEq] at h
    exact h.1.symm
  · rw [if_neg hc] at h
    simp only [Option.some.injEq, Prod.mk.injEq] at h
    exact h.1.symm

theorem track_nofix_report_rejected (delay : Int) (st st3 : FixState) (env : Env)
    (s s1 s3 : Sink) (x : Fix)
    (hs : send_gpsev_nofix s (env.now - st.time_fixchange) = some (0, s1))
    (h : track_nofix_report delay st env s x = some (st3, s3)) : st3 = st := by
  unfold track_nofix_report at h
  by_cases hf : fix_sign x.quality < 0
  · rw [if_pos hf] at h
    cases hsh : shl1 st.nofix_backoff with
    | none => simp [hsh] at h
    | some sh =>
      simp only [hsh] at h
      by_cases hnow : env.now > st.time_fixchange + sh * delay
      · rw [if_pos hnow, hs] at h
        simp only [ne_eq, not_true_eq_false, if_false, Option.some.injEq, Prod.mk.injEq] at h
        exact h.1.symm
      · rw [if_neg hnow] at h
        simp only [Option.some.injEq, Prod.mk.injEq] at h
        exact h.1.symm
  · rw [if_neg hf] at h
    simp only [Option.some.injEq, Prod.mk.injEq] at h
    exact h.1.symm

theorem track_move_report_rejected (st st5 : FixState) (s s1 s5 : Sink) (x : Fix)
    (hs : send_gpsev_fix s GpsEv.MOVE x.lat x.lon x.alt x.dilution
      (wrap32 x.satellites) (wrap32 x.quality) st.from_lat st.from_lon = some (0, s1))
    (h : track_move_report st s x = some (st5, s5)) : st5 = st := by
  unfold track_move_report at h
  by_cases hm : st.report_move ≠ 0
  · rw [if_pos hm, hs] at h
    simp only [ne_eq, not_true_eq_false, if_false, Option.some.injEq, Prod.mk.injEq] at h
    exact h.1.symm
  · rw [if_neg hm] at h
    simp only [Option.some.injEq, Prod.mk.injEq] at h
    exact h.1.symm

theorem track_fixchange_reports (st : FixState) (env : Env) (x : Fix) :
    (track_fixchange st env x).last_reported_fix = st.last_reported_fix ∧
    (track_fixchange st env x).nofix_backoff = st.nofix_backoff := by
  rw [track_fixchange_frame]
  exact ⟨rfl, rfl⟩

theorem track_position_reports (st : FixState) (x : Fix) :
    (track_position st x).last_reported_fix = st.last_reported_fix ∧
    (track_position st x).nofix_backoff = st.nofix_backoff := by
  unfold track_position
  by_cases hq : x.quality > 0
  · by_cases hm : check_tolerance st.orig_lat x.lat (1 / 1000) ≠ 0 ∨
        check_tolerance st.orig_lon x.lon (1 / 1000) ≠ 0
    · by_cases hr : st.report_move = 0
      · simp only [if_pos hq, if_pos hm, if_pos hr]
        tauto
      · simp only [if_pos hq, if_pos hm, if_neg hr]
        tauto
    · simp only [if_pos hq, if_neg hm]
      tauto
  · simp only [if_neg hq]
    tauto

theorem track_move_report_reports (st st5 : FixState) (s s5 : Sink) (x : Fix)
    (h : track_move_report st s x = some (st5, s5)) :
    st5.last_reported_fix = st.last_reported_fix ∧ st5.nofix_backoff = st.nofix_backoff := by
  obtain ⟨c0, c1⟩ := track_move_report_cases _ _ _ _ _ h
  by_cases hm : st.report_move = 0
  · rw [(c0 hm).1]
    exact ⟨rfl, rfl⟩
  · rcases c1 hm with ⟨e, -⟩ | ⟨e, -⟩
    · rw [e]
      exact ⟨rfl, rfl⟩
    · rw [e]
      exact ⟨rfl, rfl⟩

/-- C15: a report the sink rejects is not lost. In every pass of the fix-state
logic that returns: (1) with a nonzero quality, if `send_gpsev_fix` for the
fix event returns 0 on the sink as the pass finds it, `last_reported_fix` and
`nofix_backoff` are after the pass what they were before; (2) with quality
0, if `send_gpsev_nofix` returns 0 on that sink, the same two values are
kept; (3) if a move is pending after the position update and
`send_gpsev_fix` for the move event returns 0 on the sink the first two
reports left, `report_move` is after the pass what the position update made
it, which is nonzero. So the conditions under which each report is
attempted still hold at the next pass. -/
theorem sink_rejection_keeps_report (delay : Int) (st st1 : FixState) (env : Env) (x : Fix)
    (msgs : List Msg) (h : nmea_gga_track delay st env x = some (st1, msgs)) :
    (∀ s1, x.quality ≠ 0 →
      send_gpsev_fix ⟨env.tc, env.grants, env.encodes, []⟩ GpsEv.FIX x.lat x.lon x.alt
        x.dilution (wrap32 x.satellites) (wrap32 x.quality) 0 0 = some (0, s1) →
      st1.last_reported_fix = st.last_reported_fix ∧ st1.nofix_backoff = st.nofix_backoff) ∧
    (∀ s1, x.quality = 0 →
      send_gpsev_nofix ⟨env.tc, env.grants, env.encodes, []⟩
        (env.now - (track_fixchange st env x).time_fixchange) = some (0, s1) →
      st1.last_reported_fix = st.last_reported_fix ∧ st1.nofix_backoff = st.nofix_backoff) ∧
    (∀ st2 s2 st3 s3 s5,
      track_fix_report delay (track_fixchange st env x) env
        ⟨env.tc, env.grants, env.encodes, []⟩ x = some (st2, s2) →
      track_nofix_report delay st2 env s2 x = some (st3, s3) →
      (track_position st3 x).report_move ≠ 0 →
      send_gpsev_fix s3 GpsEv.MOVE x.lat x.lon x.alt x.dilution (wrap32 x.satellites)
        (wrap32 x.quality) (track_position st3 x).from_lat (track_position st3 x).from_lon =
        some (0, s5) →
      st1.report_move = (track_position st3 x).report_move ∧ st1.report_move ≠ 0) := by
  obtain ⟨st2, s2, st3, s3, s5, h2, h3, h5, -⟩ := nmea_gga_track_stages _ _ _ _ _ _ h
  obtain ⟨m1, m2⟩ := track_move_report_reports _ _ _ _ _ h5
  obtain ⟨p1, p2⟩ := track_position_reports st3 x
  obtain ⟨f1, f2⟩ := track_fixchange_reports st env x
  refine ⟨?_, ?_, ?_⟩
  · intro s1 hq hs
    have e2 : st2 = track_fixchange st env x :=
      track_fix_report_rejected _ _ _ _ _ _ _ _ hs h2
    have e3 : st3 = st2 := ((track_nofix_report_cases _ _ _ _ _ _ _ h3).1 hq).1
    rw [m1, m2, p1, p2, e3, e2, f1, f2]
    exact ⟨rfl, rfl⟩
  · intro s1 hq hs
    obtain ⟨e2, es⟩ := (track_fix_report_cases _ _ _ _ _ _ _ h2).1 hq
    rw [e2, es] at h3
    have e3 : st3 = track_fixchange st env x :=
      track_nofix_report_rejected _ _ _ _ _ _ _ _ hs h3
    rw [m1, m2, p1, p2, e3, f1, f2]
    exact ⟨rfl, rfl⟩
  · intro st2' s2' st3' s3' s5' h2' h3' hp hs
    rw [h2] at h2'
    simp only [Option.some.injEq, Prod.mk.injEq] at h2'
    rw [← h2'.1, ← h2'.2, h3] at h3'
    simp only [Option.some.injEq, Prod.mk.injEq] at h3'
    rw [← h3'.1] at hp hs
    rw [← h3'.2] at hs
    have e5 : st1 = track_position st3 x := track_move_report_rejected _ _ _ _ _ _ hs h5
    rw [← h3'.1, e5]
    exact ⟨rfl, hp⟩

theorem sink_rejection_keeps_report_witness :
    (({ FixState.init with last_quality := 1 } : FixState).last_reported_fix =
        FixState.init.last_reported_fix ∧
      ({ FixState.init with last_quality := 1 } : FixState).nofix_backoff =
        FixState.init.nofix_backoff) ∧
    (FixState.init.last_reported_fix = FixState.init.last_reported_fix ∧
      FixState.init.nofix_backoff = FixState.init.nofix_backoff) ∧
    (({ FixState.init with
          last_lat := 1, orig_lat := 1, last_quality := 1, lastpos := some (1, 0),
          report_move := 1 } : FixState).report_move =
        (track_position FixState.init ⟨1, 0, 0, 0, 0, 1⟩).report_move ∧
      ({ FixState.init with
          last_lat := 1, orig_lat := 1, last_quality := 1, lastpos := some (1, 0),
          report_move := 1 } : FixState).report_move ≠ 0) :=
  ⟨(sink_rejection_keeps_report 120 FixState.init { FixState.init with last_quality := 1 }
      ⟨0, 121, true, [false], []⟩ ⟨0, 0, 0, 0, 0, 1⟩ [] (by decide!)).1
      ⟨true, [], [], []⟩ (by decide) (by decide!),
   (sink_rejection_keeps_report 120 FixState.init FixState.init
      ⟨0, 121, true, [false], []⟩ ⟨0, 0, 0, 0, 0, 0⟩ [] (by decide!)).2.1
      ⟨true, [], [], []⟩ (by decide) (by decide!),
   (sink_rejection_keeps_report 120 FixState.init
      { FixState.init with
          last_lat := 1, orig_lat := 1, last_quality := 1, lastpos := some (1, 0),
          report_move := 1 }
      ⟨0, 0, true, [false], []⟩ ⟨1, 0, 0, 0, 0, 1⟩ [] (by decide!)).2.2
      FixState.init ⟨true, [false], [], []⟩ FixState.init ⟨true, [false], [], []⟩
      ⟨true, [], [], []⟩ (by decide!) (by decide!) (by decide!) (by decide!)⟩


/-! ### The override and the session operations -/

theorem scan_body_override (c : Conf) (st st2 : Session) (env : Env) (n i done : Nat)
    (h : scan_body c st env n i = Run.ret (done, st2)) :
    st2.gps_lns_override = st.gps_lns_override := by
  unfold scan_body at h
  split at h
  · split at h
    · exact absurd h (by simp)
    · split at h
      · split at h
        · split at h
          · exact absurd h (by simp)
          · simp only [Run.ret.injEq, Prod.mk.injEq] at h
            rw [← h.2]
        · simp only [Run.ret.injEq, Prod.mk.injEq] at h
          rw [← h.2]
      · simp only [Run.ret.injEq, Prod.mk.injEq] at h
        rw [← h.2]
  · split at h
    · simp only [Run.ret.injEq, Prod.mk.injEq] at h
      rw [← h.2]
    · split at h
      · exact absurd h (by simp)
      · split at h
        · simp only [Run.ret.injEq, Prod.mk.injEq] at h
          rw [← h.2]
        · split at h
          · split at h
            · simp only [Run.ret.injEq, Prod.mk.injEq] at h
              rw [← h.2]
            · simp only [Run.ret.injEq, Prod.mk.injEq] at h
              rw [← h.2]
          · exact absurd h (by simp)

theorem consume_override (st : Session) (done : Nat) :
    (consume st done).gps_lns_override = st.gps_lns_override := by
  unfold consume
  split <;> rfl

theorem gps_read_eof_override (c : Conf) (st : Session) (fd : Nat) :
    (gps_read_eof c st fd).gps_lns_override = st.gps_lns_override := rfl

theorem gps_read_override (c : Conf) :
    ∀ (reads : List ReadStep) (st st1 : Session),
      gps_read c reads st = Run.ret st1 → st1.gps_lns_override = st.gps_lns_override := by
  intro reads
  induction reads with
  | nil =>
    intro st st1 h
    unfold gps_read at h
    split at h
    · exact absurd h (by simp)
    · simp only [Run.ret.injEq] at h
      rw [← h]
  | cons step rest ih =>
    intro st st1 h
    unfold gps_read at h
    split at h
    · exact absurd h (by simp)
    · split at h
      · simp only [Run.ret.injEq] at h
        rw [← h]
      · exact absurd h (by simp)
      · simp only [Run.ret.injEq] at h
        rw [← h, gps_read_eof_override]
      · split at h
        · simp only [Run.ret.injEq] at h
          rw [← h, gps_read_eof_override]
        · simp only at h
          split at h
          · rw [ih _ _ h]
          · split at h
            · rename_i hb
              rw [ih _ _ h, consume_override, scan_body_override _ _ _ _ _ _ _ hb]
            · exact absurd h (by simp)
            · exact absurd h (by simp)

theorem gps_reopen_start_override (c : Conf) (st st1 : Session) (fd : Nat)
    (reads : List ReadStep) (r : Int)
    (h : gps_reopen_start c st fd reads = Run.ret (r, st1)) :
    st1.gps_lns_override = st.gps_lns_override := by
  unfold gps_reopen_start at h
  split at h
  · rename_i s hs
    simp only [Run.ret.injEq, Prod.mk.injEq] at h
    rw [← h.2, gps_read_override c _ _ _ hs]
  · exact absurd h (by simp)
  · exact absurd h (by simp)

theorem gps_reopen_override (c : Conf) (st st1 : Session) (oe : OpenEnv) (r : Int)
    (h : gps_reopen c st oe = Run.ret (r, st1)) :
    st1.gps_lns_override = st.gps_lns_override := by
  have h1 : (match st.aio with
      | some old => { st with aio := none, calls := st.calls ++ [OsCall.aio_close old] }
      | none => st : Session).gps_lns_override = st.gps_lns_override := by
    split <;> rfl
  unfold gps_reopen at h
  simp only at h
  split at h
  · split at h
    · simp only [Run.ret.injEq, Prod.mk.injEq] at h
      rw [← h.2, h1]
    · rw [gps_reopen_start_override _ _ _ _ _ _ h]
      exact h1
  · split at h
    · exact absurd h (by simp)
    · split at h
      · simp only [Run.ret.injEq, Prod.mk.injEq] at h
        rw [← h.2, h1]
      · split at h
        · simp only [Run.ret.injEq, Prod.mk.injEq] at h
          rw [← h.2]
          exact h1
        · split at h
          · simp only [Run.ret.injEq, Prod.mk.injEq] at h
            rw [← h.2]
            exact h1
          · rw [gps_reopen_start_override _ _ _ _ _ _ h]
            exact h1

theorem gps_close_override (st : Session) (ok : Bool) :
    (gps_close st ok).gps_lns_override = st.gps_lns_override := by
  unfold gps_close
  split
  · rfl
  · split
    · split <;> rfl
    · rfl

theorem sys_disableGPS_override (st : Session) (ok : Bool) :
    (sys_disableGPS st ok).gps_lns_override = st.gps_lns_override := by
  unfold sys_disableGPS
  split
  · rfl
  · rw [gps_close_override]
    rfl

/-- C16, amended: `sys_gpsEnabled()` returns the override when one is set (0
when the override is 0, 1 when it is 1) and returns 1 when none is set (the
override is negative); two states with the same override give the same
result, so the statically configured flag `gpsEnabled`, which is no part of
the state of `gps.c`, plays no role. -/
theorem sys_gpsEnabled_override_or_one (st : Session) :
    (st.gps_lns_override = 0 → sys_gpsEnabled st = 0) ∧
    (st.gps_lns_override = 1 → sys_gpsEnabled st = 1) ∧
    (st.gps_lns_override ≥ 0 → sys_gpsEnabled st = st.gps_lns_override) ∧
    (st.gps_lns_override < 0 → sys_gpsEnabled st = 1) ∧
    (∀ st2 : Session, st2.gps_lns_override = st.gps_lns_override →
      sys_gpsEnabled st2 = sys_gpsEnabled st) := by
  unfold sys_gpsEnabled
  refine ⟨?_, ?_, ?_, ?_, ?_⟩
  · intro h
    rw [h]
    rfl
  · intro h
    rw [h]
    rfl
  · intro h
    rw [if_pos h]
  · intro h
    rw [if_neg (by omega)]
  · intro st2 h
    rw [h]

theorem sys_gpsEnabled_override_or_one_witness :
    sys_gpsEnabled Session.init = 1 ∧
    sys_gpsEnabled { Session.init with gps_lns_override := 0 } = 0 :=
  ⟨(sys_gpsEnabled_override_or_one Session.init).2.2.2.1 (by decide),
   (sys_gpsEnabled_override_or_one { Session.init with gps_lns_override := 0 }).1 rfl⟩

/-- C16, counterexample: in the start state no override is set
(`gps_lns_override` is -1); with the statically configured flag
`gpsEnabled` equal to 0 the spec's rule gives 0, and `sys_gpsEnabled()`
returns 1. -/
theorem sys_gpsEnabled_ignores_static_flag :
    Session.init.gps_lns_override = -1 ∧
    effective_enabled_spec Session.init.gps_lns_override 0 = 0 ∧
    sys_gpsEnabled Session.init = 1 ∧
    sys_gpsEnabled Session.init ≠ effective_enabled_spec Session.init.gps_lns_override 0 := by
  refine ⟨rfl, ?_, ?_, ?_⟩ <;> decide

/-- C17: `sys_setGPSEnabled(e)` reports real changes only. From every state,
whatever the surroundings answer, if the call returns `r`: `r` is 1 exactly
when `sys_gpsEnabled()` before the call differs from `e ? 1 : 0`; when `r`
is 0 the state afterwards is the state before with `gps_lns_override` set to
`e ? 1 : 0`, so the handle, the calls made on the device, the reconnect
timer and `gps_was_running` are unchanged; and `sys_gpsEnabled()` after the
call is `e ? 1 : 0`. The call returns whenever the effective state does not
change, whenever `e` is 0, and otherwise whenever the `gps_reopen` it may
call returns. -/
theorem set_override_reports_changes (c : Conf) (gpsEnabled : Nat) (st : Session)
    (enabled : Int) (restore_ok : Bool) (oe : OpenEnv) :
    (∀ r st1, sys_setGPSEnabled c gpsEnabled st enabled restore_ok oe = Run.ret (r, st1) →
      (r = 1 ↔ sys_gpsEnabled st ≠ (if enabled ≠ 0 then 1 else 0)) ∧
      (r = 0 → st1 = { st with gps_lns_override := if enabled ≠ 0 then 1 else 0 } ∧
        st1.aio = st.aio ∧ st1.calls = st.calls ∧ st1.reopen_tmr = st.reopen_tmr ∧
        st1.gps_was_running = st.gps_was_running) ∧
      sys_gpsEnabled st1 = (if enabled ≠ 0 then 1 else 0)) ∧
    (sys_gpsEnabled st = (if enabled ≠ 0 then 1 else 0) →
      ∃ st1, sys_setGPSEnabled c gpsEnabled st enabled restore_ok oe = Run.ret (0, st1)) ∧
    (enabled = 0 →
      ∃ r st1, sys_setGPSEnabled c gpsEnabled st enabled restore_ok oe = Run.ret (r, st1)) ∧
    (∀ r0 s0, gps_reopen c { st with gps_lns_override := 1, gps_was_running := 0 } oe =
        Run.ret (r0, s0) →
      ∃ r st1, sys_setGPSEnabled c gpsEnabled st enabled restore_ok oe = Run.ret (r, st1)) := by
  have hnew : (0 : Int) ≤ (if enabled ≠ 0 then 1 else 0) := by split <;> decide
  have hen : ∀ s : Session, s.gps_lns_override = (if enabled ≠ 0 then 1 else 0) →
      sys_gpsEnabled s = (if enabled ≠ 0 then 1 else 0) := by
    intro s hs
    unfold sys_gpsEnabled
    rw [hs, if_pos hnew]
  unfold sys_setGPSEnabled
  simp only
  by_cases h1 : st.gps_lns_override = (if enabled ≠ 0 then 1 else 0)
  · rw [if_pos h1]
    have hst : st = { st with gps_lns_override := if enabled ≠ 0 then 1 else 0 } := by
      rw [← h1]
    refine ⟨?_, fun _ => ⟨_, rfl⟩, fun _ => ⟨_, _, rfl⟩, fun _ _ _ => ⟨_, _, rfl⟩⟩
    intro r st1 h
    simp only [Run.ret.injEq, Prod.mk.injEq] at h
    rw [← h.1, ← h.2]
    refine ⟨?_, fun _ => ⟨hst, rfl, rfl, rfl, rfl⟩, hen st h1⟩
    constructor
    · intro h0
      exact absurd h0 (by decide)
    · intro h0
      exact absurd (hen st h1) h0
  · rw [if_neg h1]
    by_cases h2 : sys_gpsEnabled st = (if enabled ≠ 0 then 1 else 0)
    · rw [if_pos h2]
      refine ⟨?_, fun _ => ⟨_, rfl⟩, fun _ => ⟨_, _, rfl⟩, fun _ _ _ => ⟨_, _, rfl⟩⟩
      intro r st1 h
      simp only [Run.ret.injEq, Prod.mk.injEq] at h
      rw [← h.1, ← h.2]
      refine ⟨?_, fun _ => ⟨rfl, rfl, rfl, rfl, rfl⟩, hen _ rfl⟩
      constructor
      · intro h0
        exact absurd h0 (by decide)
      · intro h0
        exact absurd h2 h0
    · rw [if_neg h2]
      by_cases h3 : (if enabled ≠ 0 then (1 : Int) else 0) = 0
      · rw [if_pos h3]
        refine ⟨?_, fun h0 => absurd h0 h2, fun _ => ⟨_, _, rfl⟩, fun _ _ _ => ⟨_, _, rfl⟩⟩
        intro r st1 h
        simp only [Run.ret.injEq, Prod.mk.injEq] at h
        rw [← h.1, ← h.2]
        refine ⟨⟨fun _ => h2, fun _ => rfl⟩, fun h0 => absurd h0 (by decide), ?_⟩
        apply hen
        rw [sys_disableGPS_override]
        split <;> rfl
      · rw [if_neg h3]
        have he : enabled ≠ 0 := by
          intro he
          rw [if_neg (by simpa using he)] at h3
          exact h3 rfl
        have hone : (if enabled ≠ 0 then (1 : Int) else 0) = 1 := if_pos he
        by_cases h4 : st.gps_was_running ≠ 0 ∨ gpsEnabled ≠ 0
        · rw [if_pos h4]
          refine ⟨?_, fun h0 => absurd h0 h2, fun h0 => absurd h0 he, ?_⟩
          · intro r st1 h
            split at h
            · rename_i rr st3 hr
              simp only [Run.ret.injEq, Prod.mk.injEq] at h
              rw [← h.1, ← h.2]
              refine ⟨⟨fun _ => h2, fun _ => rfl⟩, fun h0 => absurd h0 (by decide), ?_⟩
              apply hen
              rw [gps_reopen_override _ _ _ _ _ hr]
            · exact absurd h (by simp)
            · exact absurd h (by simp)
          · intro r0 s0 hr
            rw [hone, hr]
            exact ⟨_, _, rfl⟩
        · rw [if_neg h4]
          refine ⟨?_, fun h0 => absurd h0 h2, fun h0 => absurd h0 he, fun _ _ _ => ⟨_, _, rfl⟩⟩
          intro r st1 h
          simp only [Run.ret.injEq, Prod.mk.injEq] at h
          rw [← h.1, ← h.2]
          exact ⟨⟨fun _ => h2, fun _ => rfl⟩, fun h0 => absurd h0 (by decide), hen _ rfl⟩

theorem set_override_reports_changes_witness :
    ((1 : Int) = 1 ↔ sys_gpsEnabled ttyOpen ≠ (if (0 : Int) ≠ 0 then 1 else 0)) ∧
    sys_gpsEnabled (sys_disableGPS { ttyOpen with gps_lns_override := 0, gps_was_running := 1 }
      true) = (if (0 : Int) ≠ 0 then 1 else 0) :=
  ⟨((set_override_reports_changes exampleConf 1 ttyOpen 0 true (ttyOpens 6)).1 1
      (sys_disableGPS { ttyOpen with gps_lns_override := 0, gps_was_running := 1 } true)
      (by decide!)).1,
   ((set_override_reports_changes exampleConf 1 ttyOpen 0 true (ttyOpens 6)).1 1
      (sys_disableGPS { ttyOpen with gps_lns_override := 0, gps_was_running := 1 } true)
      (by decide!)).2.2⟩


/-! ### Closing, end of stream and the full buffer -/

/-- The open serial session of the examples is what `gps_reopen` produces
from the start of `sys_enableGPS`. -/
theorem ttyOpen_reachable :
    gps_reopen exampleConf enabledStart (ttyOpens 5) = Run.ret (1, ttyOpen) := by
  decide!

/-- C18: `sys_disableGPS()` leaves a pending reconnect timer armed. The
serial session is opened and then closed by a `read` that returns 0, which
arms the reconnect timer; `sys_disableGPS()` called in that state returns at
its test `aio == NULL` and changes nothing, so the timer is still armed with
60 s; when it fires, `reopen_timeout` calls `gps_reopen`, and the device is
open again (descriptor 6). And from the open serial session, when the
`tcsetattr` that restores the settings fails, `sys_disableGPS()` returns
with the handle still open. -/
theorem disable_leaves_timer_armed :
    gps_read exampleConf [readTurn ReadAns.eof] ttyOpen = Run.ret ttyClosedPending ∧
    ttyClosedPending.aio = none ∧
    ttyClosedPending.reopen_tmr = some 60000000 ∧
    sys_disableGPS ttyClosedPending true = ttyClosedPending ∧
    (sys_disableGPS ttyClosedPending true).reopen_tmr = some 60000000 ∧
    timer_fire exampleConf (sys_disableGPS ttyClosedPending true) (ttyOpens 6) =
      Run.ret { ttyClosedPending with
        aio := some 6, reopen_tmr := none,
        calls := ttyClosedPending.calls ++
          [OsCall.opened 6, OsCall.tcsetattr 6 (Tio.configured 0 9600) true,
           OsCall.tcflush 6, OsCall.write 6 true, OsCall.aio_open 6, OsCall.atexit] } ∧
    (sys_disableGPS ttyOpen false).aio = some 5 := by
  refine ⟨?_, ?_, ?_, ?_, ?_, ?_, ?_⟩ <;> decide!

/-- C19: the end-of-stream path of `gps_read` does not restore the line
settings. On the open serial session (descriptor 5, saved settings
`Tio.found 0`) a `read` that returns 0 makes `gps_read` return with the
handle released and the timer armed with the serial interval, and the only
call it makes on the device is `aio_close`: no `tcsetattr` with the saved
settings. `gps_close()` on the same session does restore them first
(`tcsetattr`, `tcflush`, then `aio_close`). -/
theorem eof_skips_line_settings :
    ttyOpen.isTTY = 1 ∧ ttyOpen.saved_tio = Tio.found 0 ∧
    gps_read exampleConf [readTurn ReadAns.eof] ttyOpen = Run.ret ttyClosedPending ∧
    ttyClosedPending.aio = none ∧
    ttyClosedPending.reopen_tmr = some exampleConf.tty_intv ∧
    ttyClosedPending.calls = ttyOpen.calls ++ [OsCall.aio_close 5] ∧
    OsCall.tcsetattr 5 (Tio.found 0) true ∉ ttyClosedPending.calls ∧
    (gps_close ttyOpen true).calls = ttyOpen.calls ++
      [OsCall.tcsetattr 5 (Tio.found 0) true, OsCall.tcflush 5, OsCall.aio_close 5] := by
  refine ⟨?_, ?_, ?_, ?_, ?_, ?_, ?_, ?_⟩ <;> decide!

theorem scan_stop_none (ubxOn : Bool) (buf : List Nat) (n : Nat)
    (hb : ∀ j : Nat, buf[j]? ≠ some 10 ∧ buf[j]? ≠ some 0xB5) :
    ∀ fuel i, scan_stop ubxOn buf n fuel i = none := by
  intro fuel
  induction fuel with
  | zero => intro i; rfl
  | succ k ih =>
    intro i
    unfold scan_stop
    rw [if_neg (hb i).1, if_neg (fun h => (hb i).2 h.2.1)]
    exact ih (i + 1)

theorem read_store_fill (buf got : List Nat) (h : buf.length = got.length) :
    read_store buf 0 got = got := by
  unfold read_store
  rw [List.take_zero, List.nil_append, Nat.zero_add, List.drop_of_length_le (le_of_eq h),
    List.append_nil]

/-- A first `read` that fills the empty buffer with 1024 equal bytes, none a
line feed or a sync byte: `gps_read` stores them, finds nothing to process
and returns at the next `read`. -/
theorem gps_read_fill (c : Conf) (st : Session) (fd a : Nat) (env : Env)
    (haio : st.aio = some fd) (h0 : st.gpsfill = 0) (hlen : st.gpsline.length = 1024)
    (ha : a ≠ 10 ∧ a ≠ 0xB5) :
    gps_read c [⟨ReadAns.data (List.replicate 1024 a), env⟩] st =
      Run.ret { st with gpsline := List.replicate 1024 a, gpsfill := 1024 } := by
  have htake : List.take (1024 - 0) (List.replicate 1024 a) = List.replicate 1024 a := by
    rw [Nat.sub_zero, List.take_replicate, min_self]
  have hne : List.replicate 1024 a ≠ [] := by
    intro h
    have := congrArg List.length h
    rw [List.length_replicate] at this
    exact absurd this (by decide)
  have hstore : read_store st.gpsline 0 (List.replicate 1024 a) = List.replicate 1024 a :=
    read_store_fill _ _ (by rw [hlen, List.length_replicate])
  have hscan : ∀ n, scan_stop c.cfg_ubx (List.replicate 1024 a) n n 0 = none := by
    intro n
    apply scan_stop_none
    intro j
    rw [List.getElem?_replicate]
    split
    · exact ⟨fun h => ha.1 (Option.some.inj h), fun h => ha.2 (Option.some.inj h)⟩
    · exact ⟨by simp, by simp⟩
  unfold gps_read
  simp only [haio, h0, htake, if_neg hne, hstore, hscan, List.length_replicate, Nat.zero_add]
  unfold gps_read
  simp only [haio]

theorem init_len : Session.init.gpsline.length = 1024 := List.length_replicate 1024 0

/-- Opening a FIFO whose first `read` fills the buffer with 1024 equal
bytes, none a line feed or a sync byte. -/
theorem gps_reopen_fifo_fill (c : Conf) (st : Session) (fd a : Nat)
    (hst : st.aio = none) (hlen : st.gpsline.length = 1024) (ha : a ≠ 10 ∧ a ≠ 0xB5) :
    gps_reopen c st (fifoOpens fd [readTurn (ReadAns.data (List.replicate 1024 a))]) =
      Run.ret (1, { st with
        isTTY := 0, garbageCnt := 0, aio := some fd, gpsfill := 1024,
        gpsline := List.replicate 1024 a,
        calls := st.calls ++ [OsCall.opened fd] ++ [OsCall.aio_open fd, OsCall.atexit] }) := by
  have h := gps_read_fill c
    { st with
      isTTY := 0, garbageCnt := 0, aio := some fd, gpsfill := 0,
      calls := st.calls ++ [OsCall.opened fd] ++ [OsCall.aio_open fd, OsCall.atexit] }
    fd a ⟨0, 0, true, [], []⟩ rfl rfl hlen ha
  unfold gps_reopen
  simp only [fifoOpens, hst, if_true]
  unfold gps_reopen_start
  simp only [readTurn] at h ⊢
  rw [h]

theorem fifoFull_reachable :
    gps_reopen exampleConf enabledStart
      (fifoOpens 5 [readTurn (ReadAns.data (List.replicate 1024 65))]) =
      Run.ret (1, fifoFull) :=
  gps_reopen_fifo_fill exampleConf enabledStart 5 65 rfl init_len (by decide)

/-- C20, amended: a full buffer ends the session. When the buffer is full
(`gpsfill == 1024`), with or without a line feed in it, the `read` of the
next turn of `gps_read` is asked for 0 bytes, and nothing is stored. When
that `read` returns 0 (whatever bytes are waiting, or end of stream),
`gps_read` takes its end-of-stream path: it returns with the handle released
(`aio` is `NULL`), the reconnect timer armed with the interval of the
transport, `gpsfill` still 1024 and the buffer unchanged. When the `read`
reports `EAGAIN`, `gps_read` returns with the state unchanged. Only when the
`read` reports another error does the process abort. -/
theorem full_buffer_ends_session (c : Conf) (st : Session) (fd : Nat) (step : ReadStep)
    (rest : List ReadStep) (haio : st.aio = some fd) (hfull : st.gpsfill = 1024) :
    ((step.ans = ReadAns.eof ∨ ∃ bs, step.ans = ReadAns.data bs) →
      gps_read c (step :: rest) st = Run.ret (gps_read_eof c st fd)) ∧
    (step.ans = ReadAns.eagain → gps_read c (step :: rest) st = Run.ret st) ∧
    (step.ans = ReadAns.error → gps_read c (step :: rest) st = Run.fatal) ∧
    (gps_read_eof c st fd).aio = none ∧
    (gps_read_eof c st fd).reopen_tmr =
      some (if st.isTTY ≠ 0 then c.tty_intv else c.fifo_intv) ∧
    (gps_read_eof c st fd).gpsfill = 1024 ∧
    (gps_read_eof c st fd).gpsline = st.gpsline ∧
    (gps_read_eof c st fd).calls = st.calls ++ [OsCall.aio_close fd] := by
  refine ⟨?_, ?_, ?_, rfl, rfl, hfull, rfl, rfl⟩
  · rintro (h | ⟨bs, h⟩)
    · unfold gps_read
      simp only [haio, h]
    · unfold gps_read
      simp only [haio, h, hfull, Nat.sub_self, List.take_zero, if_true]
  · intro h
    unfold gps_read
    simp only [haio, h]
  · intro h
    unfold gps_read
    simp only [haio, h]

theorem full_buffer_ends_session_witness :
    gps_read exampleConf [readTurn (ReadAns.data [71, 10])] fifoFull =
      Run.ret (gps_read_eof exampleConf fifoFull 5) :=
  (full_buffer_ends_session exampleConf fifoFull 5 (readTurn (ReadAns.data [71, 10])) []
    rfl rfl).1 (Or.inr ⟨[71, 10], rfl⟩)

/-- C20, counterexample: the buffer of the open FIFO session holds 1024
bytes `A` and no line feed. In the next turn of `gps_read`, with two bytes
waiting, `gpsfill` is still 1024 afterwards and the session is closed: the
handle is released and the reconnect timer is armed. -/
theorem full_buffer_not_discarded :
    fifoFull.gpsfill = 1024 ∧ 10 ∉ fifoFull.gpsline ∧ fifoFull.aio = some 5 ∧
    gps_read exampleConf [readTurn (ReadAns.data [71, 10])] fifoFull =
      Run.ret { fifoFull with
        aio := none, reopen_tmr := some 1000000,
        calls := fifoFull.calls ++ [OsCall.aio_close 5] } ∧
    ({ fifoFull with
        aio := none, reopen_tmr := some 1000000,
        calls := fifoFull.calls ++ [OsCall.aio_close 5] } : Session).gpsfill ≠ 0 := by
  refine ⟨rfl, ?_, rfl, ?_, ?_⟩
  · intro h
    have h65 : (10 : Nat) = 65 := List.eq_of_mem_replicate h
    exact absurd h65 (by decide)
  · decide!
  · decide!


/-! ### Consuming a line -/

/-- When the first `*` of the line has fewer than two bytes of the array
after it, `nmea_cksum` reads (and would write) beyond the array. -/
theorem nmea_cksum_overrun (data : List Nat) (len k : Nat) (h0 : data[0]? = some 36)
    (hk : data[k]? = some 42) (hk1 : 1 ≤ k) (hkl : k < len)
    (hfirst : ∀ j, 1 ≤ j → j < k → data[j]? ≠ some 42) (hlen : data.length ≤ k + 2) :
    nmea_cksum data len = none := by
  have hloop := nmea_cksum_loop_star data k hk (len - 1) 1 0 hk1 (by omega) hfirst
  have h2 : data[k + 2]? = none := List.getElem?_eq_none hlen
  unfold nmea_cksum
  rw [h0]
  simp only [ne_eq, not_true_eq_false, if_false]
  rw [hloop]
  unfold cksumAtStar
  rw [h2]
  cases data[k + 1]? <;> rfl

/-- C21: a `*` right before the line feed makes `nmea_cksum` overwrite the
first byte of the next line. The open FIFO session reads the seven bytes
`$A*` LF `$B` LF in one `read`: the line feed is at index 3 of 7 bytes.
`nmea_cksum(gpsline, 3)` finds `*` at index 2 and zeroes `gpsline[3]` and
`gpsline[4]`, the byte after the terminator; after the turn `gpsfill` is
3 = 7 - (3+1), and the buffer starts with 0, 66, 10 where the original bytes
4..6 are 36, 66, 10. And in a full buffer with `$` at index 0, the first `*`
at index 1022 and the line feed at index 1023, the loop body at index 1023
accesses `gpsline[1024]`, outside the array. -/
theorem line_end_star_clobbers_next_line :
    gps_read exampleConf [readTurn (ReadAns.data [36, 65, 42, 10, 36, 66, 10])] fifoOpen =
      Run.ret { fifoOpen with
        gpsfill := 3,
        gpsline := [0, 66, 10, 0, 0, 66, 10] ++ List.replicate 1017 0 } ∧
    List.drop (3 + 1) [36, 65, 42, 10, 36, 66, 10] = [36, 66, 10] ∧
    List.take 3 ([0, 66, 10, 0, 0, 66, 10] ++ List.replicate 1017 0) = [0, 66, 10] ∧
    (∀ (c : Conf) (st : Session) (env : Env),
      st.gpsline.length = 1024 → st.gpsline[0]? = some 36 → st.gpsline[1022]? = some 42 →
      (∀ j, 1 ≤ j → j < 1022 → st.gpsline[j]? ≠ some 42) → st.gpsline[1023]? = some 10 →
      scan_body c st env 1024 1023 = Run.fault) := by
  refine ⟨by decide!, by decide, by decide, ?_⟩
  intro c st env hlen h0 hk hfirst hnl
  unfold scan_body
  rw [if_pos hnl, nmea_cksum_overrun st.gpsline 1023 1022 h0 hk (by decide) (by decide) hfirst
    (by omega)]


/-! ### The `from` point of a move report -/

theorem track_fix_report_no_move_alarm (delay : Int) (st st2 : FixState) (env : Env)
    (s s2 : Sink) (x : Fix) (h : track_fix_report delay st env s x = some (st2, s2))
    (hs : ∀ m ∈ s.sent, isMoveAlarm m = false) : ∀ m ∈ s2.sent, isMoveAlarm m = false := by
  intro m hm
  rcases (track_fix_report_cases _ _ _ _ _ _ _ h).2 with ⟨-, hc⟩ | ⟨-, hc⟩
  · rcases hc m hm with h1 | h1
    · exact hs m h1
    · rw [h1]; rfl
  · rw [hc] at hm
    simp only [List.mem_append, List.mem_cons, List.mem_singleton, List.not_mem_nil,
      or_false] at hm
    rcases hm with h1 | h1 | h1
    · exact hs m h1
    · rw [h1]; rfl
    · rw [h1]; rfl

theorem track_nofix_report_no_move_alarm (delay : Int) (st st3 : FixState) (env : Env)
    (s s3 : Sink) (x : Fix) (h : track_nofix_report delay st env s x = some (st3, s3))
    (hs : ∀ m ∈ s.sent, isMoveAlarm m = false) : ∀ m ∈ s3.sent, isMoveAlarm m = false := by
  intro m hm
  obtain ⟨c1, c2⟩ := track_nofix_report_cases _ _ _ _ _ _ _ h
  by_cases hq : x.quality = 0
  · obtain ⟨-, -, hc⟩ := c2 hq
    rcases hc with ⟨-, -, e⟩ | ⟨-, ⟨-, e | e⟩ | ⟨-, e⟩⟩
    · rw [e] at hm; exact hs m hm
    · rw [e] at hm; exact hs m hm
    · rw [e] at hm
      simp only [List.mem_append, List.mem_singleton] at hm
      rcases hm with h1 | h1
      · exact hs m h1
      · rw [h1]; rfl
    · rw [e] at hm
      simp only [List.mem_append, List.mem_cons, List.mem_singleton, List.not_mem_nil,
        or_false] at hm
      rcases hm with h1 | h1 | h1
      · exact hs m h1
      · rw [h1]; rfl
      · rw [h1]; rfl
  · rw [(c1 hq).2] at hm
    exact hs m hm

/-- The alarm text of a move report, if a pass hands one to the sink, is
the one built from the `from` point the position update left, and then
`report_move` is cleared; with no such text in the pass, `report_move` and
the `from` point are as the position update left them. -/
theorem nmea_gga_track_move_alarm (delay : Int) (st st1 : FixState) (env : Env) (x : Fix)
    (msgs : List Msg) (h : nmea_gga_track delay st env x = some (st1, msgs)) :
    (∀ m ∈ msgs, isMoveAlarm m = true →
      m = Msg.alarmMove (track_position st x).from_lat (track_position st x).from_lon
        x.lat x.lon x.alt x.dilution (wrap32 x.satellites) (wrap32 x.quality) ∧
      st1.report_move = 0) ∧
    ((∀ m ∈ msgs, isMoveAlarm m = false) →
      st1.report_move = (track_position st x).report_move) ∧
    st1.from_lat = (track_position st x).from_lat ∧
    st1.from_lon = (track_position st x).from_lon := by
  obtain ⟨-, -, -, -, -, t6, t7, t8⟩ := nmea_gga_track_position _ _ _ _ _ _ h
  obtain ⟨st2, s2, st3, s3, s5, h2, h3, h5, hmsgs⟩ := nmea_gga_track_stages _ _ _ _ _ _ h
  have n2 := track_fix_report_no_move_alarm _ _ _ _ _ _ _ h2 (by intro m hm; simp at hm)
  have n3 := track_nofix_report_no_move_alarm _ _ _ _ _ _ _ h3 n2
  obtain ⟨c0, c1⟩ := track_move_report_cases _ _ _ _ _ h5
  obtain ⟨p6, p7, -⟩ := track_move_report_position _ _ _ _ _ h5
  refine ⟨?_, ?_, t6, t7⟩
  · intro m hm ha
    rw [hmsgs] at hm
    by_cases hrm : (track_position st3 x).report_move = 0
    · rw [(c0 hrm).2] at hm
      rw [n3 m hm] at ha
      exact absurd ha (by decide)
    · rcases c1 hrm with ⟨-, e | e⟩ | ⟨e5, e⟩
      · rw [e] at hm
        rw [n3 m hm] at ha
        exact absurd ha (by decide)
      · rw [e] at hm
        simp only [List.mem_append, List.mem_singleton] at hm
        rcases hm with h1 | h1
        · rw [n3 m h1] at ha
          exact absurd ha (by decide)
        · rw [h1] at ha
          simp [isMoveAlarm] at ha
      · rw [e] at hm
        simp only [List.mem_append, List.mem_cons, List.mem_singleton, List.not_mem_nil,
          or_false] at hm
        have hr0 : st1.report_move = 0 := by rw [e5]
        have hfl : (track_position st3 x).from_lat = (track_position st x).from_lat := by
          rw [← t6, e5]
        have hfo : (track_position st3 x).from_lon = (track_position st x).from_lon := by
          rw [← t7, e5]
        rcases hm with h1 | h1 | h1
        · rw [n3 m h1] at ha
          exact absurd ha (by decide)
        · rw [h1] at ha
          simp [isMoveAlarm] at ha
        · rw [h1, hfl, hfo]
          exact ⟨rfl, hr0⟩
  · intro hno
    rcases t8 with e8 | ⟨-, -, hin⟩
    · exact e8
    · have := hno _ hin
      simp [isMoveAlarm] at this

theorem track_position_from_pending (st : FixState) (x : Fix) (h : st.report_move ≠ 0) :
    (track_position st x).report_move ≠ 0 ∧
    (track_position st x).from_lat = st.from_lat ∧
    (track_position st x).from_lon = st.from_lon := by
  obtain ⟨p1, p2, -, -⟩ := track_position_fields st x
  by_cases hc : x.quality > 0 ∧ (check_tolerance st.orig_lat x.lat (1 / 1000) ≠ 0 ∨
      check_tolerance st.orig_lon x.lon (1 / 1000) ≠ 0)
  · obtain ⟨-, -, -, -, -, u6, u7, u8⟩ := p1 hc.1 hc.2
    rw [if_neg h] at u7 u8
    refine ⟨?_, u7, u8⟩
    rw [u6]
    decide
  · obtain ⟨-, -, -, -, -, u6, u7, u8⟩ := p2 (by tauto)
    refine ⟨?_, u7, u8⟩
    rw [u6]
    exact h

/-- While a move is pending, the first move alarm of a run of passes carries
the `from` point of the state the run starts from. -/
theorem run_passes_pending_from (delay : Int) :
    ∀ (ps : List Pass) (st st1 : FixState) (log pre post : List (List Msg))
      (msgs : List Msg) (m : Msg),
      st.report_move ≠ 0 → run_passes delay st ps = some (st1, log) →
      log = pre ++ msgs :: post → (∀ l ∈ pre, ∀ a ∈ l, isMoveAlarm a = false) →
      m ∈ msgs → isMoveAlarm m = true →
      ∃ la lo al di sa qu, m = Msg.alarmMove st.from_lat st.from_lon la lo al di sa qu := by
  intro ps
  induction ps with
  | nil =>
    intro st st1 log pre post msgs m _ hrun hlog _ _ _
    simp only [run_passes, Option.some.injEq, Prod.mk.injEq] at hrun
    rw [← hrun.2] at hlog
    exact absurd hlog (by simp)
  | cons p rest ih =>
    intro st st1 log pre post msgs m hpend hrun hlog hpre hm ha
    unfold run_passes at hrun
    cases h1 : nmea_gga_track delay st p.env p.x with
    | none => simp [h1] at hrun
    | some r1 =>
      obtain ⟨s1, m1⟩ := r1
      simp only [h1] at hrun
      cases h2 : run_passes delay s1 rest with
      | none => simp [h2] at hrun
      | some r2 =>
        obtain ⟨s2, restlog⟩ := r2
        simp only [h2, Option.some.injEq, Prod.mk.injEq] at hrun
        obtain ⟨a1, a2, a3, a4⟩ := nmea_gga_track_move_alarm _ _ _ _ _ _ h1
        obtain ⟨t1, t2, t3⟩ := track_position_from_pending st p.x hpend
        rw [← hrun.2] at hlog
        cases pre with
        | nil =>
          simp only [List.nil_append, List.cons.injEq] at hlog
          rw [← hlog.1] at hm
          obtain ⟨e, -⟩ := a1 m hm ha
          rw [t2, t3] at e
          exact ⟨_, _, _, _, _, _, e⟩
        | cons l pre1 =>
          simp only [List.cons_append, List.cons.injEq] at hlog
          have hl : ∀ a ∈ m1, isMoveAlarm a = false := by
            rw [hlog.1]
            exact hpre l (List.mem_cons_self _ _)
          have hs1 : s1.report_move ≠ 0 := by
            rw [a2 hl]
            exact t1
          obtain ⟨la, lo, al, di, sa, qu, e⟩ := ih s1 s2 restlog pre1 post msgs m hs1 h2 hlog.2
            (fun l1 hl1 => hpre l1 (List.mem_cons_of_mem _ hl1)) hm ha
          rw [a3, a4, t2, t3] at e
          exact ⟨_, _, _, _, _, _, e⟩

/-- C22, amended: the `from` point of a move is carried by the move alarm.
(1) In a pass with quality > 0 in
which the position differs from the origin by the tolerance or more on
either axis, the origin becomes the position of the sentence and the
position update sets `report_move`; the `from` point becomes the previous
origin if no move was pending before the pass and stays as it was if one
was; after the pass `report_move` is 1, or it is 0 and the move alarm with
that `from` point was handed to the sink. (2) A move alarm handed to the
sink in a pass (the move report succeeded) leaves `report_move` cleared.
(3) Over a run of passes that starts with no move pending and with a pass
that detects a move, the first move alarm handed to the sink, after
however many passes in which the sink rejected the report and whatever
further moves were detected in them, carries as `from` the origin that held
before the run. (The alarm text is what `send_gpsev_fix` hands to the sink
right after the JSON move event, which has no `from` field.) -/
theorem move_from_point (delay : Int) :
    (∀ (st st1 : FixState) (env : Env) (x : Fix) (msgs : List Msg),
      x.quality > 0 →
      (check_tolerance st.orig_lat x.lat (1 / 1000) ≠ 0 ∨
        check_tolerance st.orig_lon x.lon (1 / 1000) ≠ 0) →
      nmea_gga_track delay st env x = some (st1, msgs) →
      st1.orig_lat = x.lat ∧ st1.orig_lon = x.lon ∧
      (track_position st x).report_move = 1 ∧
      st1.from_lat = (if st.report_move = 0 then st.orig_lat else st.from_lat) ∧
      st1.from_lon = (if st.report_move = 0 then st.orig_lon else st.from_lon) ∧
      (st1.report_move = 1 ∨
        (st1.report_move = 0 ∧
          Msg.alarmMove (if st.report_move = 0 then st.orig_lat else st.from_lat)
            (if st.report_move = 0 then st.orig_lon else st.from_lon)
            x.lat x.lon x.alt x.dilution (wrap32 x.satellites) (wrap32 x.quality) ∈ msgs))) ∧
    (∀ (st st1 : FixState) (env : Env) (x : Fix) (msgs : List Msg) (m : Msg),
      nmea_gga_track delay st env x = some (st1, msgs) →
      m ∈ msgs → isMoveAlarm m = true → st1.report_move = 0) ∧
    (∀ (st0 st1 : FixState) (p1 : Pass) (ps : List Pass) (log pre post : List (List Msg))
      (msgs : List Msg) (m : Msg),
      st0.report_move = 0 → p1.x.quality > 0 →
      (check_tolerance st0.orig_lat p1.x.lat (1 / 1000) ≠ 0 ∨
        check_tolerance st0.orig_lon p1.x.lon (1 / 1000) ≠ 0) →
      run_passes delay st0 (p1 :: ps) = some (st1, log) →
      log = pre ++ msgs :: post → (∀ l ∈ pre, ∀ a ∈ l, isMoveAlarm a = false) →
      m ∈ msgs → isMoveAlarm m = true →
      ∃ la lo al di sa qu, m = Msg.alarmMove st0.orig_lat st0.orig_lon la lo al di sa qu) := by
  refine ⟨?_, ?_, ?_⟩
  · intro st st1 env x msgs hq hmv h
    obtain ⟨t1, t2, -, -, -, t6, t7, t8⟩ := nmea_gga_track_position _ _ _ _ _ _ h
    obtain ⟨u1, u2, -, -, -, u6, u7, u8⟩ := (track_position_fields st x).1 hq hmv
    refine ⟨by rw [t1, u1], by rw [t2, u2], u6, by rw [t6, u7], by rw [t7, u8], ?_⟩
    rcases t8 with e | ⟨e, -, hin⟩
    · left
      rw [e, u6]
    · right
      rw [u7, u8] at hin
      exact ⟨e, hin⟩
  · intro st st1 env x msgs m h hm ha
    exact ((nmea_gga_track_move_alarm _ _ _ _ _ _ h).1 m hm ha).2
  · intro st0 st1 p1 ps log pre post msgs m h0 hq hmv hrun hlog hpre hm ha
    unfold run_passes at hrun
    cases h1 : nmea_gga_track delay st0 p1.env p1.x with
    | none => simp [h1] at hrun
    | some r1 =>
      obtain ⟨s1, m1⟩ := r1
      simp only [h1] at hrun
      cases h2 : run_passes delay s1 ps with
      | none => simp [h2] at hrun
      | some r2 =>
        obtain ⟨s2, restlog⟩ := r2
        simp only [h2, Option.some.injEq, Prod.mk.injEq] at hrun
        obtain ⟨a1, a2, a3, a4⟩ := nmea_gga_track_move_alarm _ _ _ _ _ _ h1
        obtain ⟨-, -, -, -, -, u6, u7, u8⟩ := (track_position_fields st0 p1.x).1 hq hmv
        rw [if_pos h0] at u7 u8
        rw [← hrun.2] at hlog
        cases pre with
        | nil =>
          simp only [List.nil_append, List.cons.injEq] at hlog
          rw [← hlog.1] at hm
          obtain ⟨e, -⟩ := a1 m hm ha
          rw [u7, u8] at e
          exact ⟨_, _, _, _, _, _, e⟩
        | cons l pre1 =>
          simp only [List.cons_append, List.cons.injEq] at hlog
          have hl : ∀ a ∈ m1, isMoveAlarm a = false := by
            rw [hlog.1]
            exact hpre l (List.mem_cons_self _ _)
          have hs1 : s1.report_move ≠ 0 := by
            rw [a2 hl, u6]
            decide
          obtain ⟨la, lo, al, di, sa, qu, e⟩ := run_passes_pending_from delay ps s1 s2 restlog
            pre1 post msgs m hs1 h2 hlog.2
            (fun l1 hl1 => hpre l1 (List.mem_cons_of_mem _ hl1)) hm ha
          rw [a3, a4, u7, u8] at e
          exact ⟨_, _, _, _, _, _, e⟩

theorem move_from_point_witness :
    ∃ la lo al di sa qu,
      Msg.alarmMove 5 5 2 0 0 0 0 1 =
        Msg.alarmMove ({ FixState.init with orig_lat := 5, orig_lon := 5 } : FixState).orig_lat
          ({ FixState.init with orig_lat := 5, orig_lon := 5 } : FixState).orig_lon
          la lo al di sa qu :=
  (move_from_point 120).2.2 { FixState.init with orig_lat := 5, orig_lon := 5 }
    { FixState.init with
      last_lat := 2, orig_lat := 2, orig_lon := 0, from_lat := 5, from_lon := 5,
      last_quality := 1, lastpos := some (2, 0) }
    (passAt ⟨1, 0, 0, 0, 0, 1⟩ 0 [false] [])
    [passAt ⟨2, 0, 0, 0, 0, 1⟩ 1 [false] [], passAt ⟨2, 0, 0, 0, 0, 1⟩ 2 [true, true] [true]]
    [[], [], [Msg.gpsev GpsEv.MOVE 2 0 0 0 0 1, Msg.alarmMove 5 5 2 0 0 0 0 1]]
    [[], []] [] [Msg.gpsev GpsEv.MOVE 2 0 0 0 0 1, Msg.alarmMove 5 5 2 0 0 0 0 1]
    (Msg.alarmMove 5 5 2 0 0 0 0 1)
    rfl (by decide) (Or.inl (by decide!)) (by decide!) rfl (by simp) (by simp) rfl

/-- C22, counterexample: two passes with the same sentence (position (1, 0),
quality 1) and an accepting sink, one from a state whose origin is (5, 5),
one from a state whose origin is (7, 7). The move alarms carry the two
origins as `from`; the move events handed to the sink are the same, built
from the new position only: the event carries no `from`. -/
theorem move_event_without_from :
    nmea_gga_track 120 { FixState.init with orig_lat := 5, orig_lon := 5 }
        ⟨0, 0, true, [true, true], [true]⟩ ⟨1, 0, 0, 0, 0, 1⟩ =
      some ({ FixState.init with
          last_lat := 1, orig_lat := 1, orig_lon := 0, from_lat := 5, from_lon := 5,
          last_quality := 1, lastpos := some (1, 0) },
        [Msg.gpsev GpsEv.MOVE 1 0 0 0 0 1, Msg.alarmMove 5 5 1 0 0 0 0 1]) ∧
    nmea_gga_track 120 { FixState.init with orig_lat := 7, orig_lon := 7 }
        ⟨0, 0, true, [true, true], [true]⟩ ⟨1, 0, 0, 0, 0, 1⟩ =
      some ({ FixState.init with
          last_lat := 1, orig_lat := 1, orig_lon := 0, from_lat := 7, from_lon := 7,
          last_quality := 1, lastpos := some (1, 0) },
        [Msg.gpsev GpsEv.MOVE 1 0 0 0 0 1, Msg.alarmMove 7 7 1 0 0 0 0 1]) ∧
    [Msg.gpsev GpsEv.MOVE 1 0 0 0 0 1, Msg.alarmMove 5 5 1 0 0 0 0 1].filter
        (fun m => !isMoveAlarm m) =
      [Msg.gpsev GpsEv.MOVE 1 0 0 0 0 1, Msg.alarmMove 7 7 1 0 0 0 0 1].filter
        (fun m => !isMoveAlarm m) := by
  refine ⟨by decide!, by decide!, by decide!⟩


/-- C23, counterexample: the open FIFO session gets the two complete lines
`a` LF `b` LF in one `read`, and the next `read` would block. `gps_read`
returns with the handle open and the second line still in the buffer:
`gpsfill` is 2 and `gpsline[1]` is a line feed. -/
theorem second_line_left_in_buffer :
    gps_read exampleConf [readTurn (ReadAns.data [97, 10, 98, 10]), readTurn ReadAns.eagain]
        fifoOpen =
      Run.ret { fifoOpen with
        gpsfill := 2, gpsline := [98, 10, 98, 10] ++ List.replicate 1020 0 } ∧
    ({ fifoOpen with
        gpsfill := 2, gpsline := [98, 10, 98, 10] ++ List.replicate 1020 0 } : Session).aio =
      some 5 ∧
    (1 < 2 ∧ ([98, 10, 98, 10] ++ List.replicate 1020 0)[1]? = some 10) := by
  refine ⟨by decide!, by decide!, by decide, by decide!⟩


/-! ### What a turn of `gps_read` writes into the buffer -/

theorem zeroed_refl (b : List Nat) : zeroed b b := ⟨rfl, fun _ => Or.inl rfl⟩

theorem zeroed_trans {a b c : List Nat} (h1 : zeroed a b) (h2 : zeroed b c) : zeroed a c := by
  refine ⟨h2.1.trans h1.1, fun j => ?_⟩
  rcases h2.2 j with e | e
  · rcases h1.2 j with e1 | e1
    · exact Or.inl (e.trans e1)
    · exact Or.inr (e.trans e1)
  · exact Or.inr e

theorem zeroed_set (b : List Nat) (q : Nat) : zeroed b (b.set q 0) := by
  refine ⟨List.length_set _ _ _, fun j => ?_⟩
  by_cases hj : q = j
  · subst hj
    by_cases hq : q < b.length
    · right
      rw [List.getElem?_set_self hq]
    · left
      rw [List.getElem?_eq_none (by rw [List.length_set]; omega),
        List.getElem?_eq_none (by omega)]
  · left
    exact List.getElem?_set_ne hj

theorem nmea_cksum_loop_zeroed (data : List Nat) :
    ∀ (fuel i v : Nat) (r : Int) (d1 : List Nat),
      nmea_cksum_loop data fuel i v = some (r, d1) → zeroed data d1 := by
  intro fuel
  induction fuel with
  | zero =>
    intro i v r d1 h
    simp only [nmea_cksum_loop, Option.some.injEq, Prod.mk.injEq] at h
    rw [← h.2]
    exact zeroed_refl _
  | succ n ih =>
    intro i v r d1 h
    unfold nmea_cksum_loop at h
    split at h
    · exact absurd h (by simp)
    · split at h
      · split at h
        · simp only [Option.some.injEq, Prod.mk.injEq] at h
          rw [← h.2]
          exact zeroed_trans (zeroed_set _ _) (zeroed_set _ _)
        · exact absurd h (by simp)
      · exact ih _ _ _ _ h

theorem nmea_cksum_zeroed (data : List Nat) (len : Nat) (r : Int) (d1 : List Nat)
    (h : nmea_cksum data len = some (r, d1)) : zeroed data d1 := by
  unfold nmea_cksum at h
  split at h
  · exact absurd h (by simp)
  · split at h
    · simp only [Option.some.injEq, Prod.mk.injEq] at h
      rw [← h.2]
      exact zeroed_refl _
    · exact nmea_cksum_loop_zeroed _ _ _ _ _ _ h

theorem nmea_str_loop_zeroed :
    ∀ (left : Nat) (buf : List Nat) (pp0 p : Nat) (args : List Nat) (r : StrResult),
      nmea_str_loop left buf pp0 p args = some r → zeroed buf r.buf := by
  intro left
  induction left with
  | zero =>
    intro buf pp0 p args r h
    simp only [nmea_str_loop, Option.some.injEq] at h
    rw [← h]
    exact zeroed_refl _
  | succ n ih =>
    intro buf pp0 p args r h
    unfold nmea_str_loop at h
    split at h
    · exact absurd h (by simp)
    · split at h
      · simp only [Option.some.injEq] at h
        rw [← h]
        exact zeroed_refl _
      · split at h
        · exact absurd h (by simp)
        · exact zeroed_trans (zeroed_set _ _) (ih _ _ _ _ _ h)

theorem nmea_str_zeroed (buf : List Nat) (pp cnt : Nat) (r : StrResult)
    (h : nmea_str buf pp cnt = some r) : zeroed buf r.buf :=
  nmea_str_loop_zeroed _ _ _ _ _ _ h

theorem nmea_gga_fields_zeroed (buf : List Nat) (p : Nat) (b1 : List Nat)
    (f : Option GgaFields) (h : nmea_gga_fields buf p = some (b1, f)) : zeroed buf b1 := by
  unfold nmea_gga_fields at h
  repeat' split at h
  all_goals try (simp only [Option.some.injEq, Prod.mk.injEq, reduceCtorEq] at h)
  all_goals
    rw [← h.1]
    first
      | exact zeroed_refl _
      | exact nmea_str_zeroed _ _ _ _ (by assumption)
      | exact zeroed_trans (nmea_str_zeroed _ _ _ _ (by assumption))
          (nmea_str_zeroed _ _ _ _ (by assumption))

theorem nmea_gga_decode_zeroed (buf : List Nat) (p : Nat) (b1 : List Nat) (x : Option Fix)
    (h : nmea_gga_decode buf p = some (b1, x)) : zeroed buf b1 := by
  unfold nmea_gga_decode at h
  split at h
  · exact absurd h (by simp)
  · rename_i hf
    have hz := nmea_gga_fields_zeroed _ _ _ _ hf
    split at h
    · exact absurd h (by simp)
    · simp only [Option.some.injEq, Prod.mk.injEq] at h
      rw [← h.1]
      exact hz
  · rename_i hf
    have hz := nmea_gga_fields_zeroed _ _ _ _ hf
    repeat' split at h
    all_goals try (simp only [Option.some.injEq, Prod.mk.injEq, reduceCtorEq] at h)
    all_goals
      rw [← h.1]
      exact hz

theorem nmea_gga_zeroed (delay : Int) (fx fx1 : FixState) (env : Env) (buf : List Nat)
    (p : Nat) (msgs : List Msg) (b1 : List Nat)
    (h : nmea_gga delay fx env buf p = some (fx1, msgs, b1)) : zeroed buf b1 := by
  unfold nmea_gga at h
  split at h
  · exact absurd h (by simp)
  · rename_i hd
    simp only [Option.some.injEq, Prod.mk.injEq] at h
    rw [← h.2.2]
    exact nmea_gga_decode_zeroed _ _ _ _ hd
  · rename_i hd
    split at h
    · exact absurd h (by simp)
    · simp only [Option.some.injEq, Prod.mk.injEq] at h
      rw [← h.2.2]
      exact nmea_gga_decode_zeroed _ _ _ _ hd

/-- The loop body at a line feed: `done` becomes `i + 1`, `gpsfill` is not
touched and the buffer is only zeroed in places. -/
theorem scan_body_line (c : Conf) (st st2 : Session) (env : Env) (n i done : Nat)
    (hnl : st.gpsline[i]? = some 10)
    (h : scan_body c st env n i = Run.ret (done, st2)) :
    done = i + 1 ∧ zeroed st.gpsline st2.gpsline ∧ st2.gpsfill = st.gpsfill := by
  unfold scan_body at h
  rw [if_pos hnl] at h
  split at h
  · exact absurd h (by simp)
  · rename_i ok line1 hck
    have hz1 := nmea_cksum_zeroed _ _ _ _ hck
    split at h
    · split at h
      · split at h
        · exact absurd h (by simp)
        · rename_i fx msgs line2 hg
          have hz2 := nmea_gga_zeroed _ _ _ _ _ _ _ _ hg
          simp only [Run.ret.injEq, Prod.mk.injEq] at h
          rw [← h.1, ← h.2]
          exact ⟨rfl, zeroed_trans hz1 hz2, rfl⟩
      · simp only [Run.ret.injEq, Prod.mk.injEq] at h
        rw [← h.1, ← h.2]
        exact ⟨rfl, hz1, rfl⟩
    · simp only [Run.ret.injEq, Prod.mk.injEq] at h
      rw [← h.1, ← h.2]
      exact ⟨rfl, hz1, rfl⟩

theorem scan_stop_some (ubxOn : Bool) (buf : List Nat) (n : Nat) :
    ∀ (fuel i k : Nat), scan_stop ubxOn buf n fuel i = some k →
      i ≤ k ∧ k < i + fuel ∧
      (buf[k]? = some 10 ∨ (ubxOn = true ∧ buf[k]? = some 0xB5)) := by
  intro fuel
  induction fuel with
  | zero =>
    intro i k h
    simp [scan_stop] at h
  | succ m ih =>
    intro i k h
    unfold scan_stop at h
    split at h
    · rename_i h10
      simp only [Option.some.injEq] at h
      rw [← h]
      exact ⟨le_refl _, by omega, Or.inl h10⟩
    · split at h
      · rename_i hu
        simp only [Option.some.injEq] at h
        rw [← h]
        exact ⟨le_refl _, by omega, Or.inr ⟨hu.1, hu.2.1⟩⟩
      · obtain ⟨a, b, d⟩ := ih _ _ h
        exact ⟨by omega, by omega, d⟩

theorem scan_stop_none_free (ubxOn : Bool) (buf : List Nat) (n : Nat) :
    ∀ (fuel i : Nat), scan_stop ubxOn buf n fuel i = none →
      ∀ j, i ≤ j → j < i + fuel → buf[j]? ≠ some 10 := by
  intro fuel
  induction fuel with
  | zero =>
    intro i _ j h1 h2
    omega
  | succ m ih =>
    intro i h j h1 h2
    unfold scan_stop at h
    split at h
    · exact absurd h (by simp)
    · rename_i h10
      split at h
      · exact absurd h (by simp)
      · rcases Nat.eq_or_lt_of_le h1 with e | e
        · rw [← e]
          exact h10
        · exact ih _ h j (by omega) (by omega)


/-! ### Indices after `read` and `memmove` -/

theorem read_store_length (buf got : List Nat) (a : Nat) (h : a + got.length ≤ buf.length) :
    (read_store buf a got).length = buf.length := by
  unfold read_store
  simp only [List.length_append, List.length_take, List.length_drop]
  omega

theorem read_store_below (buf got : List Nat) (a j : Nat) (ha : a ≤ buf.length) (hj : j < a) :
    (read_store buf a got)[j]? = buf[j]? := by
  unfold read_store
  rw [List.append_assoc, List.getElem?_append_left (by rw [List.length_take]; omega),
    List.getElem?_take_of_lt hj]

theorem read_store_got (buf got : List Nat) (a j : Nat) (ha : a ≤ buf.length) (hj : a ≤ j)
    (hj2 : j < a + got.length) : (read_store buf a got)[j]? = got[j - a]? := by
  unfold read_store
  have hl : (List.take a buf).length = a := by rw [List.length_take]; omega
  rw [List.append_assoc, List.getElem?_append_right (by rw [hl]; exact hj), hl,
    List.getElem?_append_left (by omega)]

theorem memmove_length (buf : List Nat) (done len : Nat) (h : done + len ≤ buf.length) :
    (memmove buf done len).length = buf.length := by
  unfold memmove
  simp only [List.length_append, List.length_take, List.length_drop]
  omega

theorem memmove_moved (buf : List Nat) (done len j : Nat) (h : done + len ≤ buf.length)
    (hj : j < len) : (memmove buf done len)[j]? = buf[done + j]? := by
  unfold memmove
  rw [List.getElem?_append_left (by rw [List.length_take, List.length_drop]; omega),
    List.getElem?_take_of_lt hj, List.getElem?_drop]

theorem count_le_one_unique (b : Nat) :
    ∀ (l : List Nat) (i j : Nat), l.count b ≤ 1 → l[i]? = some b → l[j]? = some b → i = j := by
  intro l
  induction l with
  | nil =>
    intro i j _ hi _
    simp at hi
  | cons x xs ih =>
    intro i j hc hi hj
    rw [List.count_cons] at hc
    cases i with
    | zero =>
      cases j with
      | zero => rfl
      | succ j1 =>
        simp only [List.getElem?_cons_zero, Option.some.injEq] at hi
        simp only [List.getElem?_cons_succ] at hj
        have hpos : 0 < xs.count b := List.count_pos_iff.2 (List.getElem?_mem hj)
        rw [hi] at hc
        simp at hc
        omega
    | succ i1 =>
      simp only [List.getElem?_cons_succ] at hi
      cases j with
      | zero =>
        simp only [List.getElem?_cons_zero, Option.some.injEq] at hj
        have hpos : 0 < xs.count b := List.count_pos_iff.2 (List.getElem?_mem hi)
        rw [hj] at hc
        simp at hc
        omega
      | succ j1 =>
        simp only [List.getElem?_cons_succ] at hj
        have := ih i1 j1 (by omega) hi hj
        omega

/-- The buffer after a `read` stored `got` behind a part without line feed:
at most one line feed among the `n` bytes, and no sync byte. -/
theorem read_store_one_line (ubxOn : Bool) (buf got : List Nat) (fill : Nat)
    (hlen : buf.length = 1024) (hfit : fill + got.length ≤ 1024)
    (hclean : noLineIn ubxOn buf fill) (hcnt : got.count 10 ≤ 1)
    (hb5 : ubxOn = true → 0xB5 ∉ got) :
    (read_store buf fill got).length = 1024 ∧
    (∀ j1 j2, j1 < fill + got.length → j2 < fill + got.length →
      (read_store buf fill got)[j1]? = some 10 → (read_store buf fill got)[j2]? = some 10 →
      j1 = j2) ∧
    (ubxOn = true → ∀ j, j < fill + got.length → (read_store buf fill got)[j]? ≠ some 0xB5) := by
  have hfl : fill ≤ buf.length := by omega
  have hidx : ∀ j, j < fill + got.length → (read_store buf fill got)[j]? = some 10 →
      fill ≤ j ∧ got[j - fill]? = some 10 := by
    intro j hj h10
    by_cases hjf : j < fill
    · rw [read_store_below _ _ _ _ hfl hjf] at h10
      exact absurd h10 (hclean j hjf).1
    · rw [read_store_got _ _ _ _ hfl (by omega) hj] at h10
      exact ⟨by omega, h10⟩
  refine ⟨?_, ?_, ?_⟩
  · rw [read_store_length _ _ _ (by omega), hlen]
  · intro j1 j2 h1 h2 e1 e2
    obtain ⟨a1, b1⟩ := hidx j1 h1 e1
    obtain ⟨a2, b2⟩ := hidx j2 h2 e2
    have := count_le_one_unique 10 got _ _ hcnt b1 b2
    omega
  · intro hu j hj h
    by_cases hjf : j < fill
    · rw [read_store_below _ _ _ _ hfl hjf] at h
      exact (hclean j hjf).2 hu h
    · rw [read_store_got _ _ _ _ hfl (by omega) hj] at h
      exact hb5 hu (List.getElem?_mem h)

/-- The end of a turn that processed the only line of the buffer: what is
left holds no line feed. -/
theorem consume_noLineIn (ubxOn : Bool) (st2 : Session) (buf : List Nat) (n i : Nat)
    (hlen : buf.length = 1024) (hn : n ≤ 1024) (hi : i < n) (h10 : buf[i]? = some 10)
    (huniq : ∀ j1 j2, j1 < n → j2 < n → buf[j1]? = some 10 → buf[j2]? = some 10 → j1 = j2)
    (hb5 : ubxOn = true → ∀ j, j < n → buf[j]? ≠ some 0xB5)
    (hz : zeroed buf st2.gpsline) (hfill : st2.gpsfill = n) :
    (consume st2 (i + 1)).gpsline.length = 1024 ∧ (consume st2 (i + 1)).gpsfill ≤ 1024 ∧
    noLineIn ubxOn (consume st2 (i + 1)).gpsline (consume st2 (i + 1)).gpsfill := by
  have hl2 : st2.gpsline.length = 1024 := by rw [hz.1, hlen]
  unfold consume
  rw [if_pos (by omega)]
  simp only [hfill]
  by_cases hlt : i + 1 < n
  · rw [if_pos hlt]
    refine ⟨?_, by omega, ?_⟩
    · rw [memmove_length _ _ _ (by omega), hl2]
    · intro j hj
      rw [memmove_moved _ _ _ _ (by omega) hj]
      rcases hz.2 (i + 1 + j) with e | e
      · rw [e]
        constructor
        · intro h
          have := huniq (i + 1 + j) i (by omega) hi h h10
          omega
        · intro hu
          exact hb5 hu _ (by omega)
      · rw [e]
        exact ⟨by decide, fun _ => by decide⟩
  · rw [if_neg hlt]
    refine ⟨hl2, by omega, ?_⟩
    intro j hj
    omega

/-- When the buffer holds no line feed at the start and every `read`
delivers at most one, it holds none whenever `gps_read` returns. -/
theorem gps_read_noLineIn (c : Conf) :
    ∀ (reads : List ReadStep) (st st1 : Session),
      st.gpsline.length = 1024 → st.gpsfill ≤ 1024 →
      noLineIn c.cfg_ubx st.gpsline st.gpsfill →
      (∀ step ∈ reads, ∀ bs, step.ans = ReadAns.data bs →
        bs.count 10 ≤ 1 ∧ (c.cfg_ubx = true → 0xB5 ∉ bs)) →
      gps_read c reads st = Run.ret st1 →
      st1.gpsline.length = 1024 ∧ st1.gpsfill ≤ 1024 ∧
        noLineIn c.cfg_ubx st1.gpsline st1.gpsfill := by
  intro reads
  induction reads with
  | nil =>
    intro st st1 hlen hfill hclean _ h
    unfold gps_read at h
    split at h
    · exact absurd h (by simp)
    · simp only [Run.ret.injEq] at h
      rw [← h]
      exact ⟨hlen, hfill, hclean⟩
  | cons step rest ih =>
    intro st st1 hlen hfill hclean hreads h
    have hrest : ∀ s ∈ rest, ∀ bs, s.ans = ReadAns.data bs →
        bs.count 10 ≤ 1 ∧ (c.cfg_ubx = true → 0xB5 ∉ bs) :=
      fun s hs => hreads s (List.mem_cons_of_mem _ hs)
    unfold gps_read at h
    split at h
    · exact absurd h (by simp)
    · rename_i fd haio
      split at h
      · simp only [Run.ret.injEq] at h
        rw [← h]
        exact ⟨hlen, hfill, hclean⟩
      · exact absurd h (by simp)
      · simp only [Run.ret.injEq] at h
        rw [← h]
        exact ⟨hlen, hfill, hclean⟩
      · rename_i bs hans
        obtain ⟨hcnt, hb5⟩ := hreads step (List.mem_cons_self _ _) bs hans
        split at h
        · simp only [Run.ret.injEq] at h
          rw [← h]
          exact ⟨hlen, hfill, hclean⟩
        · have hgl : (List.take (1024 - st.gpsfill) bs).length ≤ 1024 - st.gpsfill := by
            rw [List.length_take]
            exact Nat.min_le_left _ _
          have hgc : (List.take (1024 - st.gpsfill) bs).count 10 ≤ 1 :=
            le_trans ((List.take_sublist _ _).count_le 10) hcnt
          have hgb : c.cfg_ubx = true → 0xB5 ∉ List.take (1024 - st.gpsfill) bs :=
            fun hu hm => hb5 hu (List.mem_of_mem_take hm)
          obtain ⟨s1, s2, s3⟩ := read_store_one_line c.cfg_ubx st.gpsline
            (List.take (1024 - st.gpsfill) bs) st.gpsfill hlen (by omega) hclean hgc hgb
          simp only at h
          split at h
          · rename_i hnone
            refine ih _ _ s1 (by show st.gpsfill + _ ≤ 1024; omega) ?_ hrest h
            intro j hj
            have hj2 : j < st.gpsfill + (List.take (1024 - st.gpsfill) bs).length := hj
            exact ⟨scan_stop_none_free _ _ _ _ _ hnone j (Nat.zero_le _) (by omega),
              fun hu => s3 hu j hj2⟩
          · rename_i i hsome
            obtain ⟨-, hin, hwhat⟩ := scan_stop_some _ _ _ _ _ _ hsome
            have hin2 : i < st.gpsfill + (List.take (1024 - st.gpsfill) bs).length := by omega
            have h10 : (read_store st.gpsline st.gpsfill
                (List.take (1024 - st.gpsfill) bs))[i]? = some 10 := by
              rcases hwhat with e | ⟨hu, e⟩
              · exact e
              · exact absurd e (s3 hu i hin2)
            split at h
            · rename_i done st2 hbody
              obtain ⟨hd, hz, hf⟩ := scan_body_line _ _ _ _ _ _ _ h10 hbody
              rw [hd] at h
              obtain ⟨k1, k2, k3⟩ := consume_noLineIn c.cfg_ubx st2 _ _ i s1 (by omega) hin2 h10
                s2 s3 hz hf
              exact ih _ _ k1 k2 k3 hrest h
            · exact absurd h (by simp)
            · exact absurd h (by simp)


/-- C23, amended: `gps_read` drains the buffer when each `read` brings at
most one line. If the buffer (1024 bytes, `gpsfill` of them in use) holds no
line feed among its `gpsfill` bytes when `gps_read` is called, and every
`read` delivers at most one line feed (in a build with `CFG_ubx`: and
neither the buffer nor a `read` holds the sync byte 0xB5, which starts a
binary frame), then whenever `gps_read` returns, at `EAGAIN` or at the end
of the stream, there is no line feed among the `gpsfill` bytes of the
buffer, however the bytes are split across the reads. -/
theorem gps_read_drains_single_lines (c : Conf) (reads : List ReadStep) (st st1 : Session)
    (hlen : st.gpsline.length = 1024) (hfill : st.gpsfill ≤ 1024)
    (hclean : noLineIn c.cfg_ubx st.gpsline st.gpsfill)
    (hreads : ∀ step ∈ reads, ∀ bs, step.ans = ReadAns.data bs →
      bs.count 10 ≤ 1 ∧ (c.cfg_ubx = true → 0xB5 ∉ bs))
    (h : gps_read c reads st = Run.ret st1) :
    ∀ j, j < st1.gpsfill → st1.gpsline[j]? ≠ some 10 := by
  intro j hj
  exact ((gps_read_noLineIn c reads st st1 hlen hfill hclean hreads h).2.2 j hj).1

theorem gps_read_drains_single_lines_witness :
    ([100, 99, 10, 100] ++ List.replicate 1020 0)[0]? ≠ some 10 :=
  gps_read_drains_single_lines exampleConf
    [readTurn (ReadAns.data [97, 10]), readTurn (ReadAns.data [98]),
     readTurn (ReadAns.data [99, 10, 100])]
    fifoOpen
    { fifoOpen with gpsfill := 1, gpsline := [100, 99, 10, 100] ++ List.replicate 1020 0 }
    init_len (by decide) (fun j hj => absurd hj (Nat.not_lt_zero j))
    (by
      intro step hs bs hb
      simp only [List.mem_cons, List.mem_singleton, List.not_mem_nil, or_false] at hs
      rcases hs with rfl | rfl | rfl
      · simp only [readTurn, ReadAns.data.injEq] at hb
        subst hb
        exact ⟨by decide, fun _ => by decide⟩
      · simp only [readTurn, ReadAns.data.injEq] at hb
        subst hb
        exact ⟨by decide, fun _ => by decide⟩
      · simp only [readTurn, ReadAns.data.injEq] at hb
        subst hb
        exact ⟨by decide, fun _ => by decide⟩)
    (by decide!) 0 (by decide)


/-! ### The UBX enable command -/

theorem fifoOpen_reachable :
    gps_reopen exampleConf enabledStart (fifoOpens 5 []) = Run.ret (1, fifoOpen) := by
  decide!

/-- C24: the built-in enable command is a valid frame by the rules of
`gps_read`. `UBX_EN_NAVTIMEGPS` starts with the sync bytes 0xB5 0x62; its
length field (bytes 4-5, little-endian) is 3 and its size is 8 + 3; its two
last bytes, read little-endian, equal `fletcher8` over bytes 2..8 (both are
0x832C); and wherever the buffer starts with the command and holds 11 bytes
or more, the loop of `gps_read` (build with `CFG_ubx`) stops at index 0 and
its frame check accepts the frame: `done` becomes 11, the size of the frame.
A `read` that delivers the command to the open FIFO session leaves the
buffer empty again. -/
theorem ubx_enable_frame_valid :
    UBX_EN_NAVTIMEGPS[0]? = some 0xB5 ∧ UBX_EN_NAVTIMEGPS[1]? = some 0x62 ∧
    rt_rlsbf2 UBX_EN_NAVTIMEGPS 4 = some 3 ∧
    UBX_EN_NAVTIMEGPS.length = 8 + 3 ∧
    rt_rlsbf2 UBX_EN_NAVTIMEGPS (6 + 3) = fletcher8 UBX_EN_NAVTIMEGPS 2 (3 + 4) ∧
    fletcher8 UBX_EN_NAVTIMEGPS 2 (3 + 4) = some 0x832C ∧
    (∀ (c : Conf) (st : Session) (env : Env) (rest : List Nat) (n : Nat),
      c.cfg_ubx = true → st.gpsline = UBX_EN_NAVTIMEGPS ++ rest → 11 ≤ n →
      scan_stop c.cfg_ubx st.gpsline n n 0 = some 0 ∧
      scan_body c st env n 0 = Run.ret (11, st)) ∧
    gps_read exampleConf [readTurn (ReadAns.data UBX_EN_NAVTIMEGPS)] fifoOpen =
      Run.ret { fifoOpen with gpsline := UBX_EN_NAVTIMEGPS ++ List.replicate 1013 0 } := by
  refine ⟨by decide, by decide, by decide, by decide, by decide, by decide, ?_, ?_⟩
  · intro c st env rest n hc hb hn
    constructor
    · obtain ⟨m, rfl⟩ : ∃ m, n = m + 1 := ⟨n - 1, by omega⟩
      unfold scan_stop
      rw [hb, hc]
      have h0 : (UBX_EN_NAVTIMEGPS ++ rest)[0]? = some 0xB5 := rfl
      have h1 : (UBX_EN_NAVTIMEGPS ++ rest)[0 + 1]? = some 0x62 := rfl
      rw [if_neg (by rw [h0]; decide), if_pos ⟨rfl, h0, by omega, h1⟩]
    · have h0 : (UBX_EN_NAVTIMEGPS ++ rest)[0]? = some 0xB5 := rfl
      have h4 : rt_rlsbf2 (UBX_EN_NAVTIMEGPS ++ rest) (0 + 4) = some 3 := rfl
      have h9 : rt_rlsbf2 (UBX_EN_NAVTIMEGPS ++ rest) (0 + 6 + 3) = some 0x832C := by
        have e9 : (UBX_EN_NAVTIMEGPS ++ rest)[0 + 6 + 3]? = some 0x2C := rfl
        have e10 : (UBX_EN_NAVTIMEGPS ++ rest)[0 + 6 + 3 + 1]? = some 0x83 := by
          simp [UBX_EN_NAVTIMEGPS]
        unfold rt_rlsbf2
        rw [e9, e10]
      have hf : fletcher8 (UBX_EN_NAVTIMEGPS ++ rest) (0 + 2) (3 + 4) = some 0x832C := by
        have et : List.take (3 + 4) (List.drop (0 + 2) (UBX_EN_NAVTIMEGPS ++ rest)) =
            [0x06, 0x01, 0x03, 0x00, 0x01, 0x20, 0x01] := rfl
        unfold fletcher8
        rw [if_pos (by simp [UBX_EN_NAVTIMEGPS]), et]
        decide
      unfold scan_body
      rw [hb, if_neg (by rw [h0]; decide), if_neg (by omega), h4]
      simp only
      rw [if_neg (by omega), h9, hf]
      simp only [ne_eq, not_true_eq_false, if_false]
  · decide!

end Gps
